import Mathlib

/-!
Shallow embedding of `src/solution.py` (a diagonal-sudoku solver).

Encoding conventions:
* A box `'A1'..'I9'` is encoded as a natural number `9*r + c` with
  `r` the row index (`'A'..'I'` as `0..8`) and `c` the column index
  (`'1'..'9'` as `0..8`); the row-major order of `boxes()` is preserved.
* A candidate string such as `'134'` is encoded as the list `[1,3,4]`
  of its digits, preserving order; Python string operations
  (`replace`, membership, filtering joins) become list operations.
* A `SudokuDict` is the list of the 81 candidate lists in box order
  (Python dicts here always have the 81 boxes, in insertion order
  `boxes()`, as keys); lookup is `getD`, update is `set`.
* The module-level `assignments` log is written but never read by the
  solver; the rules below manipulate the board component
  (`assign_board`), and `assign_value` models the full primitive
  (board and log) for the assignment-contract claims.
* Python `False`/`None` results are distinct constructors; recursion
  is fuel-indexed (`reduceLoop`, `searchF`) with a distinguished
  out-of-fuel constructor that is proved unreachable for the fuel
  used, so termination is a theorem, not an assumption.
* Python iterates `peers[box]` in `set` order, which is unspecified;
  the embedding uses ascending box order.  The board produced by
  `eliminate` does not depend on this order (each step rewrites a
  single distinct peer from its own current value).
-/

/-- Digits `'123456789'` of the source, as naturals. -/
def digitsV : List Nat := [1, 2, 3, 4, 5, 6, 7, 8, 9]

/-- `cross(a, b)`: all `s+t` combinations, here `9*r + c` box codes. -/
def cross (a b : List Nat) : List Nat :=
  a.flatMap (fun r => b.map (fun c => 9 * r + c))

/-- Row letters `'ABCDEFGHI'` as indices. -/
def rowsV : List Nat := [0, 1, 2, 3, 4, 5, 6, 7, 8]

/-- Column characters `'123456789'` as indices. -/
def colsV : List Nat := [0, 1, 2, 3, 4, 5, 6, 7, 8]

/-- `boxes()`: the 81 box codes in row-major order. -/
def boxes : List Nat := cross rowsV colsV

/-- `row_units()`. -/
def row_units : List (List Nat) := rowsV.map (fun r => cross [r] colsV)

/-- `column_units()`. -/
def column_units : List (List Nat) := colsV.map (fun c => cross rowsV [c])

/-- `square_units()`: `cross(rs, cs)` for `rs` in `('ABC','DEF','GHI')`,
`cs` in `('123','456','789')`, outer loop over `rs`. -/
def square_units : List (List Nat) :=
  [[0, 1, 2], [3, 4, 5], [6, 7, 8]].flatMap
    (fun rs => [[0, 1, 2], [3, 4, 5], [6, 7, 8]].map (fun cs => cross rs cs))

/-- `diagonal_units()`: `zip(rows, cols)` and `zip(reversed(rows), cols)`. -/
def diagonal_units : List (List Nat) :=
  [rowsV.map (fun i => 9 * i + i), rowsV.map (fun i => 9 * (8 - i) + i)]

/-- `unit_list()`: rows, then columns, then squares, then diagonals. -/
def unit_list : List (List Nat) :=
  row_units ++ column_units ++ square_units ++ diagonal_units

/-- `unit_dict()[b]`: the units containing box `b`. -/
def unit_dict (b : Nat) : List (List Nat) :=
  unit_list.filter (fun u => u.contains b)

/-- `peer_dict()[b] = set(sum(unit_dict()[b], [])) - {b}`, listed in
ascending box order (Python `set` iteration order is unspecified). -/
def peers (b : Nat) : List Nat :=
  boxes.filter (fun p => p ≠ b && (unit_dict b).flatten.contains p)

/-- Candidate values of one box: the digit list of its value string. -/
abbrev Values := List Nat

/-- A `SudokuDict`: the 81 value strings in box order. -/
abbrev Board := List Values

/-- Lookup `values[box]`. -/
def bget (values : Board) (box : Nat) : Values := values.getD box []

/-- Board component of `assign_value`: unchanged when the value is
already there, else `values[box] = value`. -/
def assign_board (values : Board) (box : Nat) (value : Values) : Board :=
  if bget values box = value then values else values.set box value

/-- `assign_value(values, box, value)` with the `assignments` log made
explicit: returns the new board and the new log.  A full snapshot of
the updated board is appended exactly when a real update stores a
length-1 value. -/
def assign_value (values : Board) (log : List Board) (box : Nat) (value : Values) :
    Board × List Board :=
  if bget values box = value then (values, log)
  else
    let values' := values.set box value
    (values', if value.length = 1 then log ++ [values'] else log)

/-- One step of Python `str.replace(pat, '')` scanning: removes
non-overlapping occurrences of `pat` left to right; `fuel` bounds the
recursion (callers pass the string length, which always suffices). -/
def removeOccAux (pat : List Nat) : Nat → List Nat → List Nat
  | 0, s => s
  | _ + 1, [] => []
  | fuel + 1, c :: rest =>
    if pat.isPrefixOf (c :: rest) then removeOccAux pat fuel ((c :: rest).drop pat.length)
    else c :: removeOccAux pat fuel rest

/-- Python `s.replace(pat, '')`: identity for an empty pattern. -/
def pyReplace (s pat : List Nat) : List Nat :=
  if pat.isEmpty then s else removeOccAux pat s.length s

/-- Inner loop body of `eliminate`: remove the solved digit string from
one peer. -/
def elimPeerStep (digit : Values) (vs : Board) (peer : Nat) : Board :=
  assign_board vs peer (pyReplace (bget vs peer) digit)

/-- Outer loop body of `eliminate`: `digit = values[box]` is read once,
then every peer of `box` is reduced. -/
def elimBoxStep (vs : Board) (box : Nat) : Board :=
  (peers box).foldl (elimPeerStep (bget vs box)) vs

/-- `eliminate(values)`: for every box solved in the incoming board,
remove its digit from all its peers. -/
def eliminate (values : Board) : Board :=
  (boxes.filter (fun b => (bget values b).length == 1)).foldl elimBoxStep values

/-- `possible_twins.setdefault(v, []).append(b)`: insertion-ordered
association list, appending `b` to the entry of key `v`. -/
def pushTwin (m : List (Values × List Nat)) (v : Values) (b : Nat) :
    List (Values × List Nat) :=
  match m with
  | [] => [(v, [b])]
  | (k, bs) :: rest =>
    if k = v then (k, bs ++ [b]) :: rest else (k, bs) :: pushTwin rest v b

/-- The `possible_twins` dictionary of one unit: boxes grouped by value
string, scanning lengths `2..8` and, within a length, unit order. -/
def possibleTwins (values : Board) (unit : List Nat) : List (Values × List Nat) :=
  [2, 3, 4, 5, 6, 7, 8].foldl
    (fun m len =>
      (unit.filter (fun b => (bget values b).length == len)).foldl
        (fun m b => pushTwin m (bget values b) b) m)
    []

/-- Remove the twin digit combination `cd` from one peer box. -/
def twinPeerStep (cd : Values) (vs : Board) (peer : Nat) : Board :=
  assign_board vs peer ((bget vs peer).filter (fun c => !cd.contains c))

/-- Body of the `candidate_digits` loop of `naked_twins`: skip unless
the twin count matches the digit count, else reduce all non-twin boxes
of the unit. -/
def twinGroupStep (unit : List Nat) (vs : Board) (kv : Values × List Nat) : Board :=
  if kv.2.length ≠ kv.1.length then vs
  else (unit.filter (fun b => !kv.2.contains b)).foldl (twinPeerStep kv.1) vs

/-- Processing of one unit inside `naked_twins`: the `possible_twins`
snapshot is built first, then every group held by more than one box is
applied in dictionary (insertion) order. -/
def nakedUnitStep (vs : Board) (unit : List Nat) : Board :=
  ((possibleTwins vs unit).filter (fun kv => 1 < kv.2.length)).foldl (twinGroupStep unit) vs

/-- `naked_twins(values)`: the per-unit step over all units in
`unit_list` order. -/
def naked_twins (values : Board) : Board := unit_list.foldl nakedUnitStep values

/-- Body of the digit loop of `only_choice`: if exactly one box of the
unit admits the digit, assign it there (`candidates[0]`). -/
def onlyDigitStep (unit : List Nat) (vs : Board) (d : Nat) : Board :=
  match unit.filter (fun b => (bget vs b).contains d) with
  | [b] => assign_board vs b [d]
  | _ => vs

/-- Processing of one unit inside `only_choice`. -/
def onlyUnitStep (vs : Board) (unit : List Nat) : Board :=
  digitsV.foldl (onlyDigitStep unit) vs

/-- `only_choice(values)`. -/
def only_choice (values : Board) : Board := unit_list.foldl onlyUnitStep values

/-- `n_solved(values)`: the number of boxes holding a length-1 value. -/
def n_solved (values : Board) : Nat :=
  (values.filter (fun x => x.length == 1)).length

/-- One pass of the fixpoint driver: `eliminate`, `naked_twins`,
`only_choice`, in the fixed source order. -/
def one_pass (values : Board) : Board := only_choice (naked_twins (eliminate values))

/-- Result of `reduce_puzzle`: the stalled board (a dict), Python
`False`, or the out-of-fuel marker (proved unreachable for fuel 82). -/
inductive RResult where
  | ok (b : Board)
  | failed
  | out
deriving DecidableEq

/-- The `while not stalled` loop of `reduce_puzzle`, fuel-indexed.
Per pass: count solved boxes, run the three rules, then return `False`
if some box became empty, else exit on a stalled count. -/
def reduceLoop : Nat → Board → RResult
  | 0, _ => .out
  | fuel + 1, values =>
    let before := n_solved values
    let values' := one_pass values
    if (values'.filter (fun x => x.length == 0)).length ≠ 0 then .failed
    else if before = n_solved values' then .ok values'
    else reduceLoop fuel values'

/-- `reduce_puzzle(values)`.  Fuel 82 exceeds the maximal number of
passes: every continued pass strictly increases the solved count,
which is bounded by 81. -/
def reduce_puzzle (values : Board) : RResult := reduceLoop 82 values

/-- `is_solved(values)`: every box holds exactly one candidate. -/
def is_solved (values : Board) : Bool :=
  boxes.all (fun s => (bget values s).length == 1)

/-- Result of `search`/`solve`: a solved dict, Python `False`, Python
`None` (falling off the end of `search`), the out-of-fuel marker, or
the exception path (`min` over an empty sequence, or the parser
assertion) — the last two are proved unreachable for well-formed
boards. -/
inductive SResult where
  | sFound (b : Board)
  | sFalse
  | sNone
  | sOut
  | sErr
deriving DecidableEq

/-- One comparison step of
`min((len(values[s]), s) for s in boxes() if len(values[s]) > 1)`:
lexicographic on the (length, box) pair. -/
def minPair (acc : Option (Nat × Nat)) (p : Nat × Nat) : Option (Nat × Nat) :=
  match acc with
  | none => some p
  | some q => if p.1 < q.1 ∨ (p.1 = q.1 ∧ p.2 < q.2) then some p else some q

/-- The box choice of `search`: the unsolved box with the fewest
candidates, ties broken by box order; `none` when every box is
settled (the Python `min` would raise). -/
def chooseBox (values : Board) : Option (Nat × Nat) :=
  ((boxes.filter (fun b => 1 < (bget values b).length)).map
    (fun b => ((bget values b).length, b))).foldl minPair none

/-- The `for value in values[s]` loop of `search`: return the first
truthy attempt (a dict), fall through to `None`; the unreachable
markers propagate. -/
def tryBranches (rec : Board → SResult) (values : Board) (s : Nat) :
    List Nat → SResult
  | [] => .sNone
  | c :: rest =>
    match rec (assign_board values s [c]) with
    | .sFalse => tryBranches rec values s rest
    | .sNone => tryBranches rec values s rest
    | r => r

/-- The body of `search` after the initial `reduce_puzzle` call:
propagate `False`, return solved boards, else branch on the chosen
box; `rec` is the recursive call on each branch. -/
def searchStep (rec : Board → SResult) (r : RResult) : SResult :=
  match r with
  | .failed => .sFalse
  | .out => .sOut
  | .ok v =>
    if is_solved v then .sFound v
    else
      match chooseBox v with
      | none => .sErr
      | some p => tryBranches rec v p.2 (bget v p.2)

/-- `search(values)`, fuel-indexed: reduce, then the case split above. -/
def searchF : Nat → Board → SResult
  | 0, _ => .sOut
  | fuel + 1, values => searchStep (searchF fuel) (reduce_puzzle values)

/-- `search(values)` with sufficient fuel: 730 exceeds the total
candidate count 81 * 9, which strictly decreases at each branch. -/
def search (values : Board) : SResult := searchF 730 values

/-- Digit characters `'123456789'`. -/
def digitChars : List Char := ['1', '2', '3', '4', '5', '6', '7', '8', '9']

/-- A character kept by the parser: a digit or the `'.'` placeholder. -/
def isMeaningful (c : Char) : Bool := digitChars.contains c || c == '.'

/-- Candidate list of one kept character: `'.'` gives the full digit
string, a digit gives itself. -/
def charToValues (c : Char) : Values :=
  if c == '.' then digitsV else [c.toNat - 48]

/-- `grid_values(grid)`: keep digits and dots, map them to candidate
lists, and require exactly 81 of them (`assert len(chars) == 81`,
modelled as `none`); `dict(zip(boxes(), chars))` is the row-major
board. -/
def grid_values (grid : List Char) : Option Board :=
  let chars := (grid.filter isMeaningful).map charToValues
  if chars.length = 81 then some chars else none

/-- `solve(grid)`: parse then search; a failing parser assertion is the
exception path. -/
def solve (grid : List Char) : SResult :=
  match grid_values grid with
  | none => .sErr
  | some values => search values


/-- A well-formed board: the 81 boxes of a `SudokuDict`. -/
def WF (v : Board) : Prop := v.length = 81

/-- Pointwise sublist ordering: every box of `w` holds a subsequence of
its value in `v` (candidate sets only ever shrink). -/
def Subb (w v : Board) : Prop := ∀ j, List.Sublist (bget w j) (bget v j)

/-- Two boxes sharing a unit. -/
def sameUnit (b1 b2 : Nat) : Prop := ∃ u, u ∈ unit_list ∧ b1 ∈ u ∧ b2 ∈ u

/-- The boxes of a unit currently holding exactly the candidate set `D`. -/
def twinCells (values : Board) (unit : List Nat) (D : Values) : List Nat :=
  unit.filter (fun b => bget values b == D)

/-- Lookup in the `possible_twins` association list. -/
def lookupV (m : List (Values × List Nat)) (k : Values) : List Nat :=
  match m with
  | [] => []
  | (k', bs) :: rest => if k' = k then bs else lookupV rest k

/-- Total number of candidates on the board: the strictly decreasing
measure of the search recursion. -/
def totalC (v : Board) : Nat := (v.map List.length).sum

/-- A full assignment of digits to boxes consistent with the board:
the digit of every box is still among its candidates. -/
def Covers (f : Nat → Nat) (v : Board) : Prop := ∀ i, i < 81 → f i ∈ bget v i

/-- A valid complete solution: digits everywhere, no unit with a
repeated digit. -/
def ValidAssign (f : Nat → Nat) : Prop :=
  (∀ i, i < 81 → f i ∈ digitsV) ∧
    ∀ u ∈ unit_list, ∀ b1 ∈ u, ∀ b2 ∈ u, b1 ≠ b2 → f b1 ≠ f b2

/-- Every box carries exactly one candidate (the property `is_solved`
decides). -/
def solvedBoard (v : Board) : Prop := ∀ i, i < 81 → (bget v i).length = 1

/-- Digit `d` appears as the settled value of exactly one box of `u`. -/
def unitHasDigitOnce (v : Board) (u : List Nat) (d : Nat) : Prop :=
  (u.filter (fun b => bget v b == [d])).length = 1

/-- Every unit (row, column, square, diagonal) holds each digit exactly
once. -/
def validUnits (v : Board) : Prop :=
  ∀ u ∈ unit_list, ∀ d ∈ digitsV, unitHasDigitOnce v u d

/-- Rows, columns and squares hold each digit exactly once (the
standard-rules part of validity, without the diagonals). -/
def validStandard (v : Board) : Prop :=
  ∀ u ∈ row_units ++ column_units ++ square_units, ∀ d ∈ digitsV, unitHasDigitOnce v u d

/-- Some unit holds the same settled digit in two distinct boxes. -/
def hasDupSingleton (v : Board) : Prop :=
  ∃ u ∈ unit_list, ∃ b1 ∈ u, ∃ b2 ∈ u, b1 ≠ b2 ∧ ∃ d, bget v b1 = [d] ∧ bget v b2 = [d]

/-- The fully blank grid string `"." * 81`. -/
def dots81 : List Char := List.replicate 81 '.'

/-- A grid whose first two characters repeat the digit 5 in row A:
propagation reaches a contradiction at once and `solve` returns the
Python `False`. -/
def gFalse : List Char := '5' :: '5' :: List.replicate 79 '.'

/-- A complete diagonal-sudoku solution, as a grid string of 81
givens. -/
def g81 : List Char :=
  ("267945381853716249491823576576438192384192657129657438642379815935281764718564923").toList

/-- The board parsed from `g81`: all boxes settled. -/
def bW : Board := g81.map (fun c => [c.toNat - 48])

/-- The settled digit of each box of `bW`, as a function. -/
def sigma0 : Nat → Nat := fun i => (bget bW i).headD 0

/-- A stalled-but-unsolved board: rows `A1 A2 = 12`, `A3 = 134`,
`A4 = 34`, `A5 = 3456`, everything else blank. -/
def s4 : Board :=
  [[1, 2], [1, 2], [1, 3, 4], [3, 4], [3, 4, 5, 6]] ++ List.replicate 76 digitsV

/-- The output of `reduce_puzzle` on `s4` (one pass: the naked pair
`12` of row A and of square 1 fires, nothing else changes). -/
def v4 : Board :=
  [[1, 2], [1, 2], [3, 4], [3, 4], [3, 4, 5, 6],
   [3, 4, 5, 6, 7, 8, 9], [3, 4, 5, 6, 7, 8, 9], [3, 4, 5, 6, 7, 8, 9], [3, 4, 5, 6, 7, 8, 9],
   [3, 4, 5, 6, 7, 8, 9], [3, 4, 5, 6, 7, 8, 9], [3, 4, 5, 6, 7, 8, 9]] ++
    List.replicate 6 digitsV ++
    [[3, 4, 5, 6, 7, 8, 9], [3, 4, 5, 6, 7, 8, 9], [3, 4, 5, 6, 7, 8, 9]] ++
    List.replicate 60 digitsV

/-- A board with the naked pair `12` in boxes `A1, B1` of column 1 and
the naked pair `24` in boxes `A8, A9` of row A; everything else
blank. -/
def s6 : Board :=
  [[1, 2]] ++ List.replicate 6 digitsV ++ [[2, 4], [2, 4], [1, 2]] ++ List.replicate 71 digitsV

/-- The everywhere-`1` board: `is_solved` accepts it although every
unit constraint is violated. -/
def allOnes : Board := List.replicate 81 [1]

/-- A grid on which the search exhausts every branch: propagation
stalls, the box `B8` keeps the pair `89`, and both branches reach a
contradiction, so `search` falls off its loop and returns `None`. -/
def gNone : List Char :=
  (".7694.....35..62....9.....65..4......4...2......6.......4....1..5.....6.7.1......").toList

/-! ### Boards and unit chunks used by the concrete evaluations

The `bd_*` boards are the intermediate states of the concrete runs
evaluated further below; `unitsA`, `unitsB`, `unitsC` split `unit_list`
into pieces small enough for kernel reduction. -/

def unitsA : List (List Nat) :=
  [[0, 1, 2, 3, 4, 5, 6, 7, 8],
   [9, 10, 11, 12, 13, 14, 15, 16, 17],
   [18, 19, 20, 21, 22, 23, 24, 25, 26],
   [27, 28, 29, 30, 31, 32, 33, 34, 35],
   [36, 37, 38, 39, 40, 41, 42, 43, 44],
   [45, 46, 47, 48, 49, 50, 51, 52, 53],
   [54, 55, 56, 57, 58, 59, 60, 61, 62],
   [63, 64, 65, 66, 67, 68, 69, 70, 71],
   [72, 73, 74, 75, 76, 77, 78, 79, 80],
   [0, 9, 18, 27, 36, 45, 54, 63, 72]]

def unitsB : List (List Nat) :=
  [[1, 10, 19, 28, 37, 46, 55, 64, 73],
   [2, 11, 20, 29, 38, 47, 56, 65, 74],
   [3, 12, 21, 30, 39, 48, 57, 66, 75],
   [4, 13, 22, 31, 40, 49, 58, 67, 76],
   [5, 14, 23, 32, 41, 50, 59, 68, 77],
   [6, 15, 24, 33, 42, 51, 60, 69, 78],
   [7, 16, 25, 34, 43, 52, 61, 70, 79],
   [8, 17, 26, 35, 44, 53, 62, 71, 80],
   [0, 1, 2, 9, 10, 11, 18, 19, 20],
   [3, 4, 5, 12, 13, 14, 21, 22, 23]]

def unitsC : List (List Nat) :=
  [[6, 7, 8, 15, 16, 17, 24, 25, 26],
   [27, 28, 29, 36, 37, 38, 45, 46, 47],
   [30, 31, 32, 39, 40, 41, 48, 49, 50],
   [33, 34, 35, 42, 43, 44, 51, 52, 53],
   [54, 55, 56, 63, 64, 65, 72, 73, 74],
   [57, 58, 59, 66, 67, 68, 75, 76, 77],
   [60, 61, 62, 69, 70, 71, 78, 79, 80],
   [0, 10, 20, 30, 40, 50, 60, 70, 80],
   [72, 64, 56, 48, 40, 32, 24, 16, 8]]

def bd_f0_0 : Board :=
  [[5], [5], digitsV, digitsV, digitsV, digitsV, digitsV, digitsV, digitsV, digitsV, digitsV, 
   digitsV, digitsV, digitsV, digitsV, digitsV, digitsV, digitsV, digitsV, digitsV, digitsV, 
   digitsV, digitsV, digitsV, digitsV, digitsV, digitsV, digitsV, digitsV, digitsV, digitsV, 
   digitsV, digitsV, digitsV, digitsV, digitsV, digitsV, digitsV, digitsV, digitsV, digitsV, 
   digitsV, digitsV, digitsV, digitsV, digitsV, digitsV, digitsV, digitsV, digitsV, digitsV, 
   digitsV, digitsV, digitsV, digitsV, digitsV, digitsV, digitsV, digitsV, digitsV, digitsV, 
   digitsV, digitsV, digitsV, digitsV, digitsV, digitsV, digitsV, digitsV, digitsV, digitsV, 
   digitsV, digitsV, digitsV, digitsV, digitsV, digitsV, digitsV, digitsV, digitsV, digitsV]

def bd_f0_1 : Board :=
  [[5], [], [1, 2, 3, 4, 6, 7, 8, 9], [1, 2, 3, 4, 6, 7, 8, 9], [1, 2, 3, 4, 6, 7, 8, 9], 
   [1, 2, 3, 4, 6, 7, 8, 9], [1, 2, 3, 4, 6, 7, 8, 9], [1, 2, 3, 4, 6, 7, 8, 9], 
   [1, 2, 3, 4, 6, 7, 8, 9], [1, 2, 3, 4, 6, 7, 8, 9], [1, 2, 3, 4, 6, 7, 8, 9], 
   [1, 2, 3, 4, 6, 7, 8, 9], digitsV, digitsV, digitsV, digitsV, digitsV, digitsV, 
   [1, 2, 3, 4, 6, 7, 8, 9], [1, 2, 3, 4, 6, 7, 8, 9], [1, 2, 3, 4, 6, 7, 8, 9], digitsV, 
   digitsV, digitsV, digitsV, digitsV, digitsV, [1, 2, 3, 4, 6, 7, 8, 9], digitsV, digitsV, 
   [1, 2, 3, 4, 6, 7, 8, 9], digitsV, digitsV, digitsV, digitsV, digitsV, 
   [1, 2, 3, 4, 6, 7, 8, 9], digitsV, digitsV, digitsV, [1, 2, 3, 4, 6, 7, 8, 9], digitsV, 
   digitsV, digitsV, digitsV, [1, 2, 3, 4, 6, 7, 8, 9], digitsV, digitsV, digitsV, digitsV, 
   [1, 2, 3, 4, 6, 7, 8, 9], digitsV, digitsV, digitsV, [1, 2, 3, 4, 6, 7, 8, 9], digitsV, 
   digitsV, digitsV, digitsV, digitsV, [1, 2, 3, 4, 6, 7, 8, 9], digitsV, digitsV, 
   [1, 2, 3, 4, 6, 7, 8, 9], digitsV, digitsV, digitsV, digitsV, digitsV, digitsV, 
   [1, 2, 3, 4, 6, 7, 8, 9], digitsV, [1, 2, 3, 4, 6, 7, 8, 9], digitsV, digitsV, digitsV, 
   digitsV, digitsV, digitsV, digitsV, [1, 2, 3, 4, 6, 7, 8, 9]]

def bd_s4_0 : Board :=
  [[1, 2], [1, 2], [3, 4], [3, 4], [3, 4, 5, 6], [3, 4, 5, 6, 7, 8, 9], [3, 4, 5, 6, 7, 8, 9], 
   [3, 4, 5, 6, 7, 8, 9], [3, 4, 5, 6, 7, 8, 9], digitsV, digitsV, digitsV, digitsV, digitsV, 
   digitsV, digitsV, digitsV, digitsV, digitsV, digitsV, digitsV, digitsV, digitsV, digitsV, 
   digitsV, digitsV, digitsV, digitsV, digitsV, digitsV, digitsV, digitsV, digitsV, digitsV, 
   digitsV, digitsV, digitsV, digitsV, digitsV, digitsV, digitsV, digitsV, digitsV, digitsV, 
   digitsV, digitsV, digitsV, digitsV, digitsV, digitsV, digitsV, digitsV, digitsV, digitsV, 
   digitsV, digitsV, digitsV, digitsV, digitsV, digitsV, digitsV, digitsV, digitsV, digitsV, 
   digitsV, digitsV, digitsV, digitsV, digitsV, digitsV, digitsV, digitsV, digitsV, digitsV, 
   digitsV, digitsV, digitsV, digitsV, digitsV, digitsV, digitsV]

def bd_v4_0 : Board :=
  [[1, 2], [1, 2], [3, 4], [3, 4], [5, 6], [5, 6, 7, 8, 9], [5, 6, 7, 8, 9], [5, 6, 7, 8, 9], 
   [5, 6, 7, 8, 9], [3, 4, 5, 6, 7, 8, 9], [3, 4, 5, 6, 7, 8, 9], [3, 4, 5, 6, 7, 8, 9], 
   digitsV, digitsV, digitsV, digitsV, digitsV, digitsV, [3, 4, 5, 6, 7, 8, 9], 
   [3, 4, 5, 6, 7, 8, 9], [3, 4, 5, 6, 7, 8, 9], digitsV, digitsV, digitsV, digitsV, digitsV, 
   digitsV, digitsV, digitsV, digitsV, digitsV, digitsV, digitsV, digitsV, digitsV, digitsV, 
   digitsV, digitsV, digitsV, digitsV, digitsV, digitsV, digitsV, digitsV, digitsV, digitsV, 
   digitsV, digitsV, digitsV, digitsV, digitsV, digitsV, digitsV, digitsV, digitsV, digitsV, 
   digitsV, digitsV, digitsV, digitsV, digitsV, digitsV, digitsV, digitsV, digitsV, digitsV, 
   digitsV, digitsV, digitsV, digitsV, digitsV, digitsV, digitsV, digitsV, digitsV, digitsV, 
   digitsV, digitsV, digitsV, digitsV, digitsV]

def bd_g0_0 : Board :=
  [digitsV, [7], [6], [9], [4], digitsV, digitsV, digitsV, digitsV, digitsV, [3], [5], 
   digitsV, digitsV, [6], [2], digitsV, digitsV, digitsV, digitsV, [9], digitsV, digitsV, 
   digitsV, digitsV, digitsV, [6], [5], digitsV, digitsV, [4], digitsV, digitsV, digitsV, 
   digitsV, digitsV, digitsV, [4], digitsV, digitsV, digitsV, [2], digitsV, digitsV, digitsV, 
   digitsV, digitsV, digitsV, [6], digitsV, digitsV, digitsV, digitsV, digitsV, digitsV, 
   digitsV, [4], digitsV, digitsV, digitsV, digitsV, [1], digitsV, digitsV, [5], digitsV, 
   digitsV, digitsV, digitsV, digitsV, [6], digitsV, [7], digitsV, [1], digitsV, digitsV, 
   digitsV, digitsV, digitsV, digitsV]

def bd_g0_1 : Board :=
  [[1, 2, 8], [7], [6], [9], [4], [1, 2, 3, 5, 8], [1, 3, 5, 8], [1, 3, 5, 8], [1, 3, 5, 8], 
   [1, 4, 8, 9], [3], [5], [1, 7, 8], [1, 7, 8], [6], [2], [1, 4, 7, 8, 9], [1, 4, 7, 8, 9], 
   [1, 2, 4, 8, 9], [1, 2, 4, 8, 9], [9], [1, 2, 3, 5, 7, 8], [1, 2, 3, 5, 7, 8], 
   [1, 2, 3, 5, 7, 8], [1, 3, 4, 5, 6, 7, 8, 9], [1, 3, 4, 5, 6, 7, 8, 9], [6], [5], 
   [1, 2, 4, 5, 6, 8, 9], [1, 2, 3, 4, 7, 8, 9], [4], [1, 2, 3, 5, 6, 7, 8, 9], 
   [1, 2, 3, 4, 5, 7, 8, 9], [1, 3, 4, 5, 6, 7, 8, 9], digitsV, digitsV, digitsV, [4], 
   [1, 2, 3, 4, 7, 8, 9], [1, 2, 3, 4, 5, 6, 7, 8], [1, 2, 5, 6, 7, 8, 9], [2], 
   [1, 3, 4, 5, 6, 7, 8, 9], digitsV, digitsV, digitsV, [1, 2, 4, 5, 6, 8, 9], 
   [1, 2, 3, 4, 7, 8, 9], [6], [1, 2, 3, 5, 6, 7, 8, 9], [1, 2, 4, 5, 7, 8, 9], 
   [1, 3, 4, 5, 6, 7, 8, 9], digitsV, digitsV, digitsV, [1, 2, 4, 5, 6, 8, 9], [4], 
   [1, 2, 3, 4, 5, 6, 7, 8], [1, 2, 3, 5, 6, 7, 8, 9], [1, 2, 3, 4, 5, 7, 8, 9], 
   [1, 4, 5, 6, 7, 8, 9], [1], digitsV, digitsV, [5], [1, 2, 3, 4, 7, 8, 9], 
   [1, 2, 3, 4, 5, 6, 7, 8], [1, 2, 3, 5, 6, 7, 8, 9], [1, 2, 3, 4, 5, 7, 8, 9], 
   [1, 3, 4, 5, 6, 7, 8, 9], [6], digitsV, [7], [1, 2, 4, 5, 6, 8, 9], [1], 
   [1, 2, 3, 4, 5, 6, 7, 8], [1, 2, 3, 5, 6, 7, 8, 9], [1, 2, 3, 4, 5, 7, 8, 9], 
   [1, 3, 4, 5, 6, 7, 8, 9], digitsV, [1, 2, 4, 5, 6, 7, 8, 9]]

def bd_g0_2 : Board :=
  [[1, 2, 8], [7], [6], [9], [4], [1, 3, 5, 8], [1, 3, 5, 8], [1, 3, 5, 8], [1, 3, 5, 8], 
   [1, 4, 8], [3], [5], [1, 7, 8], [1, 7, 8], [6], [2], [1, 7, 8, 9], [1, 4, 7, 8, 9], 
   [1, 2, 4, 8], [1, 2, 8], [9], [1, 2, 3, 5, 7, 8], [1, 2, 3, 5, 7, 8], [1, 3, 5, 7, 8], 
   [1, 3, 5, 7, 8], [1, 3, 4, 5, 7, 8], [6], [5], [1, 2, 6, 8, 9], [1, 2, 3, 7, 8], [4], 
   [1, 3, 7, 8, 9], [1, 3, 7, 8, 9], [1, 3, 6, 7, 8, 9], [1, 2, 3, 6, 7, 8, 9], 
   [1, 2, 3, 7, 8, 9], [1, 3, 6, 7, 8, 9], [4], [1, 3, 7, 8], [1, 3, 5, 7, 8], [1, 5, 7, 8], 
   [2], [1, 3, 5, 6, 7, 8, 9], [1, 3, 5, 6, 7, 8, 9], [1, 3, 5, 7, 8, 9], [1, 2, 3, 7, 8, 9], 
   [1, 2, 8, 9], [1, 2, 3, 7, 8], [6], [1, 3, 5, 7, 8, 9], [1, 5, 7, 8], 
   [1, 3, 4, 5, 7, 8, 9], [1, 2, 3, 4, 5, 7, 8, 9], [1, 2, 3, 4, 5, 7, 8, 9], 
   [1, 2, 3, 6, 7, 8, 9], [1, 2, 5, 6, 8, 9], [4], [1, 2, 3, 5, 7, 8], 
   [1, 2, 3, 5, 6, 7, 8, 9], [1, 3, 5, 7, 8, 9], [1, 5, 6, 7, 8], [1], [1, 2, 3, 5, 7, 8, 9], 
   [1, 2, 3, 6, 7, 8, 9], [5], [1, 2, 3, 7, 8], [1, 2, 3, 5, 7, 8], [1, 2, 3, 5, 6, 7, 8, 9], 
   [1, 3, 4, 5, 7, 8, 9], [1, 3, 4, 5, 6, 7, 8, 9], [6], [1, 2, 3, 4, 5, 7, 8, 9], [7], 
   [1, 2, 5, 6, 8, 9], [1], [1, 2, 3, 5, 7, 8], [1, 2, 3, 5, 6, 7, 8, 9], 
   [1, 3, 4, 5, 7, 8, 9], [1, 3, 4, 5, 6, 7, 8, 9], digitsV, [1, 2, 5, 7, 8]]

def bd_g0_3 : Board :=
  [[1, 2, 8], [7], [6], [9], [4], [1, 3, 5, 8], [1, 3, 5, 8], [3, 5, 8], [1, 3, 8], [1, 4, 8], 
   [3], [5], [1, 7, 8], [1, 7, 8], [6], [2], [8, 9], [1, 4, 7, 8, 9], [1, 2, 4, 8], [1, 2, 8], 
   [9], [1, 2, 3, 5, 7, 8], [1, 2, 3, 5, 7, 8], [1, 3, 5, 7, 8], [1, 3, 8], [3, 4, 5, 7, 8], 
   [6], [5], [1, 2, 6, 8, 9], [2, 3, 7, 8], [4], [1, 3, 7, 8, 9], [1, 3, 8, 9], 
   [1, 3, 6, 7, 8, 9], [2, 3, 7, 8, 9], [1, 2, 3, 7, 8, 9], [1, 3, 6, 8, 9], [4], [3, 7, 8], 
   [1, 3, 5, 7, 8], [1, 8], [2], [1, 3, 5, 6, 7, 8, 9], [3, 5, 7, 8, 9], [1, 3, 5, 7, 8, 9], 
   [1, 2, 3, 8, 9], [1, 2, 8, 9], [2, 3, 7, 8], [6], [1, 3, 5, 7, 8, 9], [1, 5, 7, 8], 
   [1, 3, 4, 5, 7, 8, 9], [2, 3, 4, 5, 7, 8, 9], [1, 2, 3, 4, 5, 7, 8, 9], [2, 3, 6, 8, 9], 
   [2, 6, 8, 9], [4], [2, 3, 5, 7, 8], [2, 3, 5, 6, 7, 8, 9], [3, 5, 7, 8, 9], [5, 7, 8], [1], 
   [2, 3, 5, 7, 8, 9], [2, 3, 8, 9], [5], [2, 3, 8], [1, 2, 3, 7, 8], [1, 2, 3, 7, 8, 9], 
   [1, 3, 4, 7, 8, 9], [3, 4, 7, 8, 9], [6], [2, 3, 4, 7, 8, 9], [7], [2, 6, 8, 9], [1], 
   [2, 3, 5, 8], [2, 3, 5, 6, 8, 9], [3, 4, 5, 8, 9], [3, 4, 5, 8, 9], [2, 3, 4, 5, 8, 9], 
   [2, 5, 8]]

def bd_g0_4 : Board :=
  [[2], [7], [6], [9], [4], [1, 3, 5, 8], [1, 3, 5, 8], [3, 5, 8], [1, 3, 8], [1, 4, 8], [3], 
   [5], [1, 7, 8], [1, 7, 8], [6], [2], [8, 9], [1, 4, 7, 8, 9], [1, 2, 4, 8], [1, 2, 8], [9], 
   [1, 2, 3, 5, 7, 8], [1, 2, 3, 5, 7, 8], [1, 3, 5, 7, 8], [1, 3, 8], [3, 4, 5, 7, 8], [6], 
   [5], [1, 2, 6, 8, 9], [2, 3, 7, 8], [4], [1, 3, 7, 8, 9], [1, 3, 8, 9], [1, 3, 6, 7, 8, 9], 
   [2, 3, 7, 8, 9], [1, 2, 3, 7, 8, 9], [1, 3, 6, 8, 9], [4], [3, 7, 8], [1, 3, 5, 7, 8], 
   [1, 8], [2], [1, 3, 5, 6, 7, 8, 9], [3, 5, 7, 8, 9], [1, 3, 5, 7, 8, 9], [1, 2, 3, 8, 9], 
   [1, 2, 8, 9], [2, 3, 7, 8], [6], [1, 3, 5, 7, 8, 9], [1, 5, 7, 8], [1, 3, 4, 5, 7, 8, 9], 
   [2, 3, 4, 5, 7, 8, 9], [1, 2, 3, 4, 5, 7, 8, 9], [2, 3, 6, 8, 9], [2, 6, 8, 9], [4], 
   [2, 3, 5, 7, 8], [2, 3, 5, 6, 7, 8, 9], [3, 5, 7, 8, 9], [5, 7, 8], [1], 
   [2, 3, 5, 7, 8, 9], [2, 3, 8, 9], [5], [2, 3, 8], [1, 2, 3, 7, 8], [1, 2, 3, 7, 8, 9], 
   [1, 3, 4, 7, 8, 9], [3, 4, 7, 8, 9], [6], [2, 3, 4, 7, 8, 9], [7], [2, 6, 8, 9], [1], 
   [2, 3, 5, 8], [2, 3, 5, 6, 8, 9], [3, 4, 5, 8, 9], [3, 4, 5, 8, 9], [2, 3, 4, 5, 8, 9], 
   [2, 5, 8]]

def bd_g1_0 : Board :=
  [[2], [7], [6], [9], [4], [1, 3, 5, 8], [1, 3, 5, 8], [3, 5, 8], [1, 3, 8], [1, 4, 8], [3], 
   [5], [1, 7, 8], [1, 7, 8], [6], [2], [8, 9], [1, 4, 7, 8, 9], [1, 4, 8], [1, 8], [9], 
   [1, 2, 3, 5, 7, 8], [1, 2, 3, 5, 7, 8], [1, 3, 5, 7, 8], [1, 3, 8], [3, 4, 5, 7, 8], [6], 
   [5], [1, 2, 6, 8, 9], [2, 3, 7, 8], [4], [1, 3, 7, 8, 9], [1, 3, 8, 9], [1, 3, 6, 7, 8, 9], 
   [2, 3, 7, 8, 9], [1, 2, 3, 7, 8, 9], [1, 3, 6, 8, 9], [4], [3, 7, 8], [1, 3, 5, 7, 8], 
   [1, 8], [2], [1, 3, 5, 6, 7, 8, 9], [3, 5, 7, 8, 9], [1, 3, 5, 7, 8, 9], [1, 3, 8, 9], 
   [1, 2, 8, 9], [2, 3, 7, 8], [6], [1, 3, 5, 7, 8, 9], [1, 5, 7, 8], [1, 3, 4, 5, 7, 8, 9], 
   [2, 3, 4, 5, 7, 8, 9], [1, 2, 3, 4, 5, 7, 8, 9], [3, 6, 8, 9], [2, 6, 8, 9], [4], 
   [2, 3, 5, 7, 8], [2, 3, 5, 6, 7, 8, 9], [3, 5, 7, 8, 9], [5, 7, 8], [1], 
   [2, 3, 5, 7, 8, 9], [3, 8, 9], [5], [2, 3, 8], [1, 2, 3, 7, 8], [1, 2, 3, 7, 8, 9], 
   [1, 3, 4, 7, 8, 9], [3, 4, 7, 8, 9], [6], [2, 3, 4, 7, 8, 9], [7], [2, 6, 8, 9], [1], 
   [2, 3, 5, 8], [2, 3, 5, 6, 8, 9], [3, 4, 5, 8, 9], [3, 4, 5, 8, 9], [2, 3, 4, 5, 8, 9], 
   [5, 8]]

def bd_br1_0 : Board :=
  [[2], [7], [6], [9], [4], [1, 3, 5, 8], [1, 3, 5, 8], [3, 5, 8], [1, 3, 8], [1, 4, 8], [3], 
   [5], [1, 7, 8], [1, 7, 8], [6], [2], [8], [1, 4, 7, 8, 9], [1, 4, 8], [1, 8], [9], 
   [1, 2, 3, 5, 7, 8], [1, 2, 3, 5, 7, 8], [1, 3, 5, 7, 8], [1, 3, 8], [3, 4, 5, 7, 8], [6], 
   [5], [1, 2, 6, 8, 9], [2, 3, 7, 8], [4], [1, 3, 7, 8, 9], [1, 3, 8, 9], [1, 3, 6, 7, 8, 9], 
   [2, 3, 7, 8, 9], [1, 2, 3, 7, 8, 9], [1, 3, 6, 8, 9], [4], [3, 7, 8], [1, 3, 5, 7, 8], 
   [1, 8], [2], [1, 3, 5, 6, 7, 8, 9], [3, 5, 7, 8, 9], [1, 3, 5, 7, 8, 9], [1, 3, 8, 9], 
   [1, 2, 8, 9], [2, 3, 7, 8], [6], [1, 3, 5, 7, 8, 9], [1, 5, 7, 8], [1, 3, 4, 5, 7, 8, 9], 
   [2, 3, 4, 5, 7, 8, 9], [1, 2, 3, 4, 5, 7, 8, 9], [3, 6, 8, 9], [2, 6, 8, 9], [4], 
   [2, 3, 5, 7, 8], [2, 3, 5, 6, 7, 8, 9], [3, 5, 7, 8, 9], [5, 7, 8], [1], 
   [2, 3, 5, 7, 8, 9], [3, 8, 9], [5], [2, 3, 8], [1, 2, 3, 7, 8], [1, 2, 3, 7, 8, 9], 
   [1, 3, 4, 7, 8, 9], [3, 4, 7, 8, 9], [6], [2, 3, 4, 7, 8, 9], [7], [2, 6, 8, 9], [1], 
   [2, 3, 5, 8], [2, 3, 5, 6, 8, 9], [3, 4, 5, 8, 9], [3, 4, 5, 8, 9], [2, 3, 4, 5, 8, 9], 
   [5, 8]]

def bd_br1_1 : Board :=
  [[2], [7], [6], [9], [4], [1, 3, 5, 8], [1, 3, 5], [3, 5], [1, 3], [1, 4], [3], [5], [1, 7], 
   [1, 7], [6], [2], [8], [1, 4, 7, 9], [1, 4, 8], [1, 8], [9], [1, 2, 3, 5, 7, 8], 
   [1, 2, 3, 5, 7, 8], [1, 3, 5, 7, 8], [1, 3], [3, 4, 5, 7], [6], [5], [1, 2, 6, 8, 9], 
   [2, 3, 7, 8], [4], [1, 3, 7, 8, 9], [1, 3, 9], [1, 3, 6, 7, 8, 9], [2, 3, 7, 9], 
   [1, 2, 3, 7, 8, 9], [1, 3, 6, 8, 9], [4], [3, 7, 8], [1, 3, 5, 7, 8], [1], [2], 
   [1, 3, 5, 6, 7, 8, 9], [3, 5, 7, 9], [1, 3, 5, 7, 8, 9], [1, 3, 8, 9], [1, 2, 8, 9], 
   [2, 3, 7, 8], [6], [1, 3, 5, 7, 8, 9], [1, 5, 7, 8], [1, 3, 4, 5, 7, 8, 9], 
   [2, 3, 4, 5, 7, 9], [1, 2, 3, 4, 5, 7, 8, 9], [3, 6, 8, 9], [2, 6, 8, 9], [4], 
   [2, 3, 5, 7, 8], [2, 3, 5, 6, 7, 8, 9], [3, 5, 7, 8, 9], [5, 7, 8], [1], 
   [2, 3, 5, 7, 8, 9], [3, 8, 9], [5], [2, 3, 8], [1, 2, 3, 7, 8], [1, 2, 3, 7, 8, 9], 
   [1, 3, 4, 7, 8, 9], [3, 4, 7, 8, 9], [6], [2, 3, 4, 7, 8, 9], [7], [2, 6, 8, 9], [1], 
   [2, 3, 5, 8], [2, 3, 5, 6, 8, 9], [3, 4, 5, 8, 9], [3, 4, 5, 8, 9], [2, 3, 4, 5, 9], [5, 8]]

def bd_br1_2 : Board :=
  [[2], [7], [6], [9], [4], [1, 3, 5, 8], [1, 3, 5], [3, 5], [1, 3], [4], [3], [5], [1, 7], 
   [1, 7], [6], [2], [8], [4, 9], [1, 4, 8], [1, 8], [9], [1, 2, 3, 5, 7, 8], 
   [1, 2, 3, 5, 7, 8], [1, 3, 5, 7, 8], [1, 3], [3, 4, 5, 7], [6], [5], [1, 2, 6, 8, 9], 
   [2, 3, 7, 8], [4], [1, 3, 7, 8, 9], [1, 3, 9], [1, 3, 6, 7, 8, 9], [2, 3, 7, 9], 
   [1, 2, 3, 7, 8, 9], [1, 3, 6, 8, 9], [4], [3, 7, 8], [1, 3, 5, 7, 8], [1], [2], 
   [1, 3, 5, 6, 7, 8, 9], [3, 5, 7, 9], [1, 3, 5, 7, 8, 9], [1, 3, 8, 9], [1, 2, 8, 9], 
   [2, 3, 7, 8], [6], [1, 3, 5, 7, 8, 9], [1, 5, 7, 8], [1, 3, 4, 5, 7, 8, 9], 
   [2, 3, 4, 5, 7, 9], [1, 2, 3, 4, 5, 7, 8, 9], [3, 6, 8, 9], [2, 6, 8, 9], [4], 
   [2, 3, 5, 7, 8], [2, 3, 5, 6, 7, 8, 9], [3, 5, 7, 8, 9], [5, 7, 8], [1], 
   [2, 3, 5, 7, 8, 9], [3, 8, 9], [5], [2, 3, 8], [1, 2, 3, 7, 8], [1, 2, 3, 7, 8, 9], 
   [1, 3, 4, 7, 8, 9], [3, 4, 7, 8, 9], [6], [2, 3, 4, 7, 8, 9], [7], [2, 6, 8, 9], [1], 
   [2, 3, 5, 8], [2, 3, 5, 6, 8, 9], [3, 4, 5, 8, 9], [3, 4, 5, 8, 9], [2, 3, 4, 5, 9], [5, 8]]

def bd_br1_3 : Board :=
  [[2], [7], [6], [9], [4], [3, 5, 8], [1, 3, 5], [3, 5], [1, 3], [4], [3], [5], [1, 7], 
   [1, 7], [6], [2], [8], [4, 9], [1, 4, 8], [1, 8], [9], [2, 3, 5, 8], [2, 3, 5, 8], 
   [3, 5, 8], [1, 3], [3, 4, 5, 7], [6], [5], [1, 2, 6, 8, 9], [2, 3, 7, 8], [4], 
   [1, 3, 7, 8, 9], [1, 3, 9], [1, 3, 6, 7, 8, 9], [2, 3, 7, 9], [1, 2, 3, 7, 8, 9], 
   [1, 3, 6, 8, 9], [4], [3, 7, 8], [1, 3, 5, 7, 8], [1], [2], [1, 3, 5, 6, 7, 8, 9], 
   [3, 5, 7, 9], [1, 3, 5, 7, 8, 9], [1, 3, 8, 9], [1, 2, 8, 9], [2, 3, 7, 8], [6], 
   [1, 3, 5, 7, 8, 9], [1, 5, 7, 8], [1, 3, 4, 5, 7, 8, 9], [2, 3, 4, 5, 7, 9], 
   [1, 2, 3, 4, 5, 7, 8, 9], [3, 6, 8, 9], [2, 6, 8, 9], [4], [2, 3, 5, 7, 8], 
   [2, 3, 5, 6, 7, 8, 9], [3, 5, 7, 8, 9], [5, 7, 8], [1], [2, 3, 5, 7, 8, 9], [3, 8, 9], [5], 
   [2, 3, 8], [1, 2, 3, 7, 8], [1, 2, 3, 7, 8, 9], [1, 3, 4, 7, 8, 9], [3, 4, 7, 8, 9], [6], 
   [2, 3, 4, 7, 8, 9], [7], [2, 6, 8, 9], [1], [2, 3, 5, 8], [2, 3, 5, 6, 8, 9], 
   [3, 4, 5, 8, 9], [3, 4, 5, 8, 9], [2, 3, 4, 5, 9], [5, 8]]

def bd_br1_4 : Board :=
  [[2], [7], [6], [9], [4], [3, 5, 8], [5], [5], [1, 3], [4], [3], [5], [1, 7], [1, 7], [6], 
   [2], [8], [4, 9], [1, 4, 8], [1, 8], [9], [2, 3, 5, 8], [2, 3, 5, 8], [3, 5, 8], [1, 3], 
   [4, 5, 7], [6], [5], [1, 2, 6, 8, 9], [2, 3, 7, 8], [4], [1, 3, 7, 8, 9], [9], 
   [1, 3, 6, 7, 8, 9], [2, 3, 7, 9], [1, 2, 3, 7, 8, 9], [1, 3, 6, 8, 9], [4], [3, 7, 8], 
   [1, 3, 5, 7, 8], [], [2], [1, 3, 5, 6, 7, 8, 9], [3, 5, 7, 9], [1, 3, 5, 7, 8, 9], 
   [1, 3, 8, 9], [1, 2, 8, 9], [2, 3, 7, 8], [6], [1, 3, 5, 7, 8, 9], [1, 5, 7, 8], 
   [1, 3, 4, 5, 7, 8, 9], [2, 3, 4, 5, 7, 9], [1, 2, 3, 4, 5, 7, 8, 9], [3, 6, 8, 9], 
   [2, 6, 8, 9], [4], [2, 3, 5, 7, 8], [2, 3, 5, 6, 7, 8, 9], [3, 5, 7, 8, 9], [5, 7, 8], [1], 
   [2, 3, 5, 7, 8, 9], [3, 8, 9], [5], [2, 3, 8], [1, 2, 3, 7, 8], [1, 2, 3, 7, 8, 9], 
   [1, 3, 4, 7, 8, 9], [3, 4, 7, 8, 9], [6], [2, 3, 4, 7, 8, 9], [7], [2, 6, 8, 9], [1], 
   [2, 3, 5, 8], [2, 3, 5, 6, 8, 9], [3, 4, 5, 8, 9], [3, 4, 5, 8, 9], [2, 3, 4, 5, 9], [5, 8]]

def bd_br1_5 : Board :=
  [[2], [7], [6], [9], [4], [3], [5], [5], [1], [4], [3], [5], [1, 7], [1, 7], [6], [2], [8], 
   [9], [1, 4, 8], [1, 8], [9], [2, 3, 5, 8], [2, 3, 5, 8], [3, 5, 8], [1, 3], [7], [6], [5], 
   [1, 2, 6, 8, 9], [2, 3, 7, 8], [4], [1, 3, 7, 8, 9], [9], [1, 3, 6, 7, 8, 9], [2, 3, 7, 9], 
   [1, 2, 3, 7, 8, 9], [1, 3, 6, 8, 9], [4], [3, 7, 8], [1, 3, 5, 7, 8], [], [2], 
   [1, 3, 5, 6, 7, 8, 9], [3, 5, 7, 9], [1, 3, 5, 7, 8, 9], [1, 3, 8, 9], [1, 2, 8, 9], 
   [2, 3, 7, 8], [6], [1, 3, 5, 7, 8, 9], [1, 5, 7, 8], [1, 3, 4, 5, 7, 8, 9], 
   [2, 3, 4, 5, 7, 9], [1, 2, 3, 4, 5, 7, 8, 9], [3, 6, 8, 9], [2, 6, 8, 9], [4], 
   [2, 3, 5, 7, 8], [2, 3, 5, 6, 7, 8, 9], [3, 5, 7, 8, 9], [5, 7, 8], [1], 
   [2, 3, 5, 7, 8, 9], [3, 8, 9], [5], [2, 3, 8], [1, 2, 3, 7, 8], [1, 2, 3, 7, 8, 9], 
   [1, 3, 4, 7, 8, 9], [3, 4, 7, 8, 9], [6], [2, 3, 4, 7, 8, 9], [7], [2, 6, 8, 9], [1], 
   [2, 3, 5, 8], [2, 3, 5, 6, 8, 9], [3, 4, 5, 8, 9], [3, 4, 5, 8, 9], [2, 3, 4, 5, 9], [5, 8]]

def bd_br1_6 : Board :=
  [[2], [7], [6], [9], [4], [3], [5], [5], [1], [4], [3], [5], [1, 7], [1, 7], [6], [2], [8], 
   [9], [1, 4, 8], [1, 8], [9], [2, 3, 5, 8], [2, 3, 5, 8], [3, 5, 8], [3], [7], [6], [5], 
   [1, 2, 6, 8, 9], [2, 3, 7, 8], [4], [1, 3, 7, 8, 9], [9], [1, 3, 6, 7, 8, 9], [2, 3, 7, 9], 
   [1, 2, 3, 7, 8, 9], [1, 3, 6, 8, 9], [4], [3, 7, 8], [1, 3, 5, 7, 8], [], [2], 
   [1, 3, 5, 6, 7, 8, 9], [3, 5, 7, 9], [1, 3, 5, 7, 8, 9], [1, 3, 8, 9], [1, 2, 8, 9], 
   [2, 3, 7, 8], [6], [1, 3, 5, 7, 8, 9], [1], [1, 3, 4, 5, 7, 8, 9], [2, 3, 4, 5, 7, 9], 
   [1, 2, 3, 4, 5, 7, 8, 9], [3, 6, 8, 9], [2, 6, 8, 9], [4], [2, 3, 5, 7, 8], 
   [2, 3, 5, 6, 7, 8, 9], [3, 5, 7, 8, 9], [7], [1], [2, 3, 5, 7, 8, 9], [3, 8, 9], [5], 
   [2, 3, 8], [1, 2, 3, 7, 8], [1, 2, 3, 7, 8, 9], [1, 3, 4, 7, 8, 9], [3, 4, 7, 8, 9], [6], 
   [2, 3, 4, 7, 8, 9], [7], [2, 6, 8, 9], [1], [2, 3, 5, 8], [2, 3, 5, 6, 8, 9], 
   [3, 4, 5, 8, 9], [3, 4, 5, 8, 9], [2, 3, 4, 5, 9], [8]]

def bd_br2_0 : Board :=
  [[2], [7], [6], [9], [4], [1, 3, 5, 8], [1, 3, 5, 8], [3, 5, 8], [1, 3, 8], [1, 4, 8], [3], 
   [5], [1, 7, 8], [1, 7, 8], [6], [2], [9], [1, 4, 7, 8, 9], [1, 4, 8], [1, 8], [9], 
   [1, 2, 3, 5, 7, 8], [1, 2, 3, 5, 7, 8], [1, 3, 5, 7, 8], [1, 3, 8], [3, 4, 5, 7, 8], [6], 
   [5], [1, 2, 6, 8, 9], [2, 3, 7, 8], [4], [1, 3, 7, 8, 9], [1, 3, 8, 9], [1, 3, 6, 7, 8, 9], 
   [2, 3, 7, 8, 9], [1, 2, 3, 7, 8, 9], [1, 3, 6, 8, 9], [4], [3, 7, 8], [1, 3, 5, 7, 8], 
   [1, 8], [2], [1, 3, 5, 6, 7, 8, 9], [3, 5, 7, 8, 9], [1, 3, 5, 7, 8, 9], [1, 3, 8, 9], 
   [1, 2, 8, 9], [2, 3, 7, 8], [6], [1, 3, 5, 7, 8, 9], [1, 5, 7, 8], [1, 3, 4, 5, 7, 8, 9], 
   [2, 3, 4, 5, 7, 8, 9], [1, 2, 3, 4, 5, 7, 8, 9], [3, 6, 8, 9], [2, 6, 8, 9], [4], 
   [2, 3, 5, 7, 8], [2, 3, 5, 6, 7, 8, 9], [3, 5, 7, 8, 9], [5, 7, 8], [1], 
   [2, 3, 5, 7, 8, 9], [3, 8, 9], [5], [2, 3, 8], [1, 2, 3, 7, 8], [1, 2, 3, 7, 8, 9], 
   [1, 3, 4, 7, 8, 9], [3, 4, 7, 8, 9], [6], [2, 3, 4, 7, 8, 9], [7], [2, 6, 8, 9], [1], 
   [2, 3, 5, 8], [2, 3, 5, 6, 8, 9], [3, 4, 5, 8, 9], [3, 4, 5, 8, 9], [2, 3, 4, 5, 8, 9], 
   [5, 8]]

def bd_br2_1 : Board :=
  [[2], [7], [6], [9], [4], [1, 3, 5, 8], [1, 3, 5, 8], [3, 5, 8], [1, 3, 8], [1, 4, 8], [3], 
   [5], [1, 7, 8], [1, 7, 8], [6], [2], [9], [1, 4, 7, 8], [1, 4, 8], [1, 8], [9], 
   [1, 2, 3, 5, 7, 8], [1, 2, 3, 5, 7, 8], [1, 3, 5, 7, 8], [1, 3, 8], [3, 4, 5, 7, 8], [6], 
   [5], [1, 2, 6, 8, 9], [2, 3, 7, 8], [4], [1, 3, 7, 8, 9], [1, 3, 8], [1, 3, 6, 7, 8, 9], 
   [2, 3, 7, 8], [1, 2, 3, 7, 8, 9], [1, 3, 6, 8, 9], [4], [3, 7, 8], [1, 3, 5, 7, 8], [1, 8], 
   [2], [1, 3, 5, 6, 7, 8, 9], [3, 5, 7, 8], [1, 3, 5, 7, 8, 9], [1, 3, 8, 9], [1, 2, 8, 9], 
   [2, 3, 7, 8], [6], [1, 3, 5, 7, 8, 9], [1, 5, 7, 8], [1, 3, 4, 5, 7, 8, 9], 
   [2, 3, 4, 5, 7, 8], [1, 2, 3, 4, 5, 7, 8, 9], [3, 6, 8, 9], [2, 6, 8, 9], [4], 
   [2, 3, 5, 7, 8], [2, 3, 5, 6, 7, 8, 9], [3, 5, 7, 8, 9], [5, 7, 8], [1], 
   [2, 3, 5, 7, 8, 9], [3, 8, 9], [5], [2, 3, 8], [1, 2, 3, 7, 8], [1, 2, 3, 7, 8, 9], 
   [1, 3, 4, 7, 8, 9], [3, 4, 7, 8, 9], [6], [2, 3, 4, 7, 8, 9], [7], [2, 6, 8, 9], [1], 
   [2, 3, 5, 8], [2, 3, 5, 6, 8, 9], [3, 4, 5, 8, 9], [3, 4, 5, 8, 9], [2, 3, 4, 5, 8], [5, 8]]

def bd_br2_2 : Board :=
  [[2], [7], [6], [9], [4], [1, 3, 5, 8], [1, 3, 5, 8], [3, 5, 8], [1, 3, 8], [1, 4, 8], [3], 
   [5], [1, 7, 8], [1, 7, 8], [6], [2], [9], [1, 4, 7, 8], [1, 4, 8], [1, 8], [9], 
   [1, 2, 3, 5, 7, 8], [1, 2, 3, 5, 7, 8], [1, 3, 5, 7, 8], [1, 3, 8], [3, 4, 5, 7, 8], [6], 
   [5], [1, 2, 6, 8, 9], [2, 3, 7, 8], [4], [1, 3, 7, 8, 9], [1, 3, 8], [1, 3, 6, 7, 8, 9], 
   [2, 3, 7, 8], [1, 2, 3, 7, 8, 9], [1, 3, 6, 8, 9], [4], [3, 7, 8], [1, 3, 5, 7, 8], [], 
   [2], [1, 3, 5, 6, 7, 8, 9], [3, 5, 7, 8], [1, 3, 5, 7, 8, 9], [1, 3, 8, 9], [1, 2, 8, 9], 
   [2, 3, 7, 8], [6], [1, 3, 5, 7, 8, 9], [1, 5, 7, 8], [1, 3, 4, 5, 7, 8, 9], 
   [2, 3, 4, 5, 7, 8], [1, 2, 3, 4, 5, 7, 8, 9], [3, 6, 8, 9], [2, 6, 8, 9], [4], 
   [2, 3, 5, 7, 8], [2, 3, 5, 6, 7, 8, 9], [3, 5, 7, 8, 9], [5, 7, 8], [1], 
   [2, 3, 5, 7, 8, 9], [3, 8, 9], [5], [2, 3, 8], [1, 2, 3, 7, 8], [1, 2, 3, 7, 8, 9], 
   [1, 3, 4, 7, 8, 9], [3, 4, 7, 8, 9], [6], [2, 3, 4, 7, 8, 9], [7], [2, 6, 8, 9], [1], 
   [2, 3, 5, 8], [2, 3, 5, 6, 8, 9], [3, 4, 5, 8, 9], [3, 4, 5, 8, 9], [2, 3, 4, 5, 8], [5, 8]]

def bd_br2_3 : Board :=
  [[2], [7], [6], [9], [4], [1, 3, 5, 8], [1, 3, 5, 8], [3, 5, 8], [1, 3, 8], [1, 4, 8], [3], 
   [5], [1, 7, 8], [1, 7, 8], [6], [2], [9], [1, 4, 7, 8], [1, 4, 8], [1, 8], [9], 
   [1, 2, 3, 5, 7, 8], [1, 2, 3, 5, 7, 8], [1, 3, 5, 7, 8], [1, 3, 8], [3, 4, 5, 7, 8], [6], 
   [5], [1, 2, 6, 8, 9], [2, 3, 7, 8], [4], [1, 3, 7, 8, 9], [1, 3, 8], [1, 3, 6, 7, 8, 9], 
   [2, 3, 7, 8], [1, 2, 3, 7, 8, 9], [1, 3, 6, 8, 9], [4], [3, 7, 8], [1, 3, 5, 7, 8], [], 
   [2], [1, 3, 5, 6, 7, 8, 9], [3, 5, 7, 8], [1, 3, 5, 7, 8, 9], [1, 3, 8, 9], [1, 2, 8, 9], 
   [2, 3, 7, 8], [6], [1, 3, 5, 7, 8, 9], [1], [1, 3, 4, 5, 7, 8, 9], [2, 3, 4, 5, 7, 8], 
   [1, 2, 3, 4, 5, 7, 8, 9], [3, 6, 8, 9], [2, 6, 8, 9], [4], [2, 3, 5, 7, 8], 
   [2, 3, 5, 6, 7, 8, 9], [3, 5, 7, 8, 9], [7], [1], [2, 3, 5, 7, 8, 9], [3, 8, 9], [5], 
   [2, 3, 8], [1, 2, 3, 7, 8], [1, 2, 3, 7, 8, 9], [1, 3, 4, 7, 8, 9], [3, 4, 7, 8, 9], [6], 
   [2, 3, 4, 7, 8, 9], [7], [2, 6, 8, 9], [1], [2, 3, 5, 8], [2, 3, 5, 6, 8, 9], 
   [3, 4, 5, 8, 9], [3, 4, 5, 8, 9], [2, 3, 4, 5, 8], [8]]

def bd_s6_0 : Board :=
  [[1], [1, 3, 5, 6, 7, 8, 9], [1, 3, 5, 6, 7, 8, 9], [1, 3, 5, 6, 7, 8, 9], 
   [1, 3, 5, 6, 7, 8, 9], [1, 3, 5, 6, 7, 8, 9], [1, 3, 5, 6, 7, 8, 9], [2, 4], [2, 4], 
   [1, 2], digitsV, digitsV, digitsV, digitsV, digitsV, digitsV, digitsV, digitsV, digitsV, 
   digitsV, digitsV, digitsV, digitsV, digitsV, digitsV, digitsV, digitsV, digitsV, digitsV, 
   digitsV, digitsV, digitsV, digitsV, digitsV, digitsV, digitsV, digitsV, digitsV, digitsV, 
   digitsV, digitsV, digitsV, digitsV, digitsV, digitsV, digitsV, digitsV, digitsV, digitsV, 
   digitsV, digitsV, digitsV, digitsV, digitsV, digitsV, digitsV, digitsV, digitsV, digitsV, 
   digitsV, digitsV, digitsV, digitsV, digitsV, digitsV, digitsV, digitsV, digitsV, digitsV, 
   digitsV, digitsV, digitsV, digitsV, digitsV, digitsV, digitsV, digitsV, digitsV, digitsV, 
   digitsV, digitsV]

def bd_s6_1 : Board :=
  [[1], [1, 3, 5, 6, 7, 8, 9], [1, 3, 5, 6, 7, 8, 9], [1, 3, 5, 6, 7, 8, 9], 
   [1, 3, 5, 6, 7, 8, 9], [1, 3, 5, 6, 7, 8, 9], [1, 3, 5, 6, 7, 8, 9], [2, 4], [2, 4], 
   [1, 2], digitsV, digitsV, digitsV, digitsV, digitsV, [1, 3, 5, 6, 7, 8, 9], 
   [1, 3, 5, 6, 7, 8, 9], [1, 3, 5, 6, 7, 8, 9], digitsV, digitsV, digitsV, digitsV, digitsV, 
   digitsV, [1, 3, 5, 6, 7, 8, 9], [1, 3, 5, 6, 7, 8, 9], [1, 3, 5, 6, 7, 8, 9], digitsV, 
   digitsV, digitsV, digitsV, digitsV, digitsV, digitsV, digitsV, digitsV, digitsV, digitsV, 
   digitsV, digitsV, digitsV, digitsV, digitsV, digitsV, digitsV, digitsV, digitsV, digitsV, 
   digitsV, digitsV, digitsV, digitsV, digitsV, digitsV, digitsV, digitsV, digitsV, digitsV, 
   digitsV, digitsV, digitsV, digitsV, digitsV, digitsV, digitsV, digitsV, digitsV, digitsV, 
   digitsV, digitsV, digitsV, digitsV, digitsV, digitsV, digitsV, digitsV, digitsV, digitsV, 
   digitsV, digitsV, digitsV]

/-! ## Basic list and board lemmas -/

theorem getD_set_ne {α : Type} (l : List α) (i j : Nat) (x d : α) (h : j ≠ i) :
    (l.set i x).getD j d = l.getD j d := by
  induction l generalizing i j with
  | nil => rfl
  | cons a t ih =>
    cases i with
    | zero =>
      cases j with
      | zero => exact absurd rfl h
      | succ j => rfl
    | succ i =>
      cases j with
      | zero => rfl
      | succ j => exact ih i j (fun e => h (by rw [e]))

theorem getD_set_self {α : Type} (l : List α) (i : Nat) (x d : α) (h : i < l.length) :
    (l.set i x).getD i d = x := by
  induction l generalizing i with
  | nil => exact absurd h (Nat.not_lt_zero i)
  | cons a t ih =>
    cases i with
    | zero => rfl
    | succ i => exact ih i (Nat.lt_of_succ_lt_succ h)

theorem set_of_le_length {α : Type} (l : List α) (i : Nat) (x : α) (h : l.length ≤ i) :
    l.set i x = l := by
  induction l generalizing i with
  | nil => rfl
  | cons a t ih =>
    cases i with
    | zero => exact absurd h (Nat.not_succ_le_zero _)
    | succ i => simpa using ih i (Nat.le_of_succ_le_succ h)

theorem getD_ge {α : Type} (l : List α) (i : Nat) (d : α) (h : l.length ≤ i) :
    l.getD i d = d := by
  induction l generalizing i with
  | nil => rfl
  | cons a t ih =>
    cases i with
    | zero => exact absurd h (Nat.not_succ_le_zero _)
    | succ i => simpa using ih i (Nat.le_of_succ_le_succ h)

theorem assign_board_length (v : Board) (b : Nat) (x : Values) :
    (assign_board v b x).length = v.length := by
  unfold assign_board
  split
  · rfl
  · exact List.length_set v b x

theorem bget_assign_ne (v : Board) (b j : Nat) (x : Values) (h : j ≠ b) :
    bget (assign_board v b x) j = bget v j := by
  unfold assign_board
  split
  · rfl
  · exact getD_set_ne v b j x [] h

theorem bget_assign_self (v : Board) (b : Nat) (x : Values) (h : b < v.length) :
    bget (assign_board v b x) b = x := by
  unfold assign_board bget
  split
  · exact ‹v.getD b [] = x›
  · exact getD_set_self v b x [] h

theorem bget_assign_sublist (v : Board) (b : Nat) (x : Values)
    (hx : List.Sublist x (bget v b)) (j : Nat) :
    List.Sublist (bget (assign_board v b x) j) (bget v j) := by
  by_cases hj : j = b
  · subst hj
    by_cases hl : j < v.length
    · rw [bget_assign_self v j x hl]; exact hx
    · unfold assign_board
      split
      · exact List.Sublist.refl _
      · rw [show v.set j x = v from set_of_le_length v j x (Nat.le_of_not_lt hl)]
  · rw [bget_assign_ne v b j x hj]

/-! ## Generic fold invariants -/

theorem foldl_inv {α β : Type} (g : β → α → β) (P : β → Prop)
    (h : ∀ s a, P s → P (g s a)) : ∀ (l : List α) (s : β), P s → P (l.foldl g s) := by
  intro l
  induction l with
  | nil => intro s hs; exact hs
  | cons a t ih => intro s hs; exact ih (g s a) (h s a hs)

theorem foldl_inv_mem {α β : Type} (g : β → α → β) (P : β → Prop) :
    ∀ (l : List α), (∀ s a, a ∈ l → P s → P (g s a)) → ∀ s, P s → P (l.foldl g s) := by
  intro l
  induction l with
  | nil => intro _ s hs; exact hs
  | cons a t ih =>
    intro h s hs
    exact ih (fun s' a' ha' hs' => h s' a' (List.mem_cons_of_mem a ha') hs')
      (g s a) (h s a (List.mem_cons_self a t) hs)

theorem Subb.refl (v : Board) : Subb v v := fun _ => List.Sublist.refl _

theorem Subb.trans {u v w : Board} (h1 : Subb u v) (h2 : Subb v w) : Subb u w :=
  fun j => List.Sublist.trans (h1 j) (h2 j)

/-- A fold whose every step only shrinks the board shrinks the board. -/
theorem foldl_Subb {α : Type} (g : Board → α → Board)
    (h : ∀ w a, Subb (g w a) w) (l : List α) (v : Board) : Subb (l.foldl g v) v :=
  foldl_inv g (fun w => Subb w v) (fun s a hs => Subb.trans (h s a) hs) l v (Subb.refl v)

theorem foldl_length {α : Type} (g : Board → α → Board)
    (h : ∀ w a, (g w a).length = w.length) (l : List α) (v : Board) :
    (l.foldl g v).length = v.length := by
  have := foldl_inv g (fun w => w.length = v.length)
    (fun s a hs => show (g s a).length = v.length by rw [h s a]; exact hs) l v rfl
  exact this

/-! ## pyReplace lemmas -/

theorem removeOccAux_sublist (pat : List Nat) :
    ∀ (fuel : Nat) (s : List Nat), List.Sublist (removeOccAux pat fuel s) s := by
  intro fuel
  induction fuel with
  | zero => intro s; exact List.Sublist.refl _
  | succ n ih =>
    intro s
    match s with
    | [] => exact List.Sublist.refl _
    | c :: rest =>
      unfold removeOccAux
      split
      · exact List.Sublist.trans (ih _) (List.drop_sublist _ _)
      · exact List.Sublist.cons₂ c (ih rest)

theorem pyReplace_sublist (s pat : List Nat) : List.Sublist (pyReplace s pat) s := by
  unfold pyReplace
  split
  · exact List.Sublist.refl _
  · exact removeOccAux_sublist pat s.length s

theorem pyReplace_nil_pat (s : List Nat) : pyReplace s [] = s := rfl

theorem removeOccAux_single (d : Nat) :
    ∀ (fuel : Nat) (s : List Nat), s.length ≤ fuel →
      removeOccAux [d] fuel s = s.filter (fun c => c != d) := by
  intro fuel
  induction fuel with
  | zero =>
    intro s hs
    rw [List.length_eq_zero.mp (Nat.le_zero.mp hs)]
    rfl
  | succ n ih =>
    intro s hs
    match s with
    | [] => rfl
    | c :: rest =>
      unfold removeOccAux
      by_cases hcd : c = d
      · subst hcd
        rw [if_pos (by simp [List.isPrefixOf])]
        have hdrop : List.drop (List.length [c]) (c :: rest) = rest := by simp
        rw [hdrop, ih rest (Nat.le_of_succ_le_succ hs)]
        simp [List.filter_cons]
      · rw [if_neg (by simp [List.isPrefixOf]; exact fun h => hcd h.symm)]
        rw [ih rest (Nat.le_of_succ_le_succ hs)]
        have hb : (c != d) = true := by simp [hcd]
        simp [List.filter_cons, hb]

theorem pyReplace_single (s : List Nat) (d : Nat) :
    pyReplace s [d] = s.filter (fun c => c != d) := by
  unfold pyReplace
  rw [if_neg (by simp [List.isEmpty])]
  exact removeOccAux_single d s.length s (Nat.le_refl _)

theorem pyReplace_self_single (d : Nat) : pyReplace [d] [d] = [] := by
  rw [pyReplace_single]
  simp

/-! ## The rules only shrink candidate sets -/

theorem elimPeerStep_Subb (digit : Values) (w : Board) (p : Nat) :
    Subb (elimPeerStep digit w p) w :=
  bget_assign_sublist w p _ (pyReplace_sublist _ _)

theorem elimBoxStep_Subb (w : Board) (b : Nat) : Subb (elimBoxStep w b) w :=
  foldl_Subb _ (fun w' p => elimPeerStep_Subb _ w' p) _ w

theorem eliminate_Subb (v : Board) : Subb (eliminate v) v :=
  foldl_Subb _ elimBoxStep_Subb _ v

theorem twinPeerStep_Subb (cd : Values) (w : Board) (p : Nat) :
    Subb (twinPeerStep cd w p) w :=
  bget_assign_sublist w p _ (List.filter_sublist _)

theorem twinGroupStep_Subb (unit : List Nat) (w : Board) (kv : Values × List Nat) :
    Subb (twinGroupStep unit w kv) w := by
  unfold twinGroupStep
  split
  · exact Subb.refl w
  · exact foldl_Subb _ (twinPeerStep_Subb kv.1) _ w

theorem nakedUnitStep_Subb (w : Board) (unit : List Nat) : Subb (nakedUnitStep w unit) w :=
  foldl_Subb _ (twinGroupStep_Subb unit) _ w

theorem naked_twins_Subb (v : Board) : Subb (naked_twins v) v :=
  foldl_Subb _ nakedUnitStep_Subb _ v

theorem onlyDigitStep_Subb (unit : List Nat) (w : Board) (d : Nat) :
    Subb (onlyDigitStep unit w d) w := by
  unfold onlyDigitStep
  split
  next b heq =>
    have hb : b ∈ unit.filter (fun b => (bget w b).contains d) := by
      rw [heq]; exact List.mem_singleton.mpr rfl
    have hd : d ∈ bget w b := by
      have := List.of_mem_filter hb
      simpa using this
    exact bget_assign_sublist w b [d] (List.singleton_sublist.mpr hd)
  next => exact Subb.refl w

theorem onlyUnitStep_Subb (w : Board) (unit : List Nat) : Subb (onlyUnitStep w unit) w :=
  foldl_Subb _ (onlyDigitStep_Subb unit) _ w

theorem only_choice_Subb (v : Board) : Subb (only_choice v) v :=
  foldl_Subb _ onlyUnitStep_Subb _ v

theorem one_pass_Subb (v : Board) : Subb (one_pass v) v :=
  Subb.trans (only_choice_Subb _) (Subb.trans (naked_twins_Subb _) (eliminate_Subb v))

/-! ## The rules preserve the board length -/

theorem elimPeerStep_length (digit : Values) (w : Board) (p : Nat) :
    (elimPeerStep digit w p).length = w.length := assign_board_length _ _ _

theorem elimBoxStep_length (w : Board) (b : Nat) : (elimBoxStep w b).length = w.length :=
  foldl_length _ (fun w' p => elimPeerStep_length _ w' p) _ w

theorem eliminate_length (v : Board) : (eliminate v).length = v.length :=
  foldl_length _ elimBoxStep_length _ v

theorem twinGroupStep_length (unit : List Nat) (w : Board) (kv : Values × List Nat) :
    (twinGroupStep unit w kv).length = w.length := by
  unfold twinGroupStep
  split
  · rfl
  · exact foldl_length _ (fun w' p => assign_board_length _ _ _) _ w

theorem naked_twins_length (v : Board) : (naked_twins v).length = v.length :=
  foldl_length _ (fun w u => foldl_length _ (twinGroupStep_length u) _ w) _ v

theorem onlyDigitStep_length (unit : List Nat) (w : Board) (d : Nat) :
    (onlyDigitStep unit w d).length = w.length := by
  unfold onlyDigitStep
  split
  · exact assign_board_length _ _ _
  · rfl

theorem only_choice_length (v : Board) : (only_choice v).length = v.length :=
  foldl_length _ (fun w u => foldl_length _ (onlyDigitStep_length u) _ w) _ v

theorem one_pass_length (v : Board) : (one_pass v).length = v.length := by
  unfold one_pass
  rw [only_choice_length, naked_twins_length, eliminate_length]

/-! ## Empty candidate sets persist -/

theorem sublist_singleton_cases {x : List Nat} {a : Nat} (h : List.Sublist x [a]) :
    x = [] ∨ x = [a] := by
  cases h with
  | cons _ h' => exact Or.inl (List.sublist_nil.mp h')
  | cons₂ _ h' => exact Or.inr (by rw [List.sublist_nil.mp h'])

theorem Subb_empty {w v : Board} (h : Subb w v) (j : Nat) (hj : bget v j = []) :
    bget w j = [] := List.sublist_nil.mp (by rw [← hj]; exact h j)

theorem foldl_empty_persist {α : Type} (g : Board → α → Board)
    (hg : ∀ w a, Subb (g w a) w) (l : List α) (w : Board) (j : Nat) (hj : bget w j = []) :
    bget (l.foldl g w) j = [] := Subb_empty (foldl_Subb g hg l w) j hj

/-! ## Peers and boxes -/

theorem mem_boxes_lt : ∀ b ∈ boxes, b < 81 := by decide

theorem mem_unit_lt : ∀ u ∈ unit_list, ∀ b ∈ u, b < 81 := by decide

theorem mem_unit_boxes : ∀ u ∈ unit_list, ∀ b ∈ u, b ∈ boxes := by decide

theorem mem_peers_of_sameUnit (b1 b2 : Nat) (hb2 : b2 ∈ boxes) (hne : b2 ≠ b1)
    (hsu : sameUnit b1 b2) : b2 ∈ peers b1 := by
  obtain ⟨u, hu, h1, h2⟩ := hsu
  refine List.mem_filter.mpr ⟨hb2, ?_⟩
  have hdict : u ∈ unit_dict b1 := List.mem_filter.mpr ⟨hu, by simpa using h1⟩
  have hflat : b2 ∈ (unit_dict b1).flatten := List.mem_flatten.mpr ⟨u, hdict, h2⟩
  simp [hne, hflat]

theorem elimBoxStep_eq (w : Board) (b : Nat) :
    elimBoxStep w b = (peers b).foldl (elimPeerStep (bget w b)) w := rfl

theorem elimPeerStep_eq (digit : Values) (w : Board) (p : Nat) :
    elimPeerStep digit w p = assign_board w p (pyReplace (bget w p) digit) := rfl

/-! ## A duplicated settled digit forces an empty cell in eliminate -/

theorem eliminate_dup_empty (values : Board) (hWF : WF values) (b1 b2 d : Nat)
    (hb1 : b1 ∈ boxes) (hb2 : b2 ∈ boxes) (hne : b1 ≠ b2) (hsu : sameUnit b1 b2)
    (h1 : bget values b1 = [d]) (h2 : bget values b2 = [d]) :
    ∃ j, j < 81 ∧ bget (eliminate values) j = [] := by
  have hb1s : b1 ∈ boxes.filter (fun b => (bget values b).length == 1) :=
    List.mem_filter.mpr ⟨hb1, by simp [h1]⟩
  obtain ⟨S1, S2, hsplit⟩ := List.append_of_mem hb1s
  have hfold : eliminate values =
      List.foldl elimBoxStep (elimBoxStep (List.foldl elimBoxStep values S1) b1) S2 := by
    unfold eliminate
    rw [hsplit, List.foldl_append, List.foldl_cons]
  have hsub0 : Subb (List.foldl elimBoxStep values S1) values :=
    foldl_Subb _ elimBoxStep_Subb _ _
  rcases sublist_singleton_cases (h1 ▸ hsub0 b1) with hb1e | hb1d
  · -- b1 already emptied before its own step: the empty persists
    refine ⟨b1, mem_boxes_lt b1 hb1, ?_⟩
    rw [hfold]
    exact foldl_empty_persist _ elimBoxStep_Subb _ _ _
      (Subb_empty (elimBoxStep_Subb _ _) _ hb1e)
  · -- b1 still holds [d] when processed: its step empties b2 (or b2 is already empty)
    have hpeer : b2 ∈ peers b1 := mem_peers_of_sameUnit b1 b2 hb2 (Ne.symm hne) hsu
    obtain ⟨P1, P2, hpsplit⟩ := List.append_of_mem hpeer
    have hstep : elimBoxStep (List.foldl elimBoxStep values S1) b1 =
        List.foldl (elimPeerStep [d])
          (elimPeerStep [d] (List.foldl (elimPeerStep [d]) (List.foldl elimBoxStep values S1) P1) b2)
          P2 := by
      rw [elimBoxStep_eq, hb1d, hpsplit, List.foldl_append, List.foldl_cons]
    have hsub1 : Subb (List.foldl (elimPeerStep [d]) (List.foldl elimBoxStep values S1) P1)
        (List.foldl elimBoxStep values S1) :=
      foldl_Subb _ (fun w' p => elimPeerStep_Subb _ w' p) _ _
    have hb2sub : List.Sublist
        (bget (List.foldl (elimPeerStep [d]) (List.foldl elimBoxStep values S1) P1) b2) [d] := by
      have := Subb.trans hsub1 hsub0 b2
      rw [h2] at this
      exact this
    refine ⟨b2, mem_boxes_lt b2 hb2, ?_⟩
    rw [hfold, hstep]
    rcases sublist_singleton_cases hb2sub with hb2e | hb2d
    · -- b2 already empty: it stays empty through the remaining folds
      refine foldl_empty_persist _ elimBoxStep_Subb _ _ _ ?_
      refine foldl_empty_persist _ (fun w' p => elimPeerStep_Subb _ w' p) _ _ _ ?_
      exact Subb_empty (elimPeerStep_Subb _ _ _) _ hb2e
    · -- the peer step replaces [d] by [] in b2
      have hlen : b2 < (List.foldl (elimPeerStep [d]) (List.foldl elimBoxStep values S1) P1).length := by
        rw [foldl_length _ (fun w' p => elimPeerStep_length _ w' p),
          foldl_length _ elimBoxStep_length]
        exact hWF ▸ mem_boxes_lt b2 hb2
      have hempty : bget (elimPeerStep [d]
          (List.foldl (elimPeerStep [d]) (List.foldl elimBoxStep values S1) P1) b2) b2 = [] := by
        rw [elimPeerStep_eq, hb2d, pyReplace_self_single]
        exact bget_assign_self _ _ _ hlen
      refine foldl_empty_persist _ elimBoxStep_Subb _ _ _ ?_
      exact foldl_empty_persist _ (fun w' p => elimPeerStep_Subb _ w' p) _ _ _ hempty

/-! ## Counting solved boxes -/

theorem map_getD_range {α : Type} (d : α) :
    ∀ l : List α, (List.range l.length).map (fun i => l.getD i d) = l := by
  intro l
  induction l with
  | nil => rfl
  | cons a t ih =>
    rw [List.length_cons, List.range_succ_eq_map, List.map_cons, List.map_map]
    have : ((fun i => (a :: t).getD i d) ∘ Nat.succ) = fun i => t.getD i d := by
      funext i; rfl
    rw [this, ih]
    rfl

theorem n_solved_eq_range (v : Board) :
    n_solved v = (List.range v.length).countP (fun i => (bget v i).length == 1) := by
  unfold n_solved
  rw [← List.countP_eq_length_filter]
  conv =>
    lhs
    rw [← map_getD_range ([] : Values) v]
  rw [List.countP_map]
  rfl

theorem countP_eq_imp_rev {α : Type} (p q : α → Bool) :
    ∀ l : List α, (∀ a ∈ l, p a = true → q a = true) → l.countP p = l.countP q →
      ∀ a ∈ l, q a = true → p a = true := by
  intro l
  induction l with
  | nil => intro _ _ a ha; exact absurd ha (List.not_mem_nil a)
  | cons x t ih =>
    intro himp hcnt a ha hqa
    have himpt : ∀ b ∈ t, p b = true → q b = true :=
      fun b hb => himp b (List.mem_cons_of_mem x hb)
    have hmono : t.countP p ≤ t.countP q := List.countP_mono_left himpt
    rw [List.countP_cons, List.countP_cons] at hcnt
    rcases List.mem_cons.mp ha with rfl | hat
    · by_contra hpa
      rw [hqa] at hcnt
      rw [Bool.eq_false_iff.mpr hpa] at hcnt
      simp at hcnt
      omega
    · have hteq : t.countP p = t.countP q := by
        by_cases hpx : p x = true
        · rw [hpx, himp x (List.mem_cons_self x t) hpx] at hcnt
          omega
        · rw [Bool.eq_false_iff.mpr hpx] at hcnt
          by_cases hqx : q x = true
          · rw [hqx] at hcnt; simp at hcnt; omega
          · rw [Bool.eq_false_iff.mpr hqx] at hcnt; simpa using hcnt
      exact ih himpt hteq a hat hqa

/-! ## The fixpoint driver -/

theorem getD_mem_of_lt {α : Type} (l : List α) (j : Nat) (d : α) (h : j < l.length) :
    l.getD j d ∈ l := by
  induction l generalizing j with
  | nil => exact absurd h (Nat.not_lt_zero j)
  | cons a t ih =>
    cases j with
    | zero => exact List.mem_cons_self a t
    | succ j => exact List.mem_cons_of_mem a (ih j (Nat.lt_of_succ_lt_succ h))

theorem no_empty_bget (v : Board) (h : (v.filter (fun x => x.length == 0)).length = 0) :
    ∀ j, j < v.length → bget v j ≠ [] := by
  intro j hj hempty
  have hfe : v.filter (fun x => x.length == 0) = [] := List.length_eq_zero.mp h
  have hall := List.filter_eq_nil_iff.mp hfe
  have hmem : bget v j ∈ v := getD_mem_of_lt v j [] hj
  have := hall _ hmem
  rw [hempty] at this
  simp at this

theorem reduceLoop_succ (fuel : Nat) (values : Board) :
    reduceLoop (fuel + 1) values =
      if ((one_pass values).filter (fun x => x.length == 0)).length ≠ 0 then .failed
      else if n_solved values = n_solved (one_pass values) then .ok (one_pass values)
      else reduceLoop fuel (one_pass values) := rfl

theorem one_pass_keeps_singleton (v : Board)
    (hnoe : ∀ j, j < 81 → bget (one_pass v) j ≠ []) (j : Nat) (hj : j < 81)
    (hlen1 : (bget v j).length = 1) : bget (one_pass v) j = bget v j := by
  obtain ⟨a, ha⟩ := List.length_eq_one.mp hlen1
  have hs : List.Sublist (bget (one_pass v) j) [a] := by
    rw [← ha]; exact one_pass_Subb v j
  rcases sublist_singleton_cases hs with he | he
  · exact absurd he (hnoe j hj)
  · rw [he, ha]

theorem n_solved_le_one_pass (v : Board) (hWF : WF v)
    (hnoe : ∀ j, j < 81 → bget (one_pass v) j ≠ []) :
    n_solved v ≤ n_solved (one_pass v) := by
  rw [n_solved_eq_range v, n_solved_eq_range (one_pass v), one_pass_length, hWF]
  refine List.countP_mono_left ?_
  intro i hi hp
  have hi81 : i < 81 := List.mem_range.mp hi
  have h1 : (bget v i).length = 1 := by simpa using hp
  have := one_pass_keeps_singleton v hnoe i hi81 h1
  simp [this, h1]

theorem one_pass_pull_singleton (v : Board) (hWF : WF v)
    (hnoe : ∀ j, j < 81 → bget (one_pass v) j ≠ [])
    (hcnt : n_solved v = n_solved (one_pass v)) (j d : Nat) (hj : j < 81)
    (hout : bget (one_pass v) j = [d]) : bget v j = [d] := by
  have hq : ((bget (one_pass v) j).length == 1) = true := by simp [hout]
  have hcnt' : (List.range 81).countP (fun i => (bget v i).length == 1) =
      (List.range 81).countP (fun i => (bget (one_pass v) i).length == 1) := by
    have e1 := n_solved_eq_range v
    have e2 := n_solved_eq_range (one_pass v)
    rw [hWF] at e1
    rw [one_pass_length, hWF] at e2
    rw [← e1, ← e2]
    exact hcnt
  have himp : ∀ i ∈ List.range 81, ((bget v i).length == 1) = true →
      ((bget (one_pass v) i).length == 1) = true := by
    intro i hi hp
    have hi81 : i < 81 := List.mem_range.mp hi
    have h1 : (bget v i).length = 1 := by simpa using hp
    have := one_pass_keeps_singleton v hnoe i hi81 h1
    simp [this, h1]
  have hp : ((bget v j).length == 1) = true :=
    countP_eq_imp_rev _ _ (List.range 81) himp hcnt' j (List.mem_range.mpr hj) hq
  have h1 : (bget v j).length = 1 := by simpa using hp
  have := one_pass_keeps_singleton v hnoe j hj h1
  rw [this] at hout
  exact hout

theorem reduceLoop_ok_spec : ∀ (fuel : Nat) (v w : Board), WF v → reduceLoop fuel v = .ok w →
    WF w ∧ Subb w v ∧ (∀ j, j < 81 → bget w j ≠ []) ∧
      ∃ u, WF u ∧ (∀ j d, j < 81 → bget w j = [d] → bget u j = [d]) ∧
        (∀ j, j < 81 → bget (eliminate u) j ≠ []) := by
  intro fuel
  induction fuel with
  | zero =>
    intro v w _ hok
    exact absurd hok (by rw [show reduceLoop 0 v = RResult.out from rfl]; simp)
  | succ n ih =>
    intro v w hWF hok
    rw [reduceLoop_succ] at hok
    split at hok
    · exact absurd hok (by simp)
    · next hcond =>
      split at hok
      · next hstall =>
        injection hok with hw
        subst hw
        have hWFw : WF (one_pass v) := by
          unfold WF
          rw [one_pass_length]
          exact hWF
        have h0 : ((one_pass v).filter (fun x => x.length == 0)).length = 0 :=
          Decidable.not_not.mp hcond
        have hnoe : ∀ j, j < 81 → bget (one_pass v) j ≠ [] := by
          intro j hj
          exact no_empty_bget (one_pass v) h0 j (by rw [hWFw] at *; omega)
        refine ⟨hWFw, one_pass_Subb v, hnoe, v, hWF, ?_, ?_⟩
        · intro j d hj hout
          exact one_pass_pull_singleton v hWF hnoe hstall j d hj hout
        · intro j hj he
          apply hnoe j hj
          unfold one_pass
          exact Subb_empty (only_choice_Subb _) j (Subb_empty (naked_twins_Subb _) j he)
      · next hstall =>
        have hWF' : WF (one_pass v) := by
          unfold WF
          rw [one_pass_length]
          exact hWF
        obtain ⟨hWFw, hsub, hnoe, u, hu⟩ := ih (one_pass v) w hWF' hok
        exact ⟨hWFw, Subb.trans hsub (one_pass_Subb v), hnoe, u, hu⟩

set_option maxRecDepth 4000 in
/-- A board returned by the fixpoint driver never carries the same
settled digit in two distinct boxes of one unit. -/
theorem reduce_ok_no_dup (fuel : Nat) (v w : Board) (hWF : WF v)
    (hok : reduceLoop fuel v = .ok w) (b1 b2 d : Nat) (hb1 : b1 ∈ boxes) (hb2 : b2 ∈ boxes)
    (hne : b1 ≠ b2) (hsu : sameUnit b1 b2) (h1 : bget w b1 = [d]) (h2 : bget w b2 = [d]) :
    False := by
  obtain ⟨hWFw, hsub, hnoe, u, hWFu, hpull, hnoElim⟩ := reduceLoop_ok_spec fuel v w hWF hok
  have hu1 : bget u b1 = [d] := hpull b1 d (mem_boxes_lt _ hb1) h1
  have hu2 : bget u b2 = [d] := hpull b2 d (mem_boxes_lt _ hb2) h2
  obtain ⟨j, hj81, hje⟩ := eliminate_dup_empty u hWFu b1 b2 d hb1 hb2 hne hsu hu1 hu2
  exact hnoElim j hj81 hje

theorem n_solved_le_length (v : Board) : n_solved v ≤ v.length :=
  List.length_filter_le _ v

theorem reduceLoop_not_out : ∀ (fuel : Nat) (v : Board), WF v → 81 - n_solved v < fuel →
    reduceLoop fuel v ≠ .out := by
  intro fuel
  induction fuel with
  | zero => intro v _ h; exact absurd h (Nat.not_lt_zero _)
  | succ n ih =>
    intro v hWF hlt
    rw [reduceLoop_succ]
    split
    · simp
    · next hcond =>
      split
      · simp
      · next hstall =>
        have hWF' : WF (one_pass v) := by
          unfold WF
          rw [one_pass_length]
          exact hWF
        apply ih (one_pass v) hWF'
        have h0 : ((one_pass v).filter (fun x => x.length == 0)).length = 0 :=
          Decidable.not_not.mp hcond
        have hnoe : ∀ j, j < 81 → bget (one_pass v) j ≠ [] := by
          intro j hj
          exact no_empty_bget (one_pass v) h0 j (by rw [hWF'] at *; omega)
        have hle : n_solved v ≤ n_solved (one_pass v) := n_solved_le_one_pass v hWF hnoe
        have hub : n_solved (one_pass v) ≤ 81 := by
          have := n_solved_le_length (one_pass v)
          rw [hWF'] at this
          exact this
        omega

theorem reduce_puzzle_not_out (v : Board) (hWF : WF v) : reduce_puzzle v ≠ .out :=
  reduceLoop_not_out 82 v hWF (by have := n_solved_le_length v; omega)

/-! ## The search engine -/

theorem searchF_zero (values : Board) : searchF 0 values = .sOut := rfl

theorem tryBranches_found (rec : Board → SResult) (values : Board) (s : Nat) :
    ∀ (l : List Nat) (b : Board), tryBranches rec values s l = .sFound b →
      ∃ c, c ∈ l ∧ rec (assign_board values s [c]) = .sFound b := by
  intro l
  induction l with
  | nil => intro b h; exact absurd h (by simp [tryBranches])
  | cons c rest ih =>
    intro b h
    rw [show tryBranches rec values s (c :: rest) =
        (match rec (assign_board values s [c]) with
         | .sFalse => tryBranches rec values s rest
         | .sNone => tryBranches rec values s rest
         | r => r) from rfl] at h
    split at h
    · obtain ⟨c', hc', hr⟩ := ih b h
      exact ⟨c', List.mem_cons_of_mem c hc', hr⟩
    · obtain ⟨c', hc', hr⟩ := ih b h
      exact ⟨c', List.mem_cons_of_mem c hc', hr⟩
    · exact ⟨c, List.mem_cons_self c rest, h⟩

theorem assign_board_WF (v : Board) (b : Nat) (x : Values) (h : WF v) :
    WF (assign_board v b x) := by
  unfold WF
  rw [assign_board_length]
  exact h

/-- Any solved board returned by the search is a board returned by the
fixpoint driver on some well-formed input, hence duplicate-free; and it
passes the `is_solved` check. -/
theorem searchF_found : ∀ (fuel : Nat) (v b : Board), WF v → searchF fuel v = .sFound b →
    is_solved b = true ∧ WF b ∧
      (∀ b1 b2 d, b1 ∈ boxes → b2 ∈ boxes → b1 ≠ b2 → sameUnit b1 b2 →
        bget b b1 = [d] → bget b b2 = [d] → False) ∧
      ((∀ i x, x ∈ bget v i → x ∈ digitsV) → ∀ i x, x ∈ bget b i → x ∈ digitsV) := by
  intro fuel
  induction fuel with
  | zero =>
    intro v b _ h
    rw [searchF_zero] at h
    exact absurd h (by simp)
  | succ n ih =>
    intro v b hWF h
    rw [show searchF (n + 1) v = searchStep (searchF n) (reduce_puzzle v) from rfl] at h
    cases heq : reduce_puzzle v with
    | failed => rw [heq] at h; exact absurd h (by simp [searchStep])
    | out => rw [heq] at h; exact absurd h (by simp [searchStep])
    | ok w =>
      rw [heq] at h
      rw [show searchStep (searchF n) (RResult.ok w) =
          (if is_solved w then SResult.sFound w
           else
             match chooseBox w with
             | none => SResult.sErr
             | some p => tryBranches (searchF n) w p.2 (bget w p.2)) from rfl] at h
      obtain ⟨hWFw, hsubwv, hnoe, _⟩ := reduceLoop_ok_spec 82 v w hWF heq
      split at h
      · next hsol =>
        injection h with hb
        subst hb
        refine ⟨hsol, hWFw, ?_, ?_⟩
        · intro b1 b2 d hb1 hb2 hne hsu h1 h2
          exact reduce_ok_no_dup 82 v w hWF heq b1 b2 d hb1 hb2 hne hsu h1 h2
        · intro hcs i x hx
          exact hcs i x (List.Sublist.subset (hsubwv i) hx)
      · split at h
        · exact absurd h (by simp)
        · next p hcb =>
          obtain ⟨c, hc, hrec⟩ := tryBranches_found (searchF n) w p.2 (bget w p.2) b h
          have hWFbr : WF (assign_board w p.2 [c]) := assign_board_WF w p.2 [c] hWFw
          obtain ⟨hs1, hs2, hs3, hs4⟩ := ih (assign_board w p.2 [c]) b hWFbr hrec
          refine ⟨hs1, hs2, hs3, ?_⟩
          intro hcs
          refine hs4 ?_
          intro i x hx
          have hsub : List.Sublist (bget (assign_board w p.2 [c]) i) (bget w i) :=
            bget_assign_sublist w p.2 [c] (List.singleton_sublist.mpr hc) i
          exact hcs i x (List.Sublist.subset (hsubwv i) (List.Sublist.subset hsub hx))

/-! ## The box choice -/

theorem minPair_none (p : Nat × Nat) : minPair none p = some p := rfl

theorem minPair_some_eq (q p : Nat × Nat) :
    minPair (some q) p = if p.1 < q.1 ∨ (p.1 = q.1 ∧ p.2 < q.2) then some p else some q := rfl

theorem minPair_some (q p : Nat × Nat) : ∃ r, minPair (some q) p = some r := by
  rw [minPair_some_eq]
  by_cases h : p.1 < q.1 ∨ (p.1 = q.1 ∧ p.2 < q.2)
  · exact ⟨p, if_pos h⟩
  · exact ⟨q, if_neg h⟩

theorem minPair_foldl_some (l : List (Nat × Nat)) (q : Nat × Nat) :
    ∃ r, l.foldl minPair (some q) = some r := by
  have := foldl_inv minPair (fun acc => ∃ r, acc = some r)
    (fun acc p hacc => by
      obtain ⟨r, hr⟩ := hacc
      subst hr
      exact minPair_some r p) l (some q) ⟨q, rfl⟩
  exact this

theorem chooseBox_isSome (w : Board) (s : Nat) (hs : s ∈ boxes)
    (hlen : 1 < (bget w s).length) : ∃ p, chooseBox w = some p := by
  have hmem : s ∈ boxes.filter (fun b => 1 < (bget w b).length) :=
    List.mem_filter.mpr ⟨hs, by simp [hlen]⟩
  obtain ⟨a, t, hat⟩ := List.exists_cons_of_ne_nil (List.ne_nil_of_mem hmem)
  unfold chooseBox
  rw [hat, List.map_cons, List.foldl_cons, minPair_none]
  exact minPair_foldl_some _ _

theorem chooseBox_mem (w : Board) : ∀ p, chooseBox w = some p →
    p.2 ∈ boxes ∧ 1 < (bget w p.2).length := by
  intro p hp
  have hstep : ∀ acc a,
      a ∈ (boxes.filter (fun b => 1 < (bget w b).length)).map (fun b => ((bget w b).length, b)) →
      (acc = none ∨ ∃ q, acc = some q ∧ q.2 ∈ boxes ∧ 1 < (bget w q.2).length) →
      (minPair acc a = none ∨
        ∃ q, minPair acc a = some q ∧ q.2 ∈ boxes ∧ 1 < (bget w q.2).length) := by
    intro acc a ha hacc
    obtain ⟨x, hx, hxa⟩ := List.mem_map.mp ha
    have hxf := List.mem_filter.mp hx
    have hxlen : 1 < (bget w x).length := by
      have := hxf.2
      simpa using this
    have hamem : a.2 ∈ boxes ∧ 1 < (bget w a.2).length := by
      rw [← hxa]
      exact ⟨hxf.1, hxlen⟩
    rcases hacc with rfl | ⟨q, rfl, hq1, hq2⟩
    · exact Or.inr ⟨a, minPair_none a, hamem.1, hamem.2⟩
    · rw [minPair_some_eq]
      by_cases hc : a.1 < q.1 ∨ (a.1 = q.1 ∧ a.2 < q.2)
      · rw [if_pos hc]
        exact Or.inr ⟨a, rfl, hamem.1, hamem.2⟩
      · rw [if_neg hc]
        exact Or.inr ⟨q, rfl, hq1, hq2⟩
  have hinv := foldl_inv_mem minPair
    (fun acc => acc = none ∨ ∃ q, acc = some q ∧ q.2 ∈ boxes ∧ 1 < (bget w q.2).length)
    ((boxes.filter (fun b => 1 < (bget w b).length)).map (fun b => ((bget w b).length, b)))
    hstep none (Or.inl rfl)
  have hch : chooseBox w =
      ((boxes.filter (fun b => 1 < (bget w b).length)).map
        (fun b => ((bget w b).length, b))).foldl minPair none := rfl
  rw [hch] at hp
  rcases hinv with hnone | ⟨q, hq, hq1, hq2⟩
  · rw [hp] at hnone; exact absurd hnone (by simp)
  · rw [hp] at hq
    injection hq with hq
    subst hq
    exact ⟨hq1, hq2⟩

/-! ## The total candidate count -/

theorem totalC_cons (x : Values) (t : Board) : totalC (x :: t) = x.length + totalC t := by
  unfold totalC
  simp

theorem totalC_mono : ∀ (v w : Board), w.length = v.length → Subb w v → totalC w ≤ totalC v := by
  intro v
  induction v with
  | nil =>
    intro w hl _
    rw [List.length_nil, List.length_eq_zero] at hl
    rw [hl]
  | cons x v' ih =>
    intro w hl hsub
    match w with
    | [] => exact Nat.zero_le _
    | y :: w' =>
      rw [totalC_cons, totalC_cons]
      have hhead : y.length ≤ x.length := List.Sublist.length_le (hsub 0)
      have htail : Subb w' v' := fun j => hsub (j + 1)
      have hlen : w'.length = v'.length := by
        rw [List.length_cons, List.length_cons] at hl
        omega
      have := ih w' hlen htail
      omega

theorem totalC_set : ∀ (w : Board) (s : Nat) (x : Values), s < w.length →
    totalC (w.set s x) + (bget w s).length = totalC w + x.length := by
  intro w
  induction w with
  | nil => intro s x h; exact absurd h (Nat.not_lt_zero s)
  | cons y t ih =>
    intro s x h
    cases s with
    | zero =>
      rw [List.set_cons_zero, totalC_cons, totalC_cons]
      rw [show bget (y :: t) 0 = y from rfl]
      omega
    | succ s =>
      rw [List.set_cons_succ, totalC_cons, totalC_cons]
      rw [show bget (y :: t) (s + 1) = bget t s from rfl]
      have := ih s x (Nat.lt_of_succ_lt_succ h)
      omega

theorem totalC_assign_lt (w : Board) (s c : Nat) (hs : s < w.length)
    (hlen : 1 < (bget w s).length) : totalC (assign_board w s [c]) < totalC w := by
  unfold assign_board
  split
  · next heq => rw [heq] at hlen; simp at hlen
  · have := totalC_set w s [c] hs
    simp at this
    omega

theorem totalC_Subb_le (v w : Board) (hl : w.length = v.length) (h : Subb w v) :
    totalC w ≤ totalC v := totalC_mono v w hl h

/-! ## The search never reaches the exception or out-of-fuel markers -/

theorem unsolved_cell (w : Board) (hWF : WF w) (hnoe : ∀ j, j < 81 → bget w j ≠ [])
    (hsol : is_solved w = false) : ∃ s, s ∈ boxes ∧ 1 < (bget w s).length := by
  unfold is_solved at hsol
  rw [List.all_eq_false] at hsol
  obtain ⟨s, hs, hlen⟩ := hsol
  refine ⟨s, hs, ?_⟩
  have hne1 : (bget w s).length ≠ 1 := by simpa using hlen
  have hne0 : bget w s ≠ [] := hnoe s (mem_boxes_lt s hs)
  have : (bget w s).length ≠ 0 := fun h => hne0 (List.length_eq_zero.mp h)
  omega

theorem tryBranches_cons_eq (rec : Board → SResult) (values : Board) (s c : Nat)
    (rest : List Nat) :
    tryBranches rec values s (c :: rest) =
      (match rec (assign_board values s [c]) with
       | .sFalse => tryBranches rec values s rest
       | .sNone => tryBranches rec values s rest
       | r => r) := rfl

theorem tryBranches_ne_err (rec : Board → SResult) (values : Board) (s : Nat)
    (h : ∀ c, rec (assign_board values s [c]) ≠ .sErr) :
    ∀ l, tryBranches rec values s l ≠ .sErr := by
  intro l
  induction l with
  | nil => simp [tryBranches]
  | cons c rest ih =>
    rw [tryBranches_cons_eq]
    cases hr : rec (assign_board values s [c]) with
    | sFound b => simp
    | sFalse => exact ih
    | sNone => exact ih
    | sOut => simp
    | sErr => exact absurd hr (h c)

theorem tryBranches_ne_out (rec : Board → SResult) (values : Board) (s : Nat)
    (h : ∀ c, rec (assign_board values s [c]) ≠ .sOut) :
    ∀ l, tryBranches rec values s l ≠ .sOut := by
  intro l
  induction l with
  | nil => simp [tryBranches]
  | cons c rest ih =>
    rw [tryBranches_cons_eq]
    cases hr : rec (assign_board values s [c]) with
    | sFound b => simp
    | sFalse => exact ih
    | sNone => exact ih
    | sErr => simp
    | sOut => exact absurd hr (h c)

theorem searchStep_ok_eq (rec : Board → SResult) (w : Board) :
    searchStep rec (RResult.ok w) =
      (if is_solved w then SResult.sFound w
       else
         match chooseBox w with
         | none => SResult.sErr
         | some p => tryBranches rec w p.2 (bget w p.2)) := rfl

theorem searchF_succ_eq (fuel : Nat) (v : Board) :
    searchF (fuel + 1) v = searchStep (searchF fuel) (reduce_puzzle v) := rfl

theorem searchF_no_err : ∀ (fuel : Nat) (v : Board), WF v → searchF fuel v ≠ .sErr := by
  intro fuel
  induction fuel with
  | zero => intro v _; rw [searchF_zero]; simp
  | succ n ih =>
    intro v hWF
    rw [searchF_succ_eq]
    cases heq : reduce_puzzle v with
    | failed => simp [searchStep]
    | out => simp [searchStep]
    | ok w =>
      rw [searchStep_ok_eq]
      obtain ⟨hWFw, _, hnoe, _⟩ := reduceLoop_ok_spec 82 v w hWF heq
      by_cases hsol : is_solved w = true
      · rw [if_pos hsol]; simp
      · rw [if_neg hsol]
        have hsol' : is_solved w = false := Bool.not_eq_true _ ▸ Bool.eq_false_iff.mpr hsol
        obtain ⟨s, hs, hlen⟩ := unsolved_cell w hWFw hnoe hsol'
        obtain ⟨p, hp⟩ := chooseBox_isSome w s hs hlen
        rw [hp]
        exact tryBranches_ne_err (searchF n) w p.2
          (fun c => ih (assign_board w p.2 [c]) (assign_board_WF w p.2 [c] hWFw)) _

theorem searchF_no_out : ∀ (fuel : Nat) (v : Board), WF v → totalC v < fuel →
    searchF fuel v ≠ .sOut := by
  intro fuel
  induction fuel with
  | zero => intro v _ h; exact absurd h (Nat.not_lt_zero _)
  | succ n ih =>
    intro v hWF hfu
    rw [searchF_succ_eq]
    cases heq : reduce_puzzle v with
    | failed => simp [searchStep]
    | out => exact absurd heq (reduce_puzzle_not_out v hWF)
    | ok w =>
      rw [searchStep_ok_eq]
      obtain ⟨hWFw, hsub, hnoe, _⟩ := reduceLoop_ok_spec 82 v w hWF heq
      by_cases hsol : is_solved w = true
      · rw [if_pos hsol]; simp
      · rw [if_neg hsol]
        have hsol' : is_solved w = false := Bool.not_eq_true _ ▸ Bool.eq_false_iff.mpr hsol
        obtain ⟨s, hs, hlen⟩ := unsolved_cell w hWFw hnoe hsol'
        obtain ⟨p, hp⟩ := chooseBox_isSome w s hs hlen
        rw [hp]
        obtain ⟨hpmem, hplen⟩ := chooseBox_mem w p hp
        have hwv : totalC w ≤ totalC v := totalC_Subb_le v w (by rw [hWFw, hWF]) hsub
        refine tryBranches_ne_out (searchF n) w p.2 ?_ _
        intro c
        have hlt : totalC (assign_board w p.2 [c]) < totalC w :=
          totalC_assign_lt w p.2 c (by rw [hWFw]; exact mem_boxes_lt _ hpmem) hplen
        exact ih (assign_board w p.2 [c]) (assign_board_WF w p.2 [c] hWFw) (by omega)

/-! ## The assignment primitive -/

theorem assign_value_eq (v : Board) (l : List Board) (box : Nat) (x : Values) :
    assign_value v l box x =
      if bget v box = x then (v, l)
      else (v.set box x, if x.length = 1 then l ++ [v.set box x] else l) := rfl

/-! ## The parser -/

theorem getD_map {α β : Type} (f : α → β) (dβ : β) (dα : α) :
    ∀ (l : List α) (i : Nat), i < l.length → (l.map f).getD i dβ = f (l.getD i dα) := by
  intro l
  induction l with
  | nil => intro i h; exact absurd h (Nat.not_lt_zero i)
  | cons a t ih =>
    intro i h
    cases i with
    | zero => rfl
    | succ i => exact ih i (Nat.lt_of_succ_lt_succ h)

theorem grid_values_eq (g : List Char) :
    grid_values g =
      if ((g.filter isMeaningful).map charToValues).length = 81
      then some ((g.filter isMeaningful).map charToValues) else none := rfl

theorem grid_values_some_iff (g : List Char) :
    (∃ v, grid_values g = some v) ↔ (g.filter isMeaningful).length = 81 := by
  rw [grid_values_eq, List.length_map]
  constructor
  · intro ⟨v, hv⟩
    by_contra hne
    rw [if_neg hne] at hv
    exact absurd hv (by simp)
  · intro h
    exact ⟨_, by rw [if_pos h]⟩

theorem grid_values_noise (c : Char) (hc : isMeaningful c = false) (g1 g2 : List Char) :
    grid_values (g1 ++ c :: g2) = grid_values (g1 ++ g2) := by
  rw [grid_values_eq, grid_values_eq, List.filter_append, List.filter_append,
    List.filter_cons_of_neg (by simp [hc])]

theorem grid_values_cell (g : List Char) (v : Board) (h : grid_values g = some v)
    (i : Nat) (hi : i < 81) :
    bget v i = charToValues ((g.filter isMeaningful).getD i '.') := by
  rw [grid_values_eq] at h
  split at h
  · next hlen =>
    injection h with hv
    subst hv
    unfold bget
    rw [List.length_map] at hlen
    exact getD_map charToValues [] '.' _ i (by omega)
  · exact absurd h (by simp)

theorem grid_values_WF (g : List Char) (v : Board) (h : grid_values g = some v) : WF v := by
  rw [grid_values_eq] at h
  split at h
  · next hlen =>
    injection h with hv
    subst hv
    exact hlen
  · exact absurd h (by simp)

theorem charToValues_sub (c : Char) (hc : isMeaningful c = true) :
    ∀ x ∈ charToValues c, x ∈ digitsV := by
  intro x hx
  unfold charToValues at hx
  split at hx
  · exact hx
  · next hne =>
    have hcd : c ∈ digitChars := by
      unfold isMeaningful at hc
      rcases Bool.or_eq_true_iff.mp hc with h | h
      · exact List.mem_of_elem_eq_true h
      · exact absurd h (by simpa using hne)
    fin_cases hcd <;> (simp at hx; subst hx; decide)

theorem grid_values_cells_sub (g : List Char) (v : Board) (h : grid_values g = some v) :
    ∀ i x, x ∈ bget v i → x ∈ digitsV := by
  intro i x hx
  by_cases hi : i < 81
  · rw [grid_values_cell g v h i hi] at hx
    have hWF := grid_values_WF g v h
    have hkept : (g.filter isMeaningful).getD i '.' ∈ g.filter isMeaningful := by
      apply getD_mem_of_lt
      have : ∃ v, grid_values g = some v := ⟨v, h⟩
      rw [grid_values_some_iff] at this
      omega
    have hmean : isMeaningful ((g.filter isMeaningful).getD i '.') = true :=
      List.of_mem_filter hkept
    exact charToValues_sub _ hmean x hx
  · have hWF := grid_values_WF g v h
    unfold bget at hx
    rw [getD_ge v i [] (by rw [hWF]; omega)] at hx
    exact absurd hx (List.not_mem_nil x)

/-! ## From solved and duplicate-free to unit validity -/

theorem units_facts : ∀ u ∈ unit_list, u.length = 9 ∧ u.Nodup := by decide

theorem boxes_eq_range : boxes = List.range 81 := by decide

theorem mem_boxes_iff (b : Nat) : b ∈ boxes ↔ b < 81 := by
  rw [boxes_eq_range]
  exact List.mem_range

theorem singleton_beq (x y : Nat) : (([x] : List Nat) == [y]) = (x == y) := by
  rw [show (([x] : List Nat) == [y]) = (x == y && true) from rfl, Bool.and_true]

theorem is_solved_iff (b : Board) : is_solved b = true ↔ ∀ i, i < 81 → (bget b i).length = 1 := by
  unfold is_solved
  rw [List.all_eq_true]
  constructor
  · intro h i hi
    have := h i (mem_boxes_iff i |>.mpr hi)
    simpa using this
  · intro h s hs
    have := h s (mem_boxes_iff s |>.mp hs)
    simpa using this

theorem solved_valid (b : Board) (hWF : WF b) (hsol : is_solved b = true)
    (hnodup : ∀ b1 b2 d, b1 ∈ boxes → b2 ∈ boxes → b1 ≠ b2 → sameUnit b1 b2 →
      bget b b1 = [d] → bget b b2 = [d] → False)
    (hsub : ∀ i x, x ∈ bget b i → x ∈ digitsV) : validUnits b := by
  intro u hu d hd
  obtain ⟨hu9, hund⟩ := units_facts u hu
  have hsol' := (is_solved_iff b).mp hsol
  have hcell : ∀ c ∈ u, bget b c = [(bget b c).headD 0] := by
    intro c hc
    obtain ⟨e, he⟩ := List.length_eq_one.mp
      (hsol' c (mem_boxes_lt c (mem_unit_boxes u hu c hc)))
    rw [he]
    rfl
  have hinj : ∀ c1 ∈ u, ∀ c2 ∈ u, (bget b c1).headD 0 = (bget b c2).headD 0 → c1 = c2 := by
    intro c1 hc1 c2 hc2 hf
    by_contra hne
    exact hnodup c1 c2 ((bget b c1).headD 0) (mem_unit_boxes u hu c1 hc1)
      (mem_unit_boxes u hu c2 hc2) hne ⟨u, hu, hc1, hc2⟩ (hcell c1 hc1)
      (hf ▸ hcell c2 hc2)
  have hndm : (u.map (fun c => (bget b c).headD 0)).Nodup := List.Nodup.map_on hinj hund
  have hsubd : ∀ x ∈ u.map (fun c => (bget b c).headD 0), x ∈ digitsV := by
    intro x hx
    obtain ⟨c, hc, hcx⟩ := List.mem_map.mp hx
    refine hsub c x ?_
    rw [hcell c hc, ← hcx]
    simp
  have hdmem : d ∈ u.map (fun c => (bget b c).headD 0) := by
    have hcardeq : (u.map (fun c => (bget b c).headD 0)).toFinset = digitsV.toFinset := by
      apply Finset.eq_of_subset_of_card_le
      · intro x hx
        rw [List.mem_toFinset] at hx
        rw [List.mem_toFinset]
        exact hsubd x hx
      · rw [List.toFinset_card_of_nodup hndm]
        rw [show digitsV.toFinset.card = 9 from by decide]
        simp [hu9]
    rw [← List.mem_toFinset, hcardeq, List.mem_toFinset]
    exact hd
  unfold unitHasDigitOnce
  rw [← List.countP_eq_length_filter]
  have hc1 : u.countP (fun c => bget b c == [d]) =
      u.countP (fun c => (bget b c).headD 0 == d) := by
    apply List.countP_congr
    intro c hc
    rw [hcell c hc, singleton_beq]
    rfl
  rw [hc1]
  have h2 : List.countP (fun x => x == d) (List.map (fun c => List.headD (bget b c) 0) u) =
      List.countP (fun c => List.headD (bget b c) 0 == d) u := List.countP_map _ _ _
  rw [← h2]
  have h3 : (u.map (fun c => (bget b c).headD 0)).count d =
      (u.map (fun c => (bget b c).headD 0)).countP (fun x => x == d) := List.count_eq_countP _ _
  rw [← h3]
  exact List.count_eq_one_of_mem hndm hdmem

/-! ## Fuel invariance and the one-step unfolding of reduce_puzzle -/

theorem reduceLoop_fuel_mono : ∀ (f : Nat) (v : Board), WF v → 81 - n_solved v < f →
    reduceLoop f v = reduceLoop (f + 1) v := by
  intro f
  induction f with
  | zero => intro v _ h; exact absurd h (Nat.not_lt_zero _)
  | succ n ih =>
    intro v hWF hlt
    rw [reduceLoop_succ n, reduceLoop_succ (n + 1)]
    by_cases hC : ((one_pass v).filter (fun x => x.length == 0)).length ≠ 0
    · rw [if_pos hC, if_pos hC]
    · rw [if_neg hC, if_neg hC]
      by_cases hS : n_solved v = n_solved (one_pass v)
      · rw [if_pos hS, if_pos hS]
      · rw [if_neg hS, if_neg hS]
        have hWF' : WF (one_pass v) := by
          unfold WF
          rw [one_pass_length]
          exact hWF
        have h0 : ((one_pass v).filter (fun x => x.length == 0)).length = 0 :=
          Decidable.not_not.mp hC
        have hnoe : ∀ j, j < 81 → bget (one_pass v) j ≠ [] := by
          intro j hj
          exact no_empty_bget (one_pass v) h0 j (by rw [hWF'] at *; omega)
        have hle : n_solved v ≤ n_solved (one_pass v) := n_solved_le_one_pass v hWF hnoe
        have hub : n_solved (one_pass v) ≤ 81 := by
          have := n_solved_le_length (one_pass v)
          rw [hWF'] at this
          exact this
        exact ih (one_pass v) hWF' (by omega)

theorem reduce_unfold (v : Board) (hWF : WF v) :
    reduce_puzzle v =
      if ((one_pass v).filter (fun x => x.length == 0)).length ≠ 0 then .failed
      else if n_solved v = n_solved (one_pass v) then .ok (one_pass v)
      else reduce_puzzle (one_pass v) := by
  rw [show reduce_puzzle v = reduceLoop (81 + 1) v from rfl, reduceLoop_succ]
  by_cases hC : ((one_pass v).filter (fun x => x.length == 0)).length ≠ 0
  · rw [if_pos hC, if_pos hC]
  · rw [if_neg hC, if_neg hC]
    by_cases hS : n_solved v = n_solved (one_pass v)
    · rw [if_pos hS, if_pos hS]
    · rw [if_neg hS, if_neg hS]
      have hWF' : WF (one_pass v) := by
        unfold WF
        rw [one_pass_length]
        exact hWF
      have h0 : ((one_pass v).filter (fun x => x.length == 0)).length = 0 :=
        Decidable.not_not.mp hC
      have hnoe : ∀ j, j < 81 → bget (one_pass v) j ≠ [] := by
        intro j hj
        exact no_empty_bget (one_pass v) h0 j (by rw [hWF'] at *; omega)
      have hle : n_solved v ≤ n_solved (one_pass v) := n_solved_le_one_pass v hWF hnoe
      have hub : n_solved (one_pass v) ≤ 81 := by
        have := n_solved_le_length (one_pass v)
        rw [hWF'] at this
        exact this
      exact reduceLoop_fuel_mono 81 (one_pass v) hWF' (by omega)

/-! ## The rules fix a solved duplicate-free board -/

theorem foldl_fixed {α β : Type} (g : β → α → β) (v : β) (l : List α)
    (h : ∀ a ∈ l, g v a = v) : l.foldl g v = v :=
  foldl_inv_mem g (fun w => w = v) l
    (fun w a ha hw => by rw [hw]; exact h a ha) v rfl

theorem eliminate_fixed (v : Board) (hsol : is_solved v = true)
    (hnodup : ∀ b1 b2 d, b1 ∈ boxes → b2 ∈ boxes → b1 ≠ b2 → sameUnit b1 b2 →
      bget v b1 = [d] → bget v b2 = [d] → False) : eliminate v = v := by
  unfold eliminate
  apply foldl_fixed
  intro b hb
  obtain ⟨hbbox, _⟩ := List.mem_filter.mp hb
  obtain ⟨e, he⟩ := List.length_eq_one.mp ((is_solved_iff v).mp hsol b (mem_boxes_lt b hbbox))
  rw [elimBoxStep_eq, he]
  apply foldl_fixed
  intro p hp
  obtain ⟨hpbox, hpprop⟩ := List.mem_filter.mp hp
  have hpb : p ≠ b ∧ (unit_dict b).flatten.contains p = true := by
    have := hpprop
    simp at this
    exact ⟨this.1, by simp [this.2]⟩
  obtain ⟨ep, hep⟩ := List.length_eq_one.mp ((is_solved_iff v).mp hsol p (mem_boxes_lt p hpbox))
  have hsu : sameUnit b p := by
    obtain ⟨u, hu⟩ := List.mem_flatten.mp (List.mem_of_elem_eq_true hpb.2)
    obtain ⟨hud, hpu⟩ := hu
    obtain ⟨hul, hbl⟩ := List.mem_filter.mp hud
    exact ⟨u, hul, List.mem_of_elem_eq_true (by simpa using hbl), hpu⟩
  have hne : ep ≠ e := fun hcontra =>
    hnodup b p e hbbox hpbox (Ne.symm hpb.1) hsu he (by rw [hep, hcontra])
  rw [elimPeerStep_eq, hep, pyReplace_single]
  rw [show ([ep].filter (fun c => c != e)) = [ep] from by simp [hne]]
  unfold assign_board
  rw [if_pos hep]

theorem possibleTwins_solved (v : Board) (u : List Nat) (hu : u ∈ unit_list)
    (hsol : is_solved v = true) : possibleTwins v u = [] := by
  unfold possibleTwins
  apply foldl_fixed
  intro L hL
  have hfe : u.filter (fun b => (bget v b).length == L) = [] := by
    rw [List.filter_eq_nil_iff]
    intro b hbu
    have h1 : (bget v b).length = 1 :=
      (is_solved_iff v).mp hsol b (mem_unit_lt u hu b hbu)
    have hL1 : L ≠ 1 := by
      fin_cases hL <;> decide
    simp [h1, Ne.symm hL1]
  rw [hfe]
  rfl

theorem naked_twins_fixed (v : Board) (hsol : is_solved v = true) : naked_twins v = v := by
  unfold naked_twins
  apply foldl_fixed
  intro u hu
  unfold nakedUnitStep
  rw [possibleTwins_solved v u hu hsol]
  rfl

theorem only_choice_fixed (v : Board) (hsol : is_solved v = true) : only_choice v = v := by
  unfold only_choice
  apply foldl_fixed
  intro u hu
  unfold onlyUnitStep
  apply foldl_fixed
  intro d _
  unfold onlyDigitStep
  split
  · next b heq =>
    have hbmem : b ∈ u.filter (fun b => (bget v b).contains d) := by
      rw [heq]
      exact List.mem_singleton.mpr rfl
    obtain ⟨hbu, hbc⟩ := List.mem_filter.mp hbmem
    obtain ⟨e, he⟩ := List.length_eq_one.mp
      ((is_solved_iff v).mp hsol b (mem_unit_lt u hu b hbu))
    have hde : e = d := by
      have hmem : d ∈ bget v b := by simpa using hbc
      rw [he] at hmem
      have : d = e := by simpa using hmem
      exact this.symm
    unfold assign_board
    rw [if_pos (by rw [he, hde])]
  · rfl

theorem one_pass_fixed (v : Board) (hsol : is_solved v = true)
    (hnodup : ∀ b1 b2 d, b1 ∈ boxes → b2 ∈ boxes → b1 ≠ b2 → sameUnit b1 b2 →
      bget v b1 = [d] → bget v b2 = [d] → False) : one_pass v = v := by
  unfold one_pass
  rw [eliminate_fixed v hsol hnodup, naked_twins_fixed v hsol, only_choice_fixed v hsol]

/-- The fixpoint driver maps a solved, duplicate-free board to itself. -/
theorem reduce_solved_fixed (v : Board) (hWF : WF v) (hsol : is_solved v = true)
    (hnodup : ∀ b1 b2 d, b1 ∈ boxes → b2 ∈ boxes → b1 ≠ b2 → sameUnit b1 b2 →
      bget v b1 = [d] → bget v b2 = [d] → False) : reduce_puzzle v = .ok v := by
  rw [reduce_unfold v hWF, one_pass_fixed v hsol hnodup]
  have h0 : (v.filter (fun x => x.length == 0)).length = 0 := by
    rw [List.length_eq_zero, List.filter_eq_nil_iff]
    intro x hx hx0
    obtain ⟨i, hi, hix⟩ := List.mem_iff_getElem.mp hx
    have hWFv := hWF
    have h1 : (bget v i).length = 1 := (is_solved_iff v).mp hsol i (by rw [← hWFv]; exact hi)
    have : bget v i = x := by
      unfold bget
      rw [List.getD_eq_getElem v [] hi, hix]
    rw [this] at h1
    simp at hx0
    rw [hx0] at h1
    simp at h1
  rw [if_neg (by omega), if_pos rfl]

/-! ## Characterizing the possible_twins dictionary -/

theorem lookupV_pushTwin (m : List (Values × List Nat)) (v : Values) (b : Nat) (k : Values) :
    lookupV (pushTwin m v b) k =
      if v = k then lookupV m k ++ [b] else lookupV m k := by
  induction m with
  | nil =>
    by_cases hvk : v = k
    · simp [pushTwin, lookupV, hvk]
    · simp [pushTwin, lookupV, hvk]
  | cons kv rest ih =>
    obtain ⟨k', bs⟩ := kv
    rw [show pushTwin ((k', bs) :: rest) v b =
        (if k' = v then (k', bs ++ [b]) :: rest else (k', bs) :: pushTwin rest v b) from rfl]
    by_cases hk'v : k' = v
    · rw [if_pos hk'v]
      by_cases hvk : v = k
      · have hk'k : k' = k := hk'v.trans hvk
        rw [if_pos hvk]
        rw [show lookupV ((k', bs ++ [b]) :: rest) k = bs ++ [b] from by
          simp [lookupV, hk'k]]
        rw [show lookupV ((k', bs) :: rest) k = bs from by simp [lookupV, hk'k]]
      · have hk'k : k' ≠ k := fun h => hvk (hk'v ▸ h)
        rw [if_neg hvk]
        rw [show lookupV ((k', bs ++ [b]) :: rest) k = lookupV rest k from by
          simp [lookupV, hk'k]]
        rw [show lookupV ((k', bs) :: rest) k = lookupV rest k from by simp [lookupV, hk'k]]
    · rw [if_neg hk'v]
      by_cases hk'k : k' = k
      · have hvk : v ≠ k := fun h => hk'v (h ▸ hk'k.symm ▸ rfl)
        rw [if_neg hvk]
        rw [show lookupV ((k', bs) :: pushTwin rest v b) k = bs from by simp [lookupV, hk'k]]
        rw [show lookupV ((k', bs) :: rest) k = bs from by simp [lookupV, hk'k]]
      · rw [show lookupV ((k', bs) :: pushTwin rest v b) k = lookupV (pushTwin rest v b) k
          from by simp [lookupV, hk'k]]
        rw [show lookupV ((k', bs) :: rest) k = lookupV rest k from by simp [lookupV, hk'k]]
        exact ih

theorem lookupV_inner (values : Board) (D : Values) :
    ∀ (bs : List Nat) (m : List (Values × List Nat)),
      lookupV (bs.foldl (fun m b => pushTwin m (bget values b) b) m) D =
        lookupV m D ++ bs.filter (fun b => bget values b == D) := by
  intro bs
  induction bs with
  | nil => intro m; simp
  | cons b rest ih =>
    intro m
    rw [List.foldl_cons, ih, lookupV_pushTwin, List.filter_cons]
    by_cases hbD : bget values b = D
    · rw [if_pos hbD]
      rw [show (bget values b == D) = true from by simp [hbD]]
      simp
    · rw [if_neg hbD]
      rw [show (bget values b == D) = false from by simp [hbD]]
      simp

theorem lookupV_outer (values : Board) (unit : List Nat) (D : Values) :
    ∀ (Ls : List Nat) (m : List (Values × List Nat)),
      lookupV (Ls.foldl (fun m len =>
          (unit.filter (fun b => (bget values b).length == len)).foldl
            (fun m b => pushTwin m (bget values b) b) m) m) D =
        lookupV m D ++
          (Ls.map (fun len =>
            (unit.filter (fun b => (bget values b).length == len)).filter
              (fun b => bget values b == D))).flatten := by
  intro Ls
  induction Ls with
  | nil => intro m; simp
  | cons L rest ih =>
    intro m
    rw [List.foldl_cons, ih, lookupV_inner]
    simp

theorem filter_len_filter_eq (values : Board) (unit : List Nat) (D : Values) (L : Nat) :
    (unit.filter (fun b => (bget values b).length == L)).filter
        (fun b => bget values b == D) =
      if D.length = L then twinCells values unit D else [] := by
  rw [List.filter_filter]
  by_cases hDL : D.length = L
  · rw [if_pos hDL]
    unfold twinCells
    apply List.filter_congr
    intro b _
    by_cases hbD : bget values b = D
    · simp [hbD, hDL]
    · simp [hbD]
  · rw [if_neg hDL]
    rw [List.filter_eq_nil_iff]
    intro b _
    intro hcontra
    rw [Bool.and_eq_true] at hcontra
    have h1 : bget values b = D := by simpa using hcontra.1
    have h2 : (bget values b).length = L := by simpa using hcontra.2
    rw [h1] at h2
    exact hDL h2

theorem lookupV_possibleTwins (values : Board) (unit : List Nat) (D : Values)
    (h2 : 2 ≤ D.length) (h8 : D.length ≤ 8) :
    lookupV (possibleTwins values unit) D = twinCells values unit D := by
  unfold possibleTwins
  rw [lookupV_outer]
  rw [show lookupV [] D = [] from rfl]
  rw [List.nil_append]
  rw [show ([2, 3, 4, 5, 6, 7, 8] : List Nat).map (fun len =>
      (unit.filter (fun b => (bget values b).length == len)).filter
        (fun b => bget values b == D)) =
    ([2, 3, 4, 5, 6, 7, 8] : List Nat).map (fun len =>
      if D.length = len then twinCells values unit D else []) from by
    apply List.map_congr_left
    intro L _
    exact filter_len_filter_eq values unit D L]
  interval_cases hD : D.length <;> simp

theorem lookupV_mem (k : Values) : ∀ (m : List (Values × List Nat)) (bs : List Nat),
    lookupV m k = bs → bs ≠ [] → (k, bs) ∈ m := by
  intro m
  induction m with
  | nil =>
    intro bs h hne
    rw [show lookupV [] k = [] from rfl] at h
    exact absurd h.symm hne
  | cons kv rest ih =>
    intro bs h hne
    obtain ⟨k', bs'⟩ := kv
    rw [show lookupV ((k', bs') :: rest) k = (if k' = k then bs' else lookupV rest k)
      from rfl] at h
    split at h
    · next hk =>
      subst hk
      subst h
      exact List.mem_cons_self _ _
    · exact List.mem_cons_of_mem _ (ih bs h hne)

/-! ## The per-unit naked-twins postcondition -/

theorem twinPeerStep_not_mem_persist (cd : Values) (w : Board) (p b d : Nat)
    (h : d ∉ bget w b) : d ∉ bget (twinPeerStep cd w p) b := by
  intro hmem
  have hsub : List.Sublist (bget (twinPeerStep cd w p) b) (bget w b) :=
    bget_assign_sublist w p _ (List.filter_sublist _) b
  exact h (hsub.subset hmem)

theorem twinPeerStep_kills (cd : Values) (w : Board) (b d : Nat) (hd : d ∈ cd) :
    d ∉ bget (twinPeerStep cd w b) b := by
  by_cases hl : b < w.length
  · rw [show twinPeerStep cd w b =
        assign_board w b ((bget w b).filter (fun c => !cd.contains c)) from rfl,
      bget_assign_self w b _ hl]
    intro hmem
    have hx := List.of_mem_filter hmem
    simp at hx
    exact hx hd
  · have hb : bget w b = [] := getD_ge w b [] (Nat.le_of_not_lt hl)
    have hfix : twinPeerStep cd w b = w := by
      unfold twinPeerStep assign_board
      rw [if_pos (by rw [hb]; rfl)]
    rw [hfix, hb]
    exact List.not_mem_nil d

theorem foldl_twinPeer_kills (cd : Values) (d : Nat) (hd : d ∈ cd) :
    ∀ (l : List Nat) (w : Board) (b : Nat), b ∈ l →
      d ∉ bget (l.foldl (twinPeerStep cd) w) b := by
  intro l
  induction l with
  | nil => intro w b hb; exact absurd hb (List.not_mem_nil b)
  | cons p t ih =>
    intro w b hb
    rw [List.foldl_cons]
    rcases List.mem_cons.mp hb with h | h
    · subst h
      exact foldl_inv (twinPeerStep cd) (fun s => d ∉ bget s b)
        (fun s a hs => twinPeerStep_not_mem_persist cd s a b d hs) t _
        (twinPeerStep_kills cd w b d hd)
    · exact ih _ b h

theorem twinGroupStep_kills (unit : List Nat) (w : Board) (D : Values) (T : List Nat)
    (hfire : T.length = D.length) (b : Nat) (hb : b ∈ unit) (hbT : b ∉ T)
    (d : Nat) (hd : d ∈ D) :
    d ∉ bget (twinGroupStep unit w (D, T)) b := by
  unfold twinGroupStep
  rw [if_neg (by simp [hfire])]
  apply foldl_twinPeer_kills D d hd
  rw [List.mem_filter]
  refine ⟨hb, ?_⟩
  simp [hbT]

theorem twinGroupStep_not_mem_persist (unit : List Nat) (w : Board)
    (kv : Values × List Nat) (b d : Nat) (h : d ∉ bget w b) :
    d ∉ bget (twinGroupStep unit w kv) b := by
  intro hmem
  exact h ((twinGroupStep_Subb unit w kv b).subset hmem)

theorem nakedUnitStep_twins (vs : Board) (unit : List Nat) (D : Values)
    (h2 : 2 ≤ D.length) (h8 : D.length ≤ 8)
    (hk : (twinCells vs unit D).length = D.length)
    (b : Nat) (hb : b ∈ unit) (hbT : b ∉ twinCells vs unit D)
    (d : Nat) (hd : d ∈ D) :
    d ∉ bget (nakedUnitStep vs unit) b := by
  have hlook : lookupV (possibleTwins vs unit) D = twinCells vs unit D :=
    lookupV_possibleTwins vs unit D h2 h8
  have hTne : twinCells vs unit D ≠ [] := by
    intro h0; rw [h0] at hk; simp at hk; omega
  have hmem : (D, twinCells vs unit D) ∈ possibleTwins vs unit :=
    lookupV_mem D _ _ hlook hTne
  have hmemf : (D, twinCells vs unit D) ∈
      (possibleTwins vs unit).filter (fun kv => 1 < kv.2.length) := by
    rw [List.mem_filter]
    refine ⟨hmem, ?_⟩
    simp only [decide_eq_true_eq]
    omega
  obtain ⟨l1, l2, hsplit⟩ := List.append_of_mem hmemf
  unfold nakedUnitStep
  rw [hsplit, List.foldl_append, List.foldl_cons]
  exact foldl_inv (twinGroupStep unit) (fun s => d ∉ bget s b)
    (fun s a hs => twinGroupStep_not_mem_persist unit s a b d hs) l2 _
    (twinGroupStep_kills unit _ D _ hk b hb hbT d hd)

/-! ## A valid full assignment survives every rule -/

theorem Covers_assign (f : Nat → Nat) (w : Board) (p : Nat) (x : Values)
    (hcov : Covers f w) (hx : f p ∈ x) : Covers f (assign_board w p x) := by
  intro i hi
  by_cases hip : i = p
  · subst hip
    by_cases hl : i < w.length
    · rw [bget_assign_self w i x hl]
      exact hx
    · have hset : w.set i x = w := set_of_le_length w i x (Nat.le_of_not_lt hl)
      unfold assign_board
      split
      · exact hcov i hi
      · rw [hset]
        exact hcov i hi
  · rw [bget_assign_ne w p i x hip]
    exact hcov i hi

theorem mem_peers_spec (b p : Nat) (h : p ∈ peers b) : p ≠ b ∧ sameUnit b p := by
  unfold peers at h
  rw [List.mem_filter] at h
  obtain ⟨_, hcond⟩ := h
  rw [Bool.and_eq_true] at hcond
  obtain ⟨hne, hcon⟩ := hcond
  have hne' : p ≠ b := by simpa using hne
  refine ⟨hne', ?_⟩
  have hpf : p ∈ (unit_dict b).flatten := by simpa using hcon
  rw [List.mem_flatten] at hpf
  obtain ⟨u, hu, hpu⟩ := hpf
  unfold unit_dict at hu
  rw [List.mem_filter] at hu
  obtain ⟨hul, hbu⟩ := hu
  exact ⟨u, hul, by simpa using hbu, hpu⟩

theorem elimPeerStep_covers (f : Nat → Nat) (c : Nat) (w : Board) (p : Nat)
    (hp : p < 81) (hcov : Covers f w) (hfp : f p ≠ c) : Covers f (elimPeerStep [c] w p) := by
  apply Covers_assign f w p _ hcov
  rw [pyReplace_single]
  rw [List.mem_filter]
  refine ⟨hcov p hp, ?_⟩
  simp [hfp]

theorem elimBoxStep_covers (f : Nat → Nat) (hva : ValidAssign f) (w : Board) (box : Nat)
    (hdig : bget w box = [f box]) (hcov : Covers f w) :
    Covers f (elimBoxStep w box) := by
  unfold elimBoxStep
  rw [hdig]
  apply foldl_inv_mem (elimPeerStep [f box]) (Covers f) (peers box) ?_ w hcov
  intro s p hp hs
  obtain ⟨hpb, hsu⟩ := mem_peers_spec box p hp
  have hp81 : p < 81 := mem_boxes_lt p (List.mem_of_mem_filter hp)
  apply elimPeerStep_covers f (f box) s p hp81 hs
  obtain ⟨u, hul, hbu, hpu⟩ := hsu
  exact hva.2 u hul p hpu box hbu hpb

theorem eliminate_covers (f : Nat → Nat) (hva : ValidAssign f) (values : Board)
    (hcov : Covers f values) : Covers f (eliminate values) := by
  unfold eliminate
  have hmain := foldl_inv_mem elimBoxStep (fun w => Subb w values ∧ Covers f w)
    (boxes.filter (fun b => (bget values b).length == 1)) ?_ values ⟨Subb.refl values, hcov⟩
  · exact hmain.2
  · intro s box hbox hP
    obtain ⟨hsub, hcovs⟩ := hP
    refine ⟨Subb.trans (elimBoxStep_Subb s box) hsub, ?_⟩
    have hbm := List.mem_filter.mp hbox
    have hb81 : box < 81 := mem_boxes_lt box hbm.1
    have hlen1 : (bget values box).length = 1 := by simpa using hbm.2
    obtain ⟨c, hc⟩ := List.length_eq_one.mp hlen1
    have hsubl : List.Sublist (bget s box) [c] := by
      rw [← hc]
      exact hsub box
    have hfb : f box ∈ bget s box := hcovs box hb81
    rcases sublist_singleton_cases hsubl with he | he
    · rw [he] at hfb
      exact absurd hfb (List.not_mem_nil _)
    · have hfc : f box = c := by
        rw [he] at hfb
        simpa using hfb
      exact elimBoxStep_covers f hva s box (by rw [he, hfc]) hcovs

theorem unit_f_mem (f : Nat → Nat) (hva : ValidAssign f) (u : List Nat) (hu : u ∈ unit_list)
    (d : Nat) (hd : d ∈ digitsV) : ∃ t ∈ u, f t = d := by
  obtain ⟨hu9, hund⟩ := units_facts u hu
  have hinj : ∀ c1 ∈ u, ∀ c2 ∈ u, f c1 = f c2 → c1 = c2 := by
    intro c1 hc1 c2 hc2 hf
    by_contra hne
    exact hva.2 u hu c1 hc1 c2 hc2 hne hf
  have hndm : (u.map f).Nodup := List.Nodup.map_on hinj hund
  have hsubd : ∀ x ∈ u.map f, x ∈ digitsV := by
    intro x hx
    obtain ⟨c, hc, hcx⟩ := List.mem_map.mp hx
    rw [← hcx]
    exact hva.1 c (mem_unit_lt u hu c hc)
  have hdmem : d ∈ u.map f := by
    have hcardeq : (u.map f).toFinset = digitsV.toFinset := by
      apply Finset.eq_of_subset_of_card_le
      · intro x hx
        rw [List.mem_toFinset] at hx
        rw [List.mem_toFinset]
        exact hsubd x hx
      · rw [List.toFinset_card_of_nodup hndm]
        rw [show digitsV.toFinset.card = 9 from by decide]
        simp [hu9]
    rw [← List.mem_toFinset, hcardeq, List.mem_toFinset]
    exact hd
  obtain ⟨t, ht, htd⟩ := List.mem_map.mp hdmem
  exact ⟨t, ht, htd⟩

theorem onlyDigitStep_covers (f : Nat → Nat) (hva : ValidAssign f) (u : List Nat)
    (hu : u ∈ unit_list) (w : Board) (d : Nat) (hd : d ∈ digitsV)
    (hcov : Covers f w) : Covers f (onlyDigitStep u w d) := by
  unfold onlyDigitStep
  cases hfl : u.filter (fun b => (bget w b).contains d) with
  | nil => exact hcov
  | cons b rest =>
    cases rest with
    | nil =>
      show Covers f (assign_board w b [d])
      apply Covers_assign f w b [d] hcov
      obtain ⟨t, ht, htd⟩ := unit_f_mem f hva u hu d hd
      have htf : t ∈ u.filter (fun b => (bget w b).contains d) := by
        rw [List.mem_filter]
        refine ⟨ht, ?_⟩
        have hm : f t ∈ bget w t := hcov t (mem_unit_lt u hu t ht)
        rw [htd] at hm
        simpa using hm
      rw [hfl] at htf
      have htb : t = b := by simpa using htf
      rw [← htb, ← htd]
      exact List.mem_singleton.mpr rfl
    | cons b2 rest2 => exact hcov

theorem onlyUnitStep_covers (f : Nat → Nat) (hva : ValidAssign f) (w : Board)
    (u : List Nat) (hu : u ∈ unit_list) (hcov : Covers f w) :
    Covers f (onlyUnitStep w u) := by
  unfold onlyUnitStep
  exact foldl_inv_mem (onlyDigitStep u) (Covers f) digitsV
    (fun s d hd hs => onlyDigitStep_covers f hva u hu s d hd hs) w hcov

theorem only_choice_covers (f : Nat → Nat) (hva : ValidAssign f) (v : Board)
    (hcov : Covers f v) : Covers f (only_choice v) := by
  unfold only_choice
  exact foldl_inv_mem onlyUnitStep (Covers f) unit_list
    (fun s u hu hs => onlyUnitStep_covers f hva s u hu hs) v hcov

theorem pushTwin_keys (m : List (Values × List Nat)) (v : Values) (b : Nat) :
    (pushTwin m v b).map Prod.fst =
      if v ∈ m.map Prod.fst then m.map Prod.fst else m.map Prod.fst ++ [v] := by
  induction m with
  | nil => simp [pushTwin]
  | cons kv rest ih =>
    obtain ⟨k, bs⟩ := kv
    rw [show pushTwin ((k, bs) :: rest) v b =
        (if k = v then (k, bs ++ [b]) :: rest else (k, bs) :: pushTwin rest v b) from rfl]
    by_cases hkv : k = v
    · subst hkv
      rw [if_pos rfl]
      rw [if_pos (by simp)]
      simp
    · rw [if_neg hkv]
      rw [List.map_cons, List.map_cons, ih]
      by_cases hvm : v ∈ rest.map Prod.fst
      · rw [if_pos hvm, if_pos (by simp [hvm])]
      · rw [if_neg hvm, if_neg (by
          simp only [List.map_cons, List.mem_cons]
          push_neg
          exact ⟨fun h => hkv h.symm, hvm⟩)]
        simp

theorem pushTwin_keys_nodup (m : List (Values × List Nat)) (v : Values) (b : Nat)
    (h : (m.map Prod.fst).Nodup) : ((pushTwin m v b).map Prod.fst).Nodup := by
  rw [pushTwin_keys]
  by_cases hvm : v ∈ m.map Prod.fst
  · rw [if_pos hvm]
    exact h
  · rw [if_neg hvm]
    simp [List.nodup_append, h, hvm]

theorem possibleTwins_keys_nodup (vs : Board) (unit : List Nat) :
    ((possibleTwins vs unit).map Prod.fst).Nodup := by
  unfold possibleTwins
  exact foldl_inv _ (fun m => (m.map Prod.fst).Nodup)
    (fun m L hm => foldl_inv _ (fun m => (m.map Prod.fst).Nodup)
      (fun m' b hm' => pushTwin_keys_nodup m' (bget vs b) b hm') _ m hm)
    [2, 3, 4, 5, 6, 7, 8] [] (by simp)

theorem pushTwin_fst_mem (v : Values) (b : Nat) : ∀ (m : List (Values × List Nat)),
    ∀ p ∈ pushTwin m v b, p.1 = v ∨ p.1 ∈ m.map Prod.fst := by
  intro m
  induction m with
  | nil =>
    intro p hp
    rw [show pushTwin [] v b = [(v, [b])] from rfl] at hp
    have hpv : p = (v, [b]) := by simpa using hp
    exact Or.inl (by rw [hpv])
  | cons kv rest ih =>
    intro p hp
    obtain ⟨k, bs⟩ := kv
    rw [show pushTwin ((k, bs) :: rest) v b =
        (if k = v then (k, bs ++ [b]) :: rest else (k, bs) :: pushTwin rest v b) from rfl] at hp
    split at hp
    · next hkv =>
      rcases List.mem_cons.mp hp with heq | hmem
      · exact Or.inl (by rw [heq]; exact hkv)
      · refine Or.inr ?_
        rw [List.map_cons]
        exact List.mem_cons_of_mem _ (List.mem_map.mpr ⟨p, hmem, rfl⟩)
    · rcases List.mem_cons.mp hp with heq | hmem
      · refine Or.inr ?_
        rw [List.map_cons, heq]
        exact List.mem_cons_self _ _
      · rcases ih p hmem with h | h
        · exact Or.inl h
        · refine Or.inr ?_
          rw [List.map_cons]
          exact List.mem_cons_of_mem _ h

theorem possibleTwins_key_bounds (vs : Board) (unit : List Nat) :
    ∀ k ∈ (possibleTwins vs unit).map Prod.fst, 2 ≤ k.length ∧ k.length ≤ 8 := by
  unfold possibleTwins
  apply foldl_inv_mem
    (fun m len => (unit.filter (fun b => (bget vs b).length == len)).foldl
      (fun m b => pushTwin m (bget vs b) b) m)
    (fun m => ∀ k ∈ m.map Prod.fst, 2 ≤ k.length ∧ k.length ≤ 8)
    [2, 3, 4, 5, 6, 7, 8] ?_ [] (by simp)
  intro m L hL hm
  apply foldl_inv_mem
    (fun m b => pushTwin m (bget vs b) b)
    (fun m => ∀ k ∈ m.map Prod.fst, 2 ≤ k.length ∧ k.length ≤ 8)
    (unit.filter (fun b => (bget vs b).length == L)) ?_ m hm
  intro m' b hb hm' k hk
  obtain ⟨p, hp, hpk⟩ := List.mem_map.mp hk
  rcases pushTwin_fst_mem (bget vs b) b m' p hp with h | h
  · have hbl : (bget vs b).length = L := by
      have := (List.mem_filter.mp hb).2
      simpa using this
    have hkl : k.length = L := by rw [← hpk, h, hbl]
    have hLb : 2 ≤ L ∧ L ≤ 8 := by
      simp at hL
      rcases hL with rfl | rfl | rfl | rfl | rfl | rfl | rfl <;> omega
    omega
  · exact hm' k (by rw [← hpk]; exact h)

theorem lookup_of_mem_nodup (k : Values) (bs : List Nat) :
    ∀ (m : List (Values × List Nat)), (m.map Prod.fst).Nodup → (k, bs) ∈ m →
      lookupV m k = bs := by
  intro m
  induction m with
  | nil => intro _ h; exact absurd h (List.not_mem_nil _)
  | cons kv rest ih =>
    intro hnd hmem
    obtain ⟨k', bs'⟩ := kv
    rw [List.map_cons, List.nodup_cons] at hnd
    rcases List.mem_cons.mp hmem with heq | hrest
    · have hk : k' = k := by
        have := congrArg Prod.fst heq.symm
        simpa using this
      have hb : bs' = bs := by
        have := congrArg Prod.snd heq.symm
        simpa using this
      rw [show lookupV ((k', bs') :: rest) k = (if k' = k then bs' else lookupV rest k)
        from rfl, if_pos hk, hb]
    · have hk'k : k' ≠ k := by
        intro h
        subst h
        exact hnd.1 (List.mem_map.mpr ⟨(k', bs), hrest, rfl⟩)
      rw [show lookupV ((k', bs') :: rest) k = (if k' = k then bs' else lookupV rest k)
        from rfl, if_neg hk'k]
      exact ih hnd.2 hrest

theorem possibleTwins_mem_eq (vs : Board) (unit : List Nat) (D : Values) (T : List Nat)
    (h : (D, T) ∈ possibleTwins vs unit) : T = twinCells vs unit D := by
  have hb := possibleTwins_key_bounds vs unit D (List.mem_map.mpr ⟨(D, T), h, rfl⟩)
  have hl := lookup_of_mem_nodup D T (possibleTwins vs unit)
    (possibleTwins_keys_nodup vs unit) h
  rw [← hl, lookupV_possibleTwins vs unit D hb.1 hb.2]

theorem twins_not_mem (f : Nat → Nat) (hva : ValidAssign f) (u : List Nat)
    (hu : u ∈ unit_list) (vs : Board) (hcov : Covers f vs) (D : Values) (T : List Nat)
    (hT : T = twinCells vs u D) (hlen : T.length = D.length)
    (p : Nat) (hp : p ∈ u) (hpT : p ∉ T) : f p ∉ D := by
  intro hfpD
  obtain ⟨hu9, hund⟩ := units_facts u hu
  have hTnd : T.Nodup := by
    rw [hT]
    exact List.Nodup.filter _ hund
  have hTsub : ∀ t ∈ T, t ∈ u ∧ bget vs t = D := by
    intro t ht
    rw [hT] at ht
    unfold twinCells at ht
    have hm := List.mem_filter.mp ht
    exact ⟨hm.1, by simpa using hm.2⟩
  have hSu : ∀ x, x = p ∨ x ∈ T → x ∈ u :=
    fun x hx => hx.elim (fun h => h ▸ hp) (fun h => (hTsub x h).1)
  have hinj : Set.InjOn f ↑(insert p T.toFinset : Finset Nat) := by
    intro x hx y hy hxy
    rw [Finset.coe_insert, Set.mem_insert_iff, Finset.mem_coe, List.mem_toFinset] at hx hy
    by_contra hne
    exact hva.2 u hu x (hSu x hx) y (hSu y hy) hne hxy
  have hcard : (insert p T.toFinset).card = D.length + 1 := by
    rw [Finset.card_insert_of_not_mem (by rw [List.mem_toFinset]; exact hpT),
      List.toFinset_card_of_nodup hTnd, hlen]
  have himg : (insert p T.toFinset).image f ⊆ D.toFinset := by
    intro y hy
    rw [Finset.mem_image] at hy
    obtain ⟨x, hx, hxy⟩ := hy
    rw [Finset.mem_insert, List.mem_toFinset] at hx
    rw [List.mem_toFinset]
    rcases hx with rfl | hxT
    · rw [← hxy]
      exact hfpD
    · obtain ⟨hxu, hxD⟩ := hTsub x hxT
      rw [← hxy, ← hxD]
      exact hcov x (mem_unit_lt u hu x hxu)
  have h1 : ((insert p T.toFinset).image f).card = D.length + 1 := by
    rw [Finset.card_image_of_injOn hinj, hcard]
  have h2 : ((insert p T.toFinset).image f).card ≤ D.toFinset.card :=
    Finset.card_le_card himg
  have h3 : D.toFinset.card ≤ D.length := List.toFinset_card_le D
  omega

theorem twinPeerStep_covers (f : Nat → Nat) (D : Values) (w : Board) (p : Nat)
    (hp : p < 81) (hcov : Covers f w) (hfp : f p ∉ D) : Covers f (twinPeerStep D w p) := by
  apply Covers_assign f w p _ hcov
  rw [List.mem_filter]
  refine ⟨hcov p hp, ?_⟩
  simp [hfp]

theorem twinGroupStep_covers (f : Nat → Nat) (hva : ValidAssign f) (u : List Nat)
    (hu : u ∈ unit_list) (vs : Board) (hcovs : Covers f vs)
    (kv : Values × List Nat) (hkv : kv ∈ possibleTwins vs u)
    (w : Board) (hcov : Covers f w) : Covers f (twinGroupStep u w kv) := by
  obtain ⟨D, T⟩ := kv
  have hT : T = twinCells vs u D := possibleTwins_mem_eq vs u D T hkv
  unfold twinGroupStep
  split
  · exact hcov
  · next hfire =>
    have hlen : T.length = D.length := Decidable.not_not.mp hfire
    apply foldl_inv_mem (twinPeerStep D) (Covers f) _ ?_ w hcov
    intro s q hq hs
    have hqf := List.mem_filter.mp hq
    have hqu : q ∈ u := hqf.1
    have hqT : q ∉ T := by
      have := hqf.2
      simpa using this
    exact twinPeerStep_covers f D s q (mem_unit_lt u hu q hqu) hs
      (twins_not_mem f hva u hu vs hcovs D T hT hlen q hqu hqT)

theorem nakedUnitStep_covers (f : Nat → Nat) (hva : ValidAssign f) (vs : Board)
    (u : List Nat) (hu : u ∈ unit_list) (hcov : Covers f vs) :
    Covers f (nakedUnitStep vs u) := by
  unfold nakedUnitStep
  apply foldl_inv_mem (twinGroupStep u) (Covers f) _ ?_ vs hcov
  intro s kv hkv hs
  exact twinGroupStep_covers f hva u hu vs hcov kv (List.mem_of_mem_filter hkv) s hs

theorem naked_twins_covers (f : Nat → Nat) (hva : ValidAssign f) (v : Board)
    (hcov : Covers f v) : Covers f (naked_twins v) := by
  unfold naked_twins
  exact foldl_inv_mem nakedUnitStep (Covers f) unit_list
    (fun s u hu hs => nakedUnitStep_covers f hva s u hu hs) v hcov

theorem one_pass_covers (f : Nat → Nat) (hva : ValidAssign f) (v : Board)
    (hcov : Covers f v) : Covers f (one_pass v) :=
  only_choice_covers f hva _ (naked_twins_covers f hva _ (eliminate_covers f hva v hcov))

theorem Covers_no_empty (f : Nat → Nat) (v : Board) (hcov : Covers f v) (j : Nat)
    (hj : j < 81) : bget v j ≠ [] := by
  intro h
  have := hcov j hj
  rw [h] at this
  exact List.not_mem_nil _ this

theorem no_empty_filter (w : Board) (hWF : WF w) (hnoe : ∀ j, j < 81 → bget w j ≠ []) :
    (w.filter (fun x => x.length == 0)).length = 0 := by
  rw [List.length_eq_zero, List.filter_eq_nil_iff]
  intro x hx hlen
  have h0 : x = [] := by
    have : x.length = 0 := by simpa using hlen
    exact List.length_eq_zero.mp this
  obtain ⟨j, hj, hxj⟩ := List.mem_iff_getElem.mp hx
  have hbj : bget w j = x := by
    unfold bget
    rw [List.getD_eq_getElem w [] hj]
    exact hxj
  have hj81 : j < 81 := by
    rw [hWF] at hj
    exact hj
  exact hnoe j hj81 (by rw [hbj, h0])

theorem reduceLoop_covers (f : Nat → Nat) (hva : ValidAssign f) :
    ∀ (fuel : Nat) (v : Board), WF v → Covers f v →
      reduceLoop fuel v = .out ∨
        ∃ w, reduceLoop fuel v = .ok w ∧ WF w ∧ Covers f w := by
  intro fuel
  induction fuel with
  | zero => intro v _ _; exact Or.inl rfl
  | succ n ih =>
    intro v hWF hcov
    rw [reduceLoop_succ]
    have hWF' : WF (one_pass v) := by
      unfold WF
      rw [one_pass_length]
      exact hWF
    have hcov' : Covers f (one_pass v) := one_pass_covers f hva v hcov
    have hnoe : ∀ j, j < 81 → bget (one_pass v) j ≠ [] :=
      fun j hj => Covers_no_empty f _ hcov' j hj
    have h0 : ((one_pass v).filter (fun x => x.length == 0)).length = 0 :=
      no_empty_filter _ hWF' hnoe
    rw [if_neg (by omega)]
    by_cases hS : n_solved v = n_solved (one_pass v)
    · rw [if_pos hS]
      exact Or.inr ⟨one_pass v, rfl, hWF', hcov'⟩
    · rw [if_neg hS]
      exact ih (one_pass v) hWF' hcov'

theorem reduce_puzzle_covers (f : Nat → Nat) (hva : ValidAssign f) (v : Board)
    (hWF : WF v) (hcov : Covers f v) :
    ∃ w, reduce_puzzle v = .ok w ∧ WF w ∧ Covers f w := by
  rcases reduceLoop_covers f hva 82 v hWF hcov with hout | h
  · exact absurd hout (reduce_puzzle_not_out v hWF)
  · exact h

theorem tryBranches_exists_found (rec : Board → SResult) (w : Board) (s : Nat) :
    ∀ (cs : List Nat),
      (∀ c ∈ cs, rec (assign_board w s [c]) ≠ .sErr ∧ rec (assign_board w s [c]) ≠ .sOut) →
      (∃ c ∈ cs, ∃ b, rec (assign_board w s [c]) = .sFound b) →
      ∃ b, tryBranches rec w s cs = .sFound b := by
  intro cs
  induction cs with
  | nil =>
    intro _ h
    obtain ⟨c, hc, _⟩ := h
    exact absurd hc (List.not_mem_nil c)
  | cons c rest ih =>
    intro hne hex
    rw [tryBranches_cons_eq]
    cases hr : rec (assign_board w s [c]) with
    | sFound b => exact ⟨b, rfl⟩
    | sFalse =>
      apply ih (fun c' hc' => hne c' (List.mem_cons_of_mem c hc'))
      obtain ⟨c', hc', b, hb⟩ := hex
      rcases List.mem_cons.mp hc' with rfl | hmem
      · rw [hr] at hb
        exact absurd hb (by simp)
      · exact ⟨c', hmem, b, hb⟩
    | sNone =>
      apply ih (fun c' hc' => hne c' (List.mem_cons_of_mem c hc'))
      obtain ⟨c', hc', b, hb⟩ := hex
      rcases List.mem_cons.mp hc' with rfl | hmem
      · rw [hr] at hb
        exact absurd hb (by simp)
      · exact ⟨c', hmem, b, hb⟩
    | sOut => exact absurd hr (hne c (List.mem_cons_self c rest)).2
    | sErr => exact absurd hr (hne c (List.mem_cons_self c rest)).1

theorem searchF_complete (f : Nat → Nat) (hva : ValidAssign f) :
    ∀ (fuel : Nat) (v : Board), WF v → Covers f v → totalC v < fuel →
      ∃ b, searchF fuel v = .sFound b := by
  intro fuel
  induction fuel with
  | zero => intro v _ _ h; exact absurd h (Nat.not_lt_zero _)
  | succ n ih =>
    intro v hWF hcov hfu
    rw [searchF_succ_eq]
    obtain ⟨w, heq, hWFw, hcovw⟩ := reduce_puzzle_covers f hva v hWF hcov
    rw [heq, searchStep_ok_eq]
    by_cases hsol : is_solved w = true
    · rw [if_pos hsol]
      exact ⟨w, rfl⟩
    · rw [if_neg hsol]
      have hsub : Subb w v := (reduceLoop_ok_spec 82 v w hWF heq).2.1
      have hnoe : ∀ j, j < 81 → bget w j ≠ [] :=
        fun j hj => Covers_no_empty f w hcovw j hj
      have hsol' : is_solved w = false := Bool.not_eq_true _ ▸ Bool.eq_false_iff.mpr hsol
      obtain ⟨s, hs, hlen⟩ := unsolved_cell w hWFw hnoe hsol'
      obtain ⟨p, hp⟩ := chooseBox_isSome w s hs hlen
      rw [hp]
      obtain ⟨hpmem, hplen⟩ := chooseBox_mem w p hp
      have hp81 : p.2 < 81 := mem_boxes_lt _ hpmem
      have hwv : totalC w ≤ totalC v := totalC_Subb_le v w (by rw [hWFw, hWF]) hsub
      apply tryBranches_exists_found (searchF n) w p.2 (bget w p.2)
      · intro c _
        have hlt : totalC (assign_board w p.2 [c]) < totalC w :=
          totalC_assign_lt w p.2 c (by rw [hWFw]; exact hp81) hplen
        exact ⟨searchF_no_err n _ (assign_board_WF w p.2 [c] hWFw),
          searchF_no_out n _ (assign_board_WF w p.2 [c] hWFw) (by omega)⟩
      · refine ⟨f p.2, hcovw p.2 hp81, ?_⟩
        have hWFa : WF (assign_board w p.2 [f p.2]) := assign_board_WF _ _ _ hWFw
        have hcova : Covers f (assign_board w p.2 [f p.2]) :=
          Covers_assign f w p.2 [f p.2] hcovw (by simp)
        have hlt : totalC (assign_board w p.2 [f p.2]) < totalC w :=
          totalC_assign_lt w p.2 (f p.2) (by rw [hWFw]; exact hp81) hplen
        exact ih (assign_board w p.2 [f p.2]) hWFa hcova (by omega)

/-! ## The fully blank grid -/

theorem bget_replicate (n : Nat) (x : Values) (i : Nat) (h : i < n) :
    bget (List.replicate n x) i = x := by
  unfold bget
  rw [List.getD_eq_getElem (List.replicate n x) [] (by simpa using h)]
  simp

theorem grid_values_dots : grid_values dots81 = some (List.replicate 81 digitsV) := by
  unfold grid_values dots81
  rw [List.filter_replicate]
  rw [show (isMeaningful '.') = true from rfl]
  rw [if_pos rfl, List.map_replicate]
  rw [show charToValues '.' = digitsV from rfl]
  simp

theorem sigma0_valid : ValidAssign sigma0 := by
  unfold ValidAssign
  constructor
  · decide
  · decide

theorem sigma0_covers_blank : Covers sigma0 (List.replicate 81 digitsV) := by
  unfold Covers
  decide

theorem totalC_blank : totalC (List.replicate 81 digitsV) = 729 := by decide

theorem WF_blank : WF (List.replicate 81 digitsV) := by
  unfold WF
  simp

theorem blank_cells_sub : ∀ i x, x ∈ bget (List.replicate 81 digitsV) i → x ∈ digitsV := by
  intro i x hx
  by_cases hi : i < 81
  · rw [bget_replicate 81 digitsV i hi] at hx
    exact hx
  · rw [show bget (List.replicate 81 digitsV) i = [] from
      getD_ge _ i [] (by simp; omega)] at hx
    exact absurd hx (List.not_mem_nil x)

theorem validUnits_standard (v : Board) (h : validUnits v) : validStandard v := by
  intro u hu d hd
  refine h u ?_ d hd
  unfold unit_list
  simp only [List.mem_append] at hu ⊢
  tauto

theorem solve_dots_spec : ∃ b, solve dots81 = .sFound b ∧ solvedBoard b ∧ validUnits b := by
  obtain ⟨b, hb⟩ := searchF_complete sigma0 sigma0_valid 730 (List.replicate 81 digitsV)
    WF_blank sigma0_covers_blank (by rw [totalC_blank]; omega)
  refine ⟨b, ?_, ?_, ?_⟩
  · unfold solve
    rw [grid_values_dots]
    exact hb
  · obtain ⟨hsol, _, _, _⟩ := searchF_found 730 _ b WF_blank hb
    exact (is_solved_iff b).mp hsol
  · obtain ⟨hsol, hWFb, hnodup, hsub⟩ := searchF_found 730 _ b WF_blank hb
    exact solved_valid b hWFb hsol hnodup (hsub blank_cells_sub)

/-! ## A concrete solved diagonal grid -/

theorem grid_values_g81 : grid_values g81 = some bW := by decide

theorem bW_WF : WF bW := by
  unfold WF
  decide

theorem bW_solved : is_solved bW = true := by decide

theorem bW_unit_distinct : ∀ u ∈ unit_list, ∀ b1 ∈ u, ∀ b2 ∈ u, b1 ≠ b2 →
    bget bW b1 ≠ bget bW b2 := by decide

theorem bW_nodup (b1 b2 d : Nat) (_ : b1 ∈ boxes) (_ : b2 ∈ boxes) (hne : b1 ≠ b2)
    (hsu : sameUnit b1 b2) (h1 : bget bW b1 = [d]) (h2 : bget bW b2 = [d]) : False := by
  obtain ⟨u, hu, hm1, hm2⟩ := hsu
  exact bW_unit_distinct u hu b1 hm1 b2 hm2 hne (by rw [h1, h2])

theorem reduce_bW : reduce_puzzle bW = .ok bW :=
  reduce_solved_fixed bW bW_WF bW_solved bW_nodup

theorem solve_g81 : solve g81 = .sFound bW := by
  unfold solve
  rw [grid_values_g81]
  show search bW = .sFound bW
  unfold search
  rw [show searchF 730 bW = searchStep (searchF 729) (reduce_puzzle bW) from rfl]
  rw [reduce_bW, searchStep_ok_eq, if_pos bW_solved]
/-! ## Concrete evaluations of the rules, the driver and the search

The lemmas below evaluate `solve` on the grids `gFalse` and `gNone`,
`reduce_puzzle` on the stalled boards `s4` and `v4`, and `naked_twins`
on `s6`, fold by fold; each chunk is closed by kernel reduction. -/

set_option maxRecDepth 100000 in
theorem unit_list_split : unit_list = unitsA ++ unitsB ++ unitsC := by decide

set_option maxRecDepth 100000 in
theorem ev_f0_solved : (boxes.filter (fun b => (bget bd_f0_0 b).length == 1)) = [0, 1] := by decide

set_option maxRecDepth 100000 in
theorem ev_f0_elim_c0 : ([0, 1] : List Nat).foldl elimBoxStep bd_f0_0 = bd_f0_1 := by decide

set_option maxRecDepth 100000 in
theorem ev_f0_eliminate : eliminate bd_f0_0 = bd_f0_1 := by
  unfold eliminate
  rw [ev_f0_solved]
  exact ev_f0_elim_c0

set_option maxRecDepth 100000 in
theorem ev_f0_naked_c0 : unitsA.foldl nakedUnitStep bd_f0_1 = bd_f0_1 := by decide

set_option maxRecDepth 100000 in
theorem ev_f0_naked_c1 : unitsB.foldl nakedUnitStep bd_f0_1 = bd_f0_1 := by decide

set_option maxRecDepth 100000 in
theorem ev_f0_naked_c2 : unitsC.foldl nakedUnitStep bd_f0_1 = bd_f0_1 := by decide

set_option maxRecDepth 100000 in
theorem ev_f0_naked_twins : naked_twins bd_f0_1 = bd_f0_1 := by
  unfold naked_twins
  rw [unit_list_split, List.foldl_append, List.foldl_append, ev_f0_naked_c0, ev_f0_naked_c1, ev_f0_naked_c2]

set_option maxRecDepth 100000 in
theorem ev_f0_only_c0 : unitsA.foldl onlyUnitStep bd_f0_1 = bd_f0_1 := by decide

set_option maxRecDepth 100000 in
theorem ev_f0_only_c1 : unitsB.foldl onlyUnitStep bd_f0_1 = bd_f0_1 := by decide

set_option maxRecDepth 100000 in
theorem ev_f0_only_c2 : unitsC.foldl onlyUnitStep bd_f0_1 = bd_f0_1 := by decide

set_option maxRecDepth 100000 in
theorem ev_f0_only_choice : only_choice bd_f0_1 = bd_f0_1 := by
  unfold only_choice
  rw [unit_list_split, List.foldl_append, List.foldl_append, ev_f0_only_c0, ev_f0_only_c1, ev_f0_only_c2]

set_option maxRecDepth 100000 in
theorem ev_f0_one_pass : one_pass bd_f0_0 = bd_f0_1 := by
  unfold one_pass
  rw [ev_f0_eliminate, ev_f0_naked_twins, ev_f0_only_choice]

set_option maxRecDepth 100000 in
theorem ev_f0_parse : grid_values gFalse = some bd_f0_0 := by decide

set_option maxRecDepth 100000 in
theorem ev_f0_WF : WF bd_f0_0 := by
  unfold WF
  decide

set_option maxRecDepth 100000 in
theorem ev_f0_reduce : reduce_puzzle bd_f0_0 = .failed := by
  rw [reduce_unfold _ ev_f0_WF, ev_f0_one_pass]
  rw [if_pos (by decide)]

set_option maxRecDepth 100000 in
theorem ev_gFalse_solve : solve gFalse = .sFalse := by
  unfold solve
  rw [ev_f0_parse]
  show search bd_f0_0 = .sFalse
  unfold search
  rw [show searchF 730 bd_f0_0 = searchStep (searchF 729) (reduce_puzzle bd_f0_0) from rfl]
  rw [ev_f0_reduce]
  rfl

set_option maxRecDepth 100000 in
theorem ev_s4_solved : (boxes.filter (fun b => (bget s4 b).length == 1)) = [] := by decide

set_option maxRecDepth 100000 in
theorem ev_s4_eliminate : eliminate s4 = s4 := by
  unfold eliminate
  rw [ev_s4_solved]
  rfl

set_option maxRecDepth 100000 in
theorem ev_s4_naked_c0 : unitsA.foldl nakedUnitStep s4 = bd_s4_0 := by decide

set_option maxRecDepth 100000 in
theorem ev_s4_naked_c1 : unitsB.foldl nakedUnitStep bd_s4_0 = v4 := by decide

set_option maxRecDepth 100000 in
theorem ev_s4_naked_c2 : unitsC.foldl nakedUnitStep v4 = v4 := by decide

set_option maxRecDepth 100000 in
theorem ev_s4_naked_twins : naked_twins s4 = v4 := by
  unfold naked_twins
  rw [unit_list_split, List.foldl_append, List.foldl_append, ev_s4_naked_c0, ev_s4_naked_c1, ev_s4_naked_c2]

set_option maxRecDepth 100000 in
theorem ev_s4_only_c0 : unitsA.foldl onlyUnitStep v4 = v4 := by decide

set_option maxRecDepth 100000 in
theorem ev_s4_only_c1 : unitsB.foldl onlyUnitStep v4 = v4 := by decide

set_option maxRecDepth 100000 in
theorem ev_s4_only_c2 : unitsC.foldl onlyUnitStep v4 = v4 := by decide

set_option maxRecDepth 100000 in
theorem ev_s4_only_choice : only_choice v4 = v4 := by
  unfold only_choice
  rw [unit_list_split, List.foldl_append, List.foldl_append, ev_s4_only_c0, ev_s4_only_c1, ev_s4_only_c2]

set_option maxRecDepth 100000 in
theorem ev_s4_one_pass : one_pass s4 = v4 := by
  unfold one_pass
  rw [ev_s4_eliminate, ev_s4_naked_twins, ev_s4_only_choice]

set_option maxRecDepth 100000 in
theorem ev_v4_solved : (boxes.filter (fun b => (bget v4 b).length == 1)) = [] := by decide

set_option maxRecDepth 100000 in
theorem ev_v4_eliminate : eliminate v4 = v4 := by
  unfold eliminate
  rw [ev_v4_solved]
  rfl

set_option maxRecDepth 100000 in
theorem ev_v4_naked_c0 : unitsA.foldl nakedUnitStep v4 = bd_v4_0 := by decide

set_option maxRecDepth 100000 in
theorem ev_v4_naked_c1 : unitsB.foldl nakedUnitStep bd_v4_0 = bd_v4_0 := by decide

set_option maxRecDepth 100000 in
theorem ev_v4_naked_c2 : unitsC.foldl nakedUnitStep bd_v4_0 = bd_v4_0 := by decide

set_option maxRecDepth 100000 in
theorem ev_v4_naked_twins : naked_twins v4 = bd_v4_0 := by
  unfold naked_twins
  rw [unit_list_split, List.foldl_append, List.foldl_append, ev_v4_naked_c0, ev_v4_naked_c1, ev_v4_naked_c2]

set_option maxRecDepth 100000 in
theorem ev_v4_only_c0 : unitsA.foldl onlyUnitStep bd_v4_0 = bd_v4_0 := by decide

set_option maxRecDepth 100000 in
theorem ev_v4_only_c1 : unitsB.foldl onlyUnitStep bd_v4_0 = bd_v4_0 := by decide

set_option maxRecDepth 100000 in
theorem ev_v4_only_c2 : unitsC.foldl onlyUnitStep bd_v4_0 = bd_v4_0 := by decide

set_option maxRecDepth 100000 in
theorem ev_v4_only_choice : only_choice bd_v4_0 = bd_v4_0 := by
  unfold only_choice
  rw [unit_list_split, List.foldl_append, List.foldl_append, ev_v4_only_c0, ev_v4_only_c1, ev_v4_only_c2]

set_option maxRecDepth 100000 in
theorem ev_v4_one_pass : one_pass v4 = bd_v4_0 := by
  unfold one_pass
  rw [ev_v4_eliminate, ev_v4_naked_twins, ev_v4_only_choice]

set_option maxRecDepth 100000 in
theorem ev_s4_WF : WF s4 := by
  unfold WF
  decide

set_option maxRecDepth 100000 in
theorem ev_v4_WF : WF v4 := by
  unfold WF
  decide

set_option maxRecDepth 100000 in
theorem ev_s4_reduce : reduce_puzzle s4 = .ok v4 := by
  rw [reduce_unfold _ ev_s4_WF, ev_s4_one_pass]
  rw [if_neg (by decide), if_pos (by decide)]

set_option maxRecDepth 100000 in
theorem ev_v4_reduce : reduce_puzzle v4 = .ok bd_v4_0 := by
  rw [reduce_unfold _ ev_v4_WF, ev_v4_one_pass]
  rw [if_neg (by decide), if_pos (by decide)]

set_option maxRecDepth 100000 in
theorem ev_g0_solved : (boxes.filter (fun b => (bget bd_g0_0 b).length == 1)) = [1, 2, 3, 4, 10, 11, 14, 15, 20, 26, 27, 30, 37, 41, 48, 56, 61, 64, 70, 72, 74] := by decide

set_option maxRecDepth 100000 in
theorem ev_g0_elim_c0 : ([1, 2, 3, 4, 10, 11, 14, 15] : List Nat).foldl elimBoxStep bd_g0_0 = bd_g0_1 := by decide

set_option maxRecDepth 100000 in
theorem ev_g0_elim_c1 : ([20, 26, 27, 30, 37, 41, 48, 56] : List Nat).foldl elimBoxStep bd_g0_1 = bd_g0_2 := by decide

set_option maxRecDepth 100000 in
theorem ev_g0_elim_c2 : ([61, 64, 70, 72, 74] : List Nat).foldl elimBoxStep bd_g0_2 = bd_g0_3 := by decide

set_option maxRecDepth 100000 in
theorem ev_g0_eliminate : eliminate bd_g0_0 = bd_g0_3 := by
  unfold eliminate
  rw [ev_g0_solved, show ([1, 2, 3, 4, 10, 11, 14, 15, 20, 26, 27, 30, 37, 41, 48, 56, 61, 64, 70, 72, 74] : List Nat) = [1, 2, 3, 4, 10, 11, 14, 15] ++ [20, 26, 27, 30, 37, 41, 48, 56] ++ [61, 64, 70, 72, 74] from rfl,
    List.foldl_append, List.foldl_append, ev_g0_elim_c0, ev_g0_elim_c1, ev_g0_elim_c2]

set_option maxRecDepth 100000 in
theorem ev_g0_naked_c0 : unitsA.foldl nakedUnitStep bd_g0_3 = bd_g0_3 := by decide

set_option maxRecDepth 100000 in
theorem ev_g0_naked_c1 : unitsB.foldl nakedUnitStep bd_g0_3 = bd_g0_3 := by decide

set_option maxRecDepth 100000 in
theorem ev_g0_naked_c2 : unitsC.foldl nakedUnitStep bd_g0_3 = bd_g0_3 := by decide

set_option maxRecDepth 100000 in
theorem ev_g0_naked_twins : naked_twins bd_g0_3 = bd_g0_3 := by
  unfold naked_twins
  rw [unit_list_split, List.foldl_append, List.foldl_append, ev_g0_naked_c0, ev_g0_naked_c1, ev_g0_naked_c2]

set_option maxRecDepth 100000 in
theorem ev_g0_only_c0 : unitsA.foldl onlyUnitStep bd_g0_3 = bd_g0_4 := by decide

set_option maxRecDepth 100000 in
theorem ev_g0_only_c1 : unitsB.foldl onlyUnitStep bd_g0_4 = bd_g0_4 := by decide

set_option maxRecDepth 100000 in
theorem ev_g0_only_c2 : unitsC.foldl onlyUnitStep bd_g0_4 = bd_g0_4 := by decide

set_option maxRecDepth 100000 in
theorem ev_g0_only_choice : only_choice bd_g0_3 = bd_g0_4 := by
  unfold only_choice
  rw [unit_list_split, List.foldl_append, List.foldl_append, ev_g0_only_c0, ev_g0_only_c1, ev_g0_only_c2]

set_option maxRecDepth 100000 in
theorem ev_g0_one_pass : one_pass bd_g0_0 = bd_g0_4 := by
  unfold one_pass
  rw [ev_g0_eliminate, ev_g0_naked_twins, ev_g0_only_choice]

set_option maxRecDepth 100000 in
theorem ev_g1_solved : (boxes.filter (fun b => (bget bd_g0_4 b).length == 1)) = [0, 1, 2, 3, 4, 10, 11, 14, 15, 20, 26, 27, 30, 37, 41, 48, 56, 61, 64, 70, 72, 74] := by decide

set_option maxRecDepth 100000 in
theorem ev_g1_elim_c0 : ([0, 1, 2, 3, 4, 10, 11, 14] : List Nat).foldl elimBoxStep bd_g0_4 = bd_g1_0 := by decide

set_option maxRecDepth 100000 in
theorem ev_g1_elim_c1 : ([15, 20, 26, 27, 30, 37, 41, 48] : List Nat).foldl elimBoxStep bd_g1_0 = bd_g1_0 := by decide

set_option maxRecDepth 100000 in
theorem ev_g1_elim_c2 : ([56, 61, 64, 70, 72, 74] : List Nat).foldl elimBoxStep bd_g1_0 = bd_g1_0 := by decide

set_option maxRecDepth 100000 in
theorem ev_g1_eliminate : eliminate bd_g0_4 = bd_g1_0 := by
  unfold eliminate
  rw [ev_g1_solved, show ([0, 1, 2, 3, 4, 10, 11, 14, 15, 20, 26, 27, 30, 37, 41, 48, 56, 61, 64, 70, 72, 74] : List Nat) = [0, 1, 2, 3, 4, 10, 11, 14] ++ [15, 20, 26, 27, 30, 37, 41, 48] ++ [56, 61, 64, 70, 72, 74] from rfl,
    List.foldl_append, List.foldl_append, ev_g1_elim_c0, ev_g1_elim_c1, ev_g1_elim_c2]

set_option maxRecDepth 100000 in
theorem ev_g1_naked_c0 : unitsA.foldl nakedUnitStep bd_g1_0 = bd_g1_0 := by decide

set_option maxRecDepth 100000 in
theorem ev_g1_naked_c1 : unitsB.foldl nakedUnitStep bd_g1_0 = bd_g1_0 := by decide

set_option maxRecDepth 100000 in
theorem ev_g1_naked_c2 : unitsC.foldl nakedUnitStep bd_g1_0 = bd_g1_0 := by decide

set_option maxRecDepth 100000 in
theorem ev_g1_naked_twins : naked_twins bd_g1_0 = bd_g1_0 := by
  unfold naked_twins
  rw [unit_list_split, List.foldl_append, List.foldl_append, ev_g1_naked_c0, ev_g1_naked_c1, ev_g1_naked_c2]

set_option maxRecDepth 100000 in
theorem ev_g1_only_c0 : unitsA.foldl onlyUnitStep bd_g1_0 = bd_g1_0 := by decide

set_option maxRecDepth 100000 in
theorem ev_g1_only_c1 : unitsB.foldl onlyUnitStep bd_g1_0 = bd_g1_0 := by decide

set_option maxRecDepth 100000 in
theorem ev_g1_only_c2 : unitsC.foldl onlyUnitStep bd_g1_0 = bd_g1_0 := by decide

set_option maxRecDepth 100000 in
theorem ev_g1_only_choice : only_choice bd_g1_0 = bd_g1_0 := by
  unfold only_choice
  rw [unit_list_split, List.foldl_append, List.foldl_append, ev_g1_only_c0, ev_g1_only_c1, ev_g1_only_c2]

set_option maxRecDepth 100000 in
theorem ev_g1_one_pass : one_pass bd_g0_4 = bd_g1_0 := by
  unfold one_pass
  rw [ev_g1_eliminate, ev_g1_naked_twins, ev_g1_only_choice]

set_option maxRecDepth 100000 in
theorem ev_br1_solved : (boxes.filter (fun b => (bget bd_br1_0 b).length == 1)) = [0, 1, 2, 3, 4, 10, 11, 14, 15, 16, 20, 26, 27, 30, 37, 41, 48, 56, 61, 64, 70, 72, 74] := by decide

set_option maxRecDepth 100000 in
theorem ev_br1_elim_c0 : ([0, 1, 2, 3, 4, 10, 11, 14] : List Nat).foldl elimBoxStep bd_br1_0 = bd_br1_0 := by decide

set_option maxRecDepth 100000 in
theorem ev_br1_elim_c1 : ([15, 16, 20, 26, 27, 30, 37, 41] : List Nat).foldl elimBoxStep bd_br1_0 = bd_br1_1 := by decide

set_option maxRecDepth 100000 in
theorem ev_br1_elim_c2 : ([48, 56, 61, 64, 70, 72, 74] : List Nat).foldl elimBoxStep bd_br1_1 = bd_br1_1 := by decide

set_option maxRecDepth 100000 in
theorem ev_br1_eliminate : eliminate bd_br1_0 = bd_br1_1 := by
  unfold eliminate
  rw [ev_br1_solved, show ([0, 1, 2, 3, 4, 10, 11, 14, 15, 16, 20, 26, 27, 30, 37, 41, 48, 56, 61, 64, 70, 72, 74] : List Nat) = [0, 1, 2, 3, 4, 10, 11, 14] ++ [15, 16, 20, 26, 27, 30, 37, 41] ++ [48, 56, 61, 64, 70, 72, 74] from rfl,
    List.foldl_append, List.foldl_append, ev_br1_elim_c0, ev_br1_elim_c1, ev_br1_elim_c2]

set_option maxRecDepth 100000 in
theorem ev_br1_naked_c0 : unitsA.foldl nakedUnitStep bd_br1_1 = bd_br1_2 := by decide

set_option maxRecDepth 100000 in
theorem ev_br1_naked_c1 : unitsB.foldl nakedUnitStep bd_br1_2 = bd_br1_3 := by decide

set_option maxRecDepth 100000 in
theorem ev_br1_naked_c2 : unitsC.foldl nakedUnitStep bd_br1_3 = bd_br1_4 := by decide

set_option maxRecDepth 100000 in
theorem ev_br1_naked_twins : naked_twins bd_br1_1 = bd_br1_4 := by
  unfold naked_twins
  rw [unit_list_split, List.foldl_append, List.foldl_append, ev_br1_naked_c0, ev_br1_naked_c1, ev_br1_naked_c2]

set_option maxRecDepth 100000 in
theorem ev_br1_only_c0 : unitsA.foldl onlyUnitStep bd_br1_4 = bd_br1_5 := by decide

set_option maxRecDepth 100000 in
theorem ev_br1_only_c1 : unitsB.foldl onlyUnitStep bd_br1_5 = bd_br1_5 := by decide

set_option maxRecDepth 100000 in
theorem ev_br1_only_c2 : unitsC.foldl onlyUnitStep bd_br1_5 = bd_br1_6 := by decide

set_option maxRecDepth 100000 in
theorem ev_br1_only_choice : only_choice bd_br1_4 = bd_br1_6 := by
  unfold only_choice
  rw [unit_list_split, List.foldl_append, List.foldl_append, ev_br1_only_c0, ev_br1_only_c1, ev_br1_only_c2]

set_option maxRecDepth 100000 in
theorem ev_br1_one_pass : one_pass bd_br1_0 = bd_br1_6 := by
  unfold one_pass
  rw [ev_br1_eliminate, ev_br1_naked_twins, ev_br1_only_choice]

set_option maxRecDepth 100000 in
theorem ev_br2_solved : (boxes.filter (fun b => (bget bd_br2_0 b).length == 1)) = [0, 1, 2, 3, 4, 10, 11, 14, 15, 16, 20, 26, 27, 30, 37, 41, 48, 56, 61, 64, 70, 72, 74] := by decide

set_option maxRecDepth 100000 in
theorem ev_br2_elim_c0 : ([0, 1, 2, 3, 4, 10, 11, 14] : List Nat).foldl elimBoxStep bd_br2_0 = bd_br2_0 := by decide

set_option maxRecDepth 100000 in
theorem ev_br2_elim_c1 : ([15, 16, 20, 26, 27, 30, 37, 41] : List Nat).foldl elimBoxStep bd_br2_0 = bd_br2_1 := by decide

set_option maxRecDepth 100000 in
theorem ev_br2_elim_c2 : ([48, 56, 61, 64, 70, 72, 74] : List Nat).foldl elimBoxStep bd_br2_1 = bd_br2_1 := by decide

set_option maxRecDepth 100000 in
theorem ev_br2_eliminate : eliminate bd_br2_0 = bd_br2_1 := by
  unfold eliminate
  rw [ev_br2_solved, show ([0, 1, 2, 3, 4, 10, 11, 14, 15, 16, 20, 26, 27, 30, 37, 41, 48, 56, 61, 64, 70, 72, 74] : List Nat) = [0, 1, 2, 3, 4, 10, 11, 14] ++ [15, 16, 20, 26, 27, 30, 37, 41] ++ [48, 56, 61, 64, 70, 72, 74] from rfl,
    List.foldl_append, List.foldl_append, ev_br2_elim_c0, ev_br2_elim_c1, ev_br2_elim_c2]

set_option maxRecDepth 100000 in
theorem ev_br2_naked_c0 : unitsA.foldl nakedUnitStep bd_br2_1 = bd_br2_1 := by decide

set_option maxRecDepth 100000 in
theorem ev_br2_naked_c1 : unitsB.foldl nakedUnitStep bd_br2_1 = bd_br2_1 := by decide

set_option maxRecDepth 100000 in
theorem ev_br2_naked_c2 : unitsC.foldl nakedUnitStep bd_br2_1 = bd_br2_2 := by decide

set_option maxRecDepth 100000 in
theorem ev_br2_naked_twins : naked_twins bd_br2_1 = bd_br2_2 := by
  unfold naked_twins
  rw [unit_list_split, List.foldl_append, List.foldl_append, ev_br2_naked_c0, ev_br2_naked_c1, ev_br2_naked_c2]

set_option maxRecDepth 100000 in
theorem ev_br2_only_c0 : unitsA.foldl onlyUnitStep bd_br2_2 = bd_br2_2 := by decide

set_option maxRecDepth 100000 in
theorem ev_br2_only_c1 : unitsB.foldl onlyUnitStep bd_br2_2 = bd_br2_2 := by decide

set_option maxRecDepth 100000 in
theorem ev_br2_only_c2 : unitsC.foldl onlyUnitStep bd_br2_2 = bd_br2_3 := by decide

set_option maxRecDepth 100000 in
theorem ev_br2_only_choice : only_choice bd_br2_2 = bd_br2_3 := by
  unfold only_choice
  rw [unit_list_split, List.foldl_append, List.foldl_append, ev_br2_only_c0, ev_br2_only_c1, ev_br2_only_c2]

set_option maxRecDepth 100000 in
theorem ev_br2_one_pass : one_pass bd_br2_0 = bd_br2_3 := by
  unfold one_pass
  rw [ev_br2_eliminate, ev_br2_naked_twins, ev_br2_only_choice]

set_option maxRecDepth 100000 in
theorem ev_g0_parse : grid_values gNone = some bd_g0_0 := by decide

set_option maxRecDepth 100000 in
theorem ev_g0_WF : WF bd_g0_0 := by
  unfold WF
  decide

set_option maxRecDepth 100000 in
theorem ev_g1_WF : WF bd_g0_4 := by
  unfold WF
  decide

set_option maxRecDepth 100000 in
theorem ev_br1_WF : WF bd_br1_0 := by
  unfold WF
  decide

set_option maxRecDepth 100000 in
theorem ev_br2_WF : WF bd_br2_0 := by
  unfold WF
  decide

set_option maxRecDepth 100000 in
theorem ev_g0_reduce : reduce_puzzle bd_g0_0 = .ok bd_g1_0 := by
  rw [reduce_unfold _ ev_g0_WF, ev_g0_one_pass]
  rw [if_neg (by decide), if_neg (by decide)]
  rw [reduce_unfold _ ev_g1_WF, ev_g1_one_pass]
  rw [if_neg (by decide), if_pos (by decide)]

set_option maxRecDepth 100000 in
theorem ev_br1_reduce : reduce_puzzle bd_br1_0 = .failed := by
  rw [reduce_unfold _ ev_br1_WF, ev_br1_one_pass]
  rw [if_pos (by decide)]

set_option maxRecDepth 100000 in
theorem ev_br2_reduce : reduce_puzzle bd_br2_0 = .failed := by
  rw [reduce_unfold _ ev_br2_WF, ev_br2_one_pass]
  rw [if_pos (by decide)]

set_option maxRecDepth 100000 in
theorem ev_gNone_solve : solve gNone = .sNone := by
  unfold solve
  rw [ev_g0_parse]
  show search bd_g0_0 = .sNone
  unfold search
  rw [show searchF 730 bd_g0_0 = searchStep (searchF 729) (reduce_puzzle bd_g0_0) from rfl]
  rw [ev_g0_reduce, searchStep_ok_eq]
  rw [if_neg (by decide)]
  rw [show chooseBox bd_g1_0 = some (2, 16) from by decide]
  show tryBranches (searchF 729) bd_g1_0 16 (bget bd_g1_0 16) = .sNone
  rw [show bget bd_g1_0 16 = [8, 9] from by decide]
  rw [tryBranches_cons_eq]
  rw [show assign_board bd_g1_0 16 [8] = bd_br1_0 from by decide]
  rw [show searchF 729 bd_br1_0 = searchStep (searchF 728) (reduce_puzzle bd_br1_0) from rfl]
  rw [ev_br1_reduce]
  show tryBranches (searchF 729) bd_g1_0 16 [9] = .sNone
  rw [tryBranches_cons_eq]
  rw [show assign_board bd_g1_0 16 [9] = bd_br2_0 from by decide]
  rw [show searchF 729 bd_br2_0 = searchStep (searchF 728) (reduce_puzzle bd_br2_0) from rfl]
  rw [ev_br2_reduce]
  rfl

set_option maxRecDepth 100000 in
theorem ev_s6_naked_c0 : unitsA.foldl nakedUnitStep s6 = bd_s6_0 := by decide

set_option maxRecDepth 100000 in
theorem ev_s6_naked_c1 : unitsB.foldl nakedUnitStep bd_s6_0 = bd_s6_0 := by decide

set_option maxRecDepth 100000 in
theorem ev_s6_naked_c2 : unitsC.foldl nakedUnitStep bd_s6_0 = bd_s6_1 := by decide

set_option maxRecDepth 100000 in
theorem ev_s6_naked_twins : naked_twins s6 = bd_s6_1 := by
  unfold naked_twins
  rw [unit_list_split, List.foldl_append, List.foldl_append, ev_s6_naked_c0, ev_s6_naked_c1, ev_s6_naked_c2]

/-! ## Helper lemmas for the claims -/

theorem sum_map_length_le (n : Nat) : ∀ l : Board, (∀ x ∈ l, x.length ≤ n) →
    totalC l ≤ n * l.length := by
  intro l
  induction l with
  | nil => intro _; simp [totalC]
  | cons x t ih =>
    intro h
    rw [totalC_cons]
    have h1 : x.length ≤ n := h x (List.mem_cons_self x t)
    have h2 : totalC t ≤ n * t.length := ih (fun y hy => h y (List.mem_cons_of_mem x hy))
    rw [List.length_cons]
    calc x.length + totalC t ≤ n + n * t.length := by omega
    _ = n * (t.length + 1) := by ring

theorem charToValues_len (c : Char) : (charToValues c).length ≤ 9 := by
  unfold charToValues
  split
  · decide
  · simp

theorem grid_values_totalC (g : List Char) (v : Board) (h : grid_values g = some v) :
    totalC v ≤ 729 := by
  rw [grid_values_eq] at h
  split at h
  · next hlen =>
    injection h with hv
    subst hv
    have hb : ∀ x ∈ (g.filter isMeaningful).map charToValues, x.length ≤ 9 := by
      intro x hx
      obtain ⟨c, _, hcx⟩ := List.mem_map.mp hx
      rw [← hcx]
      exact charToValues_len c
    have hs := sum_map_length_le 9 _ hb
    rw [hlen] at hs
    omega
  · exact absurd h (by simp)

/-! ## The claims -/

/-- C1: soundness of `solve` — whenever `solve` returns a board rather
than a failure value, that board settles every one of the 81 boxes to a
single digit, and every row, every column, every 3x3 square and both
main diagonals hold each digit 1-9 exactly once. -/
theorem claim_C1 (g : List Char) (b : Board) (h : solve g = .sFound b) :
    solvedBoard b ∧ validUnits b := by
  unfold solve at h
  cases hp : grid_values g with
  | none =>
    rw [hp] at h
    exact absurd h (by simp)
  | some v =>
    rw [hp] at h
    have hWF : WF v := grid_values_WF g v hp
    have h' : searchF 730 v = .sFound b := h
    obtain ⟨hsol, hWFb, hnodup, hsub⟩ := searchF_found 730 v b hWF h'
    exact ⟨(is_solved_iff b).mp hsol,
      solved_valid b hWFb hsol hnodup (hsub (grid_values_cells_sub g v hp))⟩

/-- Witness for C1 at the concrete grid `g81`. -/
theorem claim_C1_witness :
    solve g81 = .sFound bW ∧ (solvedBoard bW ∧ validUnits bW) :=
  ⟨solve_g81, claim_C1 g81 bW solve_g81⟩

/-- C2 (corrected): `is_solved` decides exactly that every box holds a
single candidate; it does not inspect unit constraints, so it accepts
boards that violate them (the original claim is refuted by the
everywhere-1 board). -/
theorem claim_C2 (b : Board) : is_solved b = true ↔ solvedBoard b := is_solved_iff b

/-- Counterexample for C2: the everywhere-1 board passes `is_solved`
although every unit repeats the settled digit 1. -/
theorem claim_C2_cex : is_solved allOnes = true ∧ hasDupSingleton allOnes := by
  constructor
  · decide
  · exact ⟨[0, 1, 2, 3, 4, 5, 6, 7, 8], by decide, 0, by decide, 1, by decide, by decide,
      1, by decide, by decide⟩

/-- C3 (corrected): on every grid the parser accepts, `solve` returns a
fully solved board or one of the two explicit failure values — the
Python `False` from a contradiction or the Python `None` from exhausted
branches — and never the exception or out-of-fuel paths; the two
failure values are distinct, contradicting the spec's claim that
exhausted branches yield the same value as a contradiction. -/
theorem claim_C3 (g : List Char) (v : Board) (hp : grid_values g = some v) :
    (∃ b, solve g = .sFound b ∧ solvedBoard b) ∨ solve g = .sFalse ∨ solve g = .sNone := by
  have hWF : WF v := grid_values_WF g v hp
  have hs : solve g = search v := by
    unfold solve
    rw [hp]
  have htc : totalC v ≤ 729 := grid_values_totalC g v hp
  rw [hs]
  unfold search
  cases hr : searchF 730 v with
  | sFound b =>
    obtain ⟨hsol, _, _, _⟩ := searchF_found 730 v b hWF hr
    exact Or.inl ⟨b, rfl, (is_solved_iff b).mp hsol⟩
  | sFalse => exact Or.inr (Or.inl rfl)
  | sNone => exact Or.inr (Or.inr rfl)
  | sOut => exact absurd hr (searchF_no_out 730 v hWF (by omega))
  | sErr => exact absurd hr (searchF_no_err 730 v hWF)

/-- Witness for C3 at the concrete grid `g81`. -/
theorem claim_C3_witness :
    grid_values g81 = some bW ∧
      ((∃ b, solve g81 = .sFound b ∧ solvedBoard b) ∨
        solve g81 = .sFalse ∨ solve g81 = .sNone) :=
  ⟨grid_values_g81, claim_C3 g81 bW grid_values_g81⟩

/-- Counterexample for C3: exhausted branches return the Python `None`
(grid `gNone`), a single contradiction returns the Python `False`
(grid `gFalse`), and the two values differ. -/
theorem claim_C3_cex :
    solve gNone = .sNone ∧ solve gFalse = .sFalse ∧ SResult.sNone ≠ SResult.sFalse :=
  ⟨ev_gNone_solve, ev_gFalse_solve, by decide⟩

/-- C4 (corrected): the fixpoint driver is idempotent on the solved
boards it returns — if `reduce_puzzle` returns a solved board, a second
run returns that board unchanged.  The original unconditional claim is
false: on a stalled but unsolved output a second run can shrink further
candidates. -/
theorem claim_C4 (v w : Board) (hWF : WF v) (hok : reduce_puzzle v = .ok w)
    (hsol : is_solved w = true) : reduce_puzzle w = .ok w := by
  have hWFw : WF w := (reduceLoop_ok_spec 82 v w hWF hok).1
  exact reduce_solved_fixed w hWFw hsol
    (fun b1 b2 d hb1 hb2 hne hsu h1 h2 =>
      reduce_ok_no_dup 82 v w hWF hok b1 b2 d hb1 hb2 hne hsu h1 h2)

/-- Witness for C4 at the concrete solved board `bW`. -/
theorem claim_C4_witness :
    WF bW ∧ reduce_puzzle bW = .ok bW ∧ is_solved bW = true ∧ reduce_puzzle bW = .ok bW :=
  ⟨bW_WF, reduce_bW, bW_solved, claim_C4 bW bW bW_WF reduce_bW bW_solved⟩

set_option maxRecDepth 100000 in
/-- Counterexample for C4: `reduce_puzzle` maps the stalled board `s4`
to `v4`, but a second run shrinks `v4` further (the naked pair `34` of
row A fires only after the pair `12` has been cleaned up). -/
theorem claim_C4_cex : reduce_puzzle s4 = .ok v4 ∧ reduce_puzzle v4 ≠ .ok v4 := by
  refine ⟨ev_s4_reduce, ?_⟩
  rw [ev_v4_reduce]
  decide

/-- C5: contract of the fixpoint driver — each pass applies
`eliminate`, `naked_twins`, `only_choice` in that fixed order
(`one_pass`); the loop returns the Python `False` at the end of any
pass that empties a box, exits with the current board exactly when the
solved-box count did not change over the pass, and otherwise runs
another pass. -/
theorem claim_C5 (v : Board) (hWF : WF v) :
    reduce_puzzle v =
      if ((one_pass v).filter (fun x => x.length == 0)).length ≠ 0 then .failed
      else if n_solved v = n_solved (one_pass v) then .ok (one_pass v)
      else reduce_puzzle (one_pass v) := reduce_unfold v hWF

/-- Witness for C5 at the concrete board `allOnes`. -/
theorem claim_C5_witness :
    WF allOnes ∧
      reduce_puzzle allOnes =
        (if ((one_pass allOnes).filter (fun x => x.length == 0)).length ≠ 0 then .failed
         else if n_solved allOnes = n_solved (one_pass allOnes) then .ok (one_pass allOnes)
         else reduce_puzzle (one_pass allOnes)) :=
  ⟨by unfold WF; decide, claim_C5 allOnes (by unfold WF; decide)⟩

/-- C6 (corrected): per-unit naked-twins postcondition — when exactly
`k` boxes of a unit share one `k`-element candidate list (2 ≤ k ≤ 8),
the processing of that unit (`nakedUnitStep`) removes every one of
those `k` digits from every other box of the unit.  The original claim
about the full `naked_twins` pass is false: processing an earlier unit
can destroy a twin pair before its unit is reached. -/
theorem claim_C6 (vs : Board) (u : List Nat) (_ : u ∈ unit_list) (D : Values)
    (h2 : 2 ≤ D.length) (h8 : D.length ≤ 8)
    (hk : (twinCells vs u D).length = D.length)
    (b : Nat) (hb : b ∈ u) (hbT : b ∉ twinCells vs u D) (d : Nat) (hd : d ∈ D) :
    d ∉ bget (nakedUnitStep vs u) b :=
  nakedUnitStep_twins vs u D h2 h8 hk b hb hbT d hd

/-- Witness for C6: the pair `12` in boxes `A1, B1` of column 1 of `s6`
clears the digit 1 from box `C1` when that column is processed. -/
theorem claim_C6_witness :
    [0, 9, 18, 27, 36, 45, 54, 63, 72] ∈ unit_list ∧
      1 ∉ bget (nakedUnitStep s6 [0, 9, 18, 27, 36, 45, 54, 63, 72]) 18 :=
  ⟨by decide, claim_C6 s6 [0, 9, 18, 27, 36, 45, 54, 63, 72] (by decide) [1, 2]
    (by decide) (by decide) (by decide) 18 (by decide) (by decide) 1 (by decide)⟩

set_option maxRecDepth 100000 in
/-- Counterexample for C6: in `s6`, column 1 holds the naked pair `12`
in exactly its boxes `A1, B1`, yet after the full `naked_twins` pass
box `C1` still has the candidate 1 — row A's pair `24` fires first and
shrinks `A1` to `1`, destroying the column's pair before column 1 is
processed. -/
theorem claim_C6_cex :
    [0, 9, 18, 27, 36, 45, 54, 63, 72] ∈ unit_list ∧
      ([1, 2] : Values).length = 2 ∧
      (twinCells s6 [0, 9, 18, 27, 36, 45, 54, 63, 72] [1, 2]).length = 2 ∧
      18 ∈ [0, 9, 18, 27, 36, 45, 54, 63, 72] ∧
      18 ∉ twinCells s6 [0, 9, 18, 27, 36, 45, 54, 63, 72] [1, 2] ∧
      1 ∈ ([1, 2] : Values) ∧
      1 ∈ bget (naked_twins s6) 18 := by
  refine ⟨by decide, by decide, by decide, by decide, by decide, by decide, ?_⟩
  rw [ev_s6_naked_twins]
  decide

/-- C7: contract of the assignment primitive — storing the box's
current value is a complete no-op on state and log; otherwise exactly
that box changes, and one full snapshot of the resulting state is
appended to the log exactly when the new value has one element. -/
theorem claim_C7 (v : Board) (l : List Board) (box : Nat) (x : Values)
    (hbox : box < 81) (hWF : WF v) :
    (bget v box = x → assign_value v l box x = (v, l)) ∧
    (bget v box ≠ x →
      bget (assign_value v l box x).1 box = x ∧
      (∀ j, j ≠ box → bget (assign_value v l box x).1 j = bget v j) ∧
      (assign_value v l box x).2 =
        (if x.length = 1 then l ++ [(assign_value v l box x).1] else l)) := by
  constructor
  · intro heq
    rw [assign_value_eq, if_pos heq]
  · intro hne
    rw [assign_value_eq, if_neg hne]
    refine ⟨?_, ?_, ?_⟩
    · show (v.set box x).getD box [] = x
      exact getD_set_self v box x [] (by rw [hWF]; exact hbox)
    · intro j hj
      show (v.set box x).getD j [] = bget v j
      exact getD_set_ne v box j x [] hj
    · rfl

/-- Witness for C7 at a concrete assignment into `allOnes`. -/
theorem claim_C7_witness :
    (0 : Nat) < 81 ∧ WF allOnes ∧
      bget (assign_value allOnes [] 0 [2, 3]).1 0 = [2, 3] :=
  ⟨by decide, by unfold WF; decide,
    ((claim_C7 allOnes [] 0 [2, 3] (by decide) (by unfold WF; decide)).2 (by decide)).1⟩

/-- C8 (corrected): the parser keeps exactly the digit characters and
the dot, maps a digit to its singleton list and the dot to the full
digit list, succeeds exactly when 81 characters are kept, and assigns
them to the boxes in row-major order.  The original claim is corrected
in one point: the dot is the only blank placeholder — any other
non-digit character is ignored as noise, not treated as a blank. -/
theorem claim_C8 (g : List Char) :
    (∀ c, isMeaningful c = true ↔ (c ∈ digitChars ∨ c = '.')) ∧
    charToValues '.' = digitsV ∧
    (∀ c ∈ digitChars, charToValues c = [c.toNat - 48]) ∧
    ((∃ v, grid_values g = some v) ↔ (g.filter isMeaningful).length = 81) ∧
    (∀ v, grid_values g = some v → ∀ i, i < 81 →
      bget v i = charToValues ((g.filter isMeaningful).getD i '.')) := by
  refine ⟨?_, rfl, ?_, grid_values_some_iff g, ?_⟩
  · intro c
    unfold isMeaningful
    rw [Bool.or_eq_true]
    constructor
    · rintro (h | h)
      · exact Or.inl (by simpa using h)
      · exact Or.inr (by simpa using h)
    · rintro (h | h)
      · exact Or.inl (by simpa using h)
      · exact Or.inr (by simpa using h)
  · intro c hc
    fin_cases hc <;> rfl
  · intro v hv i hi
    exact grid_values_cell g v hv i hi

set_option maxRecDepth 100000 in
/-- Counterexample for C8: the character `x` is not a blank
placeholder — it is ignored, so prepending it to a full grid leaves the
parse unchanged, and replacing a meaningful character by it makes the
81-character count fail instead of producing a blank box. -/
theorem claim_C8_cex :
    isMeaningful 'x' = false ∧
      grid_values ('x' :: dots81) = grid_values dots81 ∧
      grid_values ('x' :: List.replicate 80 '.') = none := by
  refine ⟨by decide, by decide, by decide⟩

/-- C9: termination and success on the empty puzzle — `solve` on the
string of 81 dots returns a board in which every box holds exactly one
digit and every row, column and 3x3 square holds each digit 1-9 exactly
once. -/
theorem claim_C9 : ∃ b, solve dots81 = .sFound b ∧ solvedBoard b ∧ validStandard b := by
  obtain ⟨b, h1, h2, h3⟩ := solve_dots_spec
  exact ⟨b, h1, h2, validUnits_standard b h3⟩

set_option maxRecDepth 100000 in
/-- C10: the diagonal constraint is always on — `unit_list` holds
exactly 29 units (9 rows, 9 columns, 9 squares and the 2 main
diagonals, always included), a box off both diagonals has exactly 20
peers, and a box on a diagonal has more than 20. -/
theorem claim_C10 :
    unit_list.length = 29 ∧
    row_units.length = 9 ∧ column_units.length = 9 ∧ square_units.length = 9 ∧
    diagonal_units.length = 2 ∧ (∀ u ∈ diagonal_units, u ∈ unit_list) ∧
    (∀ b ∈ boxes, b ∉ diagonal_units.flatten → (peers b).length = 20) ∧
    (∀ b ∈ boxes, b ∈ diagonal_units.flatten → 20 < (peers b).length) := by
  refine ⟨by decide, by decide, by decide, by decide, by decide, by decide, ?_, ?_⟩
  · decide
  · decide
